import Mathlib

/-!
A shallow embedding of the XLS NoC simulator kernel
(`xls/noc/simulation/sim_objects.cc`) in Lean 4.

Machine integers (`int64`) are modelled as `Int` (overflow never occurs at the
magnitudes the kernel manipulates: cycle counters, credit counts and queue
sizes), `std::queue` as `List` (front of the queue = head of the list, push =
append at the back), and `std::vector` as `List` with index access modelled by
`List.getD` / `List.set` (`List.set` out of range is a no-op; the C++ code never
indexes out of range for well-formed networks).  Mutation of the simulator is
modelled by explicit state passing.  `XLS_CHECK_OK` (a process abort on
failure) is modelled by `Option`: `none` means the process crashed.

The routing table (`DistributedRoutingTable`) is an external collaborator of
the kernel; following the spec it is modelled as an opaque query function
stored in the simulator, keyed by the router's id.
-/

namespace NocSim

/-- `DataPhit` from `common.h`: the payload travelling on forward channels. -/
structure DataPhit where
  data : Int
  valid : Bool
  vc : Nat
  destination_index : Nat
deriving Repr, DecidableEq

instance : Inhabited DataPhit := ⟨⟨0, false, 0, 0⟩⟩

/-- `MetadataPhit`: credit information travelling on reverse channels. -/
structure MetadataPhit where
  data : Int
  valid : Bool
deriving Repr, DecidableEq

instance : Inhabited MetadataPhit := ⟨⟨0, false⟩⟩

/-- `TimedPhit`: a phit together with the simulation cycle that wrote it
(`TimedDataPhit` / `TimedMetadataPhit` in the source). -/
structure TimedPhit (α : Type) where
  cycle : Int
  phit : α
deriving Repr, DecidableEq

instance [Inhabited α] : Inhabited (TimedPhit α) := ⟨⟨0, default⟩⟩

abbrev TimedDataPhit := TimedPhit DataPhit
abbrev TimedMetadataPhit := TimedPhit MetadataPhit

/-- `SimConnectionState`: one forward timed phit plus one reverse timed phit
per VC of the upstream port. -/
structure SimConnectionState where
  forward_channels : TimedDataPhit
  reverse_channels : List TimedMetadataPhit
deriving Repr, DecidableEq

instance : Inhabited SimConnectionState := ⟨⟨default, []⟩⟩

/-- `CreditState`: a credit update received during reverse propagation,
applied at the start of the next cycle's forward pass. -/
structure CreditState where
  cycle : Int
  credit : Int
deriving Repr, DecidableEq

instance : Inhabited CreditState := ⟨⟨0, 0⟩⟩

/-- Access a connection by index (`GetSimConnectionByIndex`). -/
def getConn (conns : List SimConnectionState) (i : Nat) : SimConnectionState :=
  conns.getD i default

/-- Two-dimensional indexed read for vector-of-vector state. -/
def get2D [Inhabited α] (l : List (List α)) (i j : Nat) : α :=
  (l.getD i []).getD j default

/-- Two-dimensional indexed write for vector-of-vector state. -/
def set2D (l : List (List α)) (i j : Nat) (v : α) : List (List α) :=
  l.set i ((l.getD i []).set j v)

/-- The bubble written by `SimplePipelineImpl` when the internal FIFO is not
yet full: the C++ mutates only `valid` and `data` of the downstream phit,
leaving the remaining fields as they were. -/
def dataBubbleOf (p : DataPhit) : DataPhit :=
  { p with valid := false, data := 0 }

/-- Bubble for the metadata instantiation of the pipeline. -/
def metaBubbleOf (p : MetadataPhit) : MetadataPhit :=
  { p with valid := false, data := 0 }

/-- `SimplePipelineImpl::TryPropagation` (sim_objects.cc lines 58-89).
`bubbleOf` abstracts the template-dependent bubble write (clear `valid` and
`data` of the downstream phit).  Returns (result, downstream slot, FIFO); the
upstream slot is only read.  Note the fall-through: the tick that consumes the
upstream phit and drives the downstream slot still returns `false`; only the
both-already-stamped case returns `true`. -/
def simplePipelineTryPropagation (bubbleOf : α → α) (current_cycle : Int)
    (stage_count : Int) (fromCh toCh : TimedPhit α) (state : List α) :
    Bool × TimedPhit α × List α :=
  if fromCh.cycle = current_cycle then
    if toCh.cycle = current_cycle then
      (true, toCh, state)
    else
      let state1 := state ++ [fromCh.phit]
      if (state1.length : Int) > stage_count then
        (false, { cycle := current_cycle, phit := state1.headD (bubbleOf toCh.phit) },
          state1.tail)
      else
        (false, { cycle := current_cycle, phit := bubbleOf toCh.phit }, state1)
  else
    (false, toCh, state)

/-- `SimNetworkInterfaceSrc`: traffic injector.  Per VC: a send queue
(`data_to_send_`), a credit counter (`credit_`) and a pending credit update
(`credit_update_`).  The `forward_propagated_cycle` / `reverse_propagated_cycle`
fields are the per-phase completion markers of `SimNetworkComponentBase`. -/
structure SimNetworkInterfaceSrc where
  data_to_send : List (List TimedDataPhit)
  credit : List Int
  credit_update : List CreditState
  sink_connection_index : Nat
  forward_propagated_cycle : Int
  reverse_propagated_cycle : Int
deriving Repr, DecidableEq

/-- `SimLink`: a pipelined forward lane and one pipelined reverse lane per VC. -/
structure SimLink where
  forward_pipeline_stages : Int
  reverse_pipeline_stages : Int
  src_connection_index : Nat
  sink_connection_index : Nat
  forward_data_stages : List DataPhit
  reverse_credit_stages : List (List MetadataPhit)
  forward_propagated_cycle : Int
  reverse_propagated_cycle : Int
deriving Repr, DecidableEq

/-- One input-buffer FIFO with its configured capacity (`DataPhitQueue`). -/
structure DataPhitQueue where
  max_queue_size : Int
  queue : List DataPhit
deriving Repr, DecidableEq

instance : Inhabited DataPhitQueue := ⟨⟨0, []⟩⟩

/-- `SimInputBufferedVCRouter`.  The source stores the connection indices of
the input/output ports in a shared store owned by the simulator
(`input_connection_index_start_` + count); that store is purely a memory-layout
device, so the indices are embedded here directly as per-router lists. -/
structure SimInputBufferedVCRouter where
  rid : Nat
  input_connection_index : List Nat
  output_connection_index : List Nat
  input_buffers : List (List DataPhitQueue)
  input_credit_to_send : List (List Int)
  credit : List (List Int)
  credit_update : List (List CreditState)
  max_vc : Nat
  internal_propagated_cycle : Int
  forward_propagated_cycle : Int
  reverse_propagated_cycle : Int
deriving Repr, DecidableEq

/-- `SimNetworkInterfaceSink`: per-VC input buffers (used only for their
configured depth in this core, since the sink always drains) and the log of
received traffic. -/
structure SimNetworkInterfaceSink where
  input_buffers : List DataPhitQueue
  received_traffic : List TimedDataPhit
  src_connection_index : Nat
  forward_propagated_cycle : Int
  reverse_propagated_cycle : Int
deriving Repr, DecidableEq

/-- `PortIndexAndVCIndex` (router-local port index plus VC index). -/
structure PortIndexAndVCIndex where
  port_index : Nat
  vc_index : Nat
deriving Repr, DecidableEq

/-- `NocSimulator`: owns the cycle counter, the connection table and the four
component vectors.  `routing` models the external `DistributedRoutingTable`
consulted by `GetDestinationPortIndexAndVcIndex`, keyed by the router id:
given (router id, input port index + input VC, destination index) it yields
the output port index + output VC, or fails (`none`). -/
structure NocSimulator where
  cycle : Int
  connections : List SimConnectionState
  routing : Nat → PortIndexAndVCIndex → Nat → Option PortIndexAndVCIndex
  network_interface_sources : List SimNetworkInterfaceSrc
  links : List SimLink
  routers : List SimInputBufferedVCRouter
  network_interface_sinks : List SimNetworkInterfaceSink

/-! ## SimNetworkInterfaceSrc operations -/

/-- The credit-application step at the top of
`SimNetworkInterfaceSrc::TryForwardPropagation` (lines 560-567): each pending
update with a positive credit count is added into the credit counter.  The C++
loop runs over the indices of `credit_`; the two vectors have equal length by
construction, and a missing update entry adds nothing. -/
def applyCreditUpdates : List Int → List CreditState → List Int
  | [], _ => []
  | c :: cs, [] => c :: applyCreditUpdates cs []
  | c :: cs, u :: us =>
      (if u.credit > 0 then c + u.credit else c) :: applyCreditUpdates cs us

/-- The send scan of `SimNetworkInterfaceSrc::TryForwardPropagation`
(lines 570-596): scan VCs in ascending index; at the first VC whose queue head
is ready (`cycle ≤ current_cycle`) and whose credit is positive, pop the queue,
decrement the credit and return the head phit with `vc` overridden to the scan
index and `valid` set.  A ready head without credit does not stop the scan.
Returns (queues, credits, sent phit if any). -/
def srcSendScan (current_cycle : Int) (idx : Nat) :
    List (List TimedDataPhit) → List Int →
    List (List TimedDataPhit) × List Int × Option DataPhit
  | [], cs => ([], cs, none)
  | q :: qs, [] =>
      let r := srcSendScan current_cycle (idx + 1) qs []
      (q :: r.1, r.2.1, r.2.2)
  | q :: qs, c :: cs =>
      match q with
      | [] =>
          let r := srcSendScan current_cycle (idx + 1) qs cs
          (q :: r.1, c :: r.2.1, r.2.2)
      | p :: rest =>
          if p.cycle ≤ current_cycle then
            if c > 0 then
              (rest :: qs, (c - 1) :: cs,
                some { p.phit with vc := idx, valid := true })
            else
              let r := srcSendScan current_cycle (idx + 1) qs cs
              (q :: r.1, c :: r.2.1, r.2.2)
          else
            let r := srcSendScan current_cycle (idx + 1) qs cs
            (q :: r.1, c :: r.2.1, r.2.2)

/-- `SimNetworkInterfaceSrc::TryForwardPropagation` (lines 548-609): apply
pending credit updates, scan for a sendable phit, and write either the phit
(valid, vc overridden, stamped with the current cycle) or a bubble (all payload
fields zeroed) onto the sink connection's forward channel.  Always succeeds. -/
def srcTryForwardPropagation (current_cycle : Int)
    (conns : List SimConnectionState) (src : SimNetworkInterfaceSrc) :
    List SimConnectionState × SimNetworkInterfaceSrc × Bool :=
  let credit1 := applyCreditUpdates src.credit src.credit_update
  let scan := srcSendScan current_cycle 0 src.data_to_send credit1
  let sink := getConn conns src.sink_connection_index
  let fwd : TimedDataPhit :=
    match scan.2.2 with
    | some phit => { cycle := current_cycle, phit := phit }
    | none =>
        { cycle := current_cycle,
          phit := { valid := false, data := 0, vc := 0, destination_index := 0 } }
  (conns.set src.sink_connection_index { sink with forward_channels := fwd },
    { src with data_to_send := scan.1, credit := scan.2.1,
               forward_propagated_cycle := current_cycle },
    true)

/-- The credit-capture loop shared by the source's and the router's reverse
propagation (lines 619-637 and 880-904): for each VC whose reverse channel
carries this cycle's stamp, capture the credit update (once per cycle) and
count it as propagated.  `idx` is the index of the first entry of `us` in the
credit-update vector.  Returns (updates, number propagated). -/
def captureCredits (current_cycle : Int) (revCh : List TimedMetadataPhit)
    (idx : Nat) : List CreditState → List CreditState × Nat
  | [] => ([], 0)
  | u :: us =>
      let r := captureCredits current_cycle revCh (idx + 1) us
      let possible := revCh.getD idx default
      if possible.cycle = current_cycle then
        let u1 :=
          if u.cycle ≠ current_cycle then
            { cycle := current_cycle,
              credit := if possible.phit.valid then possible.phit.data else 0 }
          else u
        (u1 :: r.1, r.2 + 1)
      else
        (u :: r.1, r.2)

/-- `SimNetworkInterfaceSrc::TryReversePropagation` (lines 611-650): capture
credit updates from the sink connection's reverse channels; succeed when every
VC's reverse channel carries this cycle's stamp. -/
def srcTryReversePropagation (current_cycle : Int)
    (conns : List SimConnectionState) (src : SimNetworkInterfaceSrc) :
    SimNetworkInterfaceSrc × Bool :=
  let sink := getConn conns src.sink_connection_index
  let r := captureCredits current_cycle sink.reverse_channels 0 src.credit_update
  if r.2 = src.credit_update.length then
    ({ src with credit_update := r.1, reverse_propagated_cycle := current_cycle },
      true)
  else
    ({ src with credit_update := r.1 }, false)

/-! ## SimLink operations -/

/-- `SimLink::TryForwardPropagation` (lines 499-518): one data pipeline from
the src connection's forward channel to the sink connection's forward
channel. -/
def linkTryForwardPropagation (current_cycle : Int)
    (conns : List SimConnectionState) (l : SimLink) :
    List SimConnectionState × SimLink × Bool :=
  let src := getConn conns l.src_connection_index
  let sink := getConn conns l.sink_connection_index
  let r := simplePipelineTryPropagation dataBubbleOf current_cycle
      l.forward_pipeline_stages src.forward_channels sink.forward_channels
      l.forward_data_stages
  let conns1 := conns.set l.sink_connection_index
      { sink with forward_channels := r.2.1 }
  let l1 := { l with forward_data_stages := r.2.2 }
  if r.1 then
    (conns1, { l1 with forward_propagated_cycle := current_cycle }, true)
  else
    (conns1, l1, false)

/-- The per-VC loop of `SimLink::TryReversePropagation` (lines 526-538): one
metadata pipeline per VC from the sink connection's reverse channel to the src
connection's reverse channel.  Returns (connections, per-VC FIFO states,
number propagated). -/
def linkRevLoop (current_cycle : Int) (l : SimLink) :
    List Nat → List SimConnectionState →
    List SimConnectionState × List (List MetadataPhit) × Nat
  | [], conns => (conns, l.reverse_credit_stages, 0)
  | vc :: vcs, conns =>
      let sink := getConn conns l.sink_connection_index
      let src := getConn conns l.src_connection_index
      let p := simplePipelineTryPropagation metaBubbleOf current_cycle
          l.reverse_pipeline_stages (sink.reverse_channels.getD vc default)
          (src.reverse_channels.getD vc default)
          (l.reverse_credit_stages.getD vc [])
      let conns1 := conns.set l.src_connection_index
          { src with reverse_channels := src.reverse_channels.set vc p.2.1 }
      let r := linkRevLoop current_cycle l vcs conns1
      (r.1, r.2.1.set vc p.2.2, r.2.2 + (if p.1 then 1 else 0))

/-- `SimLink::TryReversePropagation` (lines 520-546): run the per-VC reverse
pipelines; succeed when all VCs (of the sink connection) propagated. -/
def linkTryReversePropagation (current_cycle : Int)
    (conns : List SimConnectionState) (l : SimLink) :
    List SimConnectionState × SimLink × Bool :=
  let vc_count := (getConn conns l.sink_connection_index).reverse_channels.length
  let r := linkRevLoop current_cycle l (List.range vc_count) conns
  let l1 := { l with reverse_credit_stages := r.2.1 }
  if r.2.2 = vc_count then
    (r.1, { l1 with reverse_propagated_cycle := current_cycle }, true)
  else
    (r.1, l1, false)

/-! ## SimInputBufferedVCRouter operations -/

/-- Nested variant of the credit-application step,
`SimInputBufferedVCRouter::TryForwardPropagation` lines 688-704: for each
output port and VC, add a pending positive credit update into the credit
counter.  The C++ loop runs over `credit_update_`'s indices; the two nested
vectors have equal shape by construction. -/
def applyCreditUpdates2D : List (List Int) → List (List CreditState) →
    List (List Int)
  | [], _ => []
  | r :: rs, [] => r :: applyCreditUpdates2D rs []
  | r :: rs, u :: us => applyCreditUpdates r u :: applyCreditUpdates2D rs us

/-- The input-readiness gate (lines 710-719): forward arbitration requires
every input connection's forward channel to carry this cycle's stamp. -/
def routerInputsReady (current_cycle : Int) (in_idx : List Nat)
    (conns : List SimConnectionState) : Bool :=
  in_idx.all fun j => (getConn conns j).forward_channels.cycle = current_cycle

/-- Zero the per-input-VC credit-return accumulator (lines 726-730). -/
def zeroCreditToSend (ics : List (List Int)) : List (List Int) :=
  ics.map (List.map fun _ => 0)

/-- The ingest step (lines 734-747): for each input port, if this cycle's
forward phit is valid, push it onto the input buffer selected by the phit's
`vc` field. -/
def routerIngest (in_idx : List Nat) (conns : List SimConnectionState)
    (bufs : List (List DataPhitQueue)) : List (List DataPhitQueue) :=
  (List.range in_idx.length).foldl
    (fun bs i =>
      let input := getConn conns (in_idx.getD i 0)
      if input.forward_channels.phit.valid then
        let vc := input.forward_channels.phit.vc
        let q := get2D bs i vc
        set2D bs i vc { q with queue := q.queue ++ [input.forward_channels.phit] }
      else bs)
    bufs

/-- The mutable state threaded through the router's arbitration loop. -/
structure RouterArbState where
  conns : List SimConnectionState
  input_buffers : List (List DataPhitQueue)
  input_credit_to_send : List (List Int)
  credit : List (List Int)
deriving Repr

/-- One iteration of the fixed-priority arbitration loop
(lines 751-812) for the pair (vc, input port i): skip if the input has no such
VC or its buffer is empty; look up the route for the buffered head phit
(`XLS_CHECK_OK` on failure aborts the process — modelled by `none`); skip if
the chosen output lacks credit or its forward channel was already written this
cycle; otherwise send the phit (vc overridden, valid, stamped), decrement the
output credit, increment the input credit to return, and pop the buffer. -/
def routerArbStep (route : PortIndexAndVCIndex → Nat → Option PortIndexAndVCIndex)
    (out_idx : List Nat) (current_cycle : Int) (st : RouterArbState)
    (p : Nat × Nat) : Option RouterArbState :=
  let vc := p.1
  let i := p.2
  if vc ≥ (st.input_buffers.getD i []).length then some st
  else
    let buf := get2D st.input_buffers i vc
    match buf.queue with
    | [] => some st
    | phit :: rest =>
        match route ⟨i, vc⟩ phit.destination_index with
        | none => none
        | some output =>
            if get2D st.credit output.port_index output.vc_index ≤ 0 then some st
            else
              let oconn_idx := out_idx.getD output.port_index 0
              let oconn := getConn st.conns oconn_idx
              if oconn.forward_channels.cycle = current_cycle then some st
              else
                let sent : DataPhit := { phit with valid := true, vc := output.vc_index }
                some
                  { conns := st.conns.set oconn_idx
                      { oconn with forward_channels :=
                          { cycle := current_cycle, phit := sent } },
                    input_buffers := set2D st.input_buffers i vc
                      { buf with queue := rest },
                    input_credit_to_send := set2D st.input_credit_to_send i vc
                      (get2D st.input_credit_to_send i vc + 1),
                    credit := set2D st.credit output.port_index output.vc_index
                      (get2D st.credit output.port_index output.vc_index - 1) }

/-- The full arbitration loop over the (vc, input) pairs in priority order. -/
def routerArbLoop (route : PortIndexAndVCIndex → Nat → Option PortIndexAndVCIndex)
    (out_idx : List Nat) (current_cycle : Int) :
    List (Nat × Nat) → RouterArbState → Option RouterArbState
  | [], st => some st
  | p :: ps, st =>
      match routerArbStep route out_idx current_cycle st p with
      | none => none
      | some st1 => routerArbLoop route out_idx current_cycle ps st1

/-- The (vc, input) pairs in the order iterated by the nested loops of
lines 751-752: vc-major, input-port-minor. -/
def arbPairs (max_vc : Nat) (num_inputs : Nat) : List (Nat × Nat) :=
  (List.range max_vc).flatMap fun vc =>
    (List.range num_inputs).map fun i => (vc, i)

/-- The bubble fill (lines 815-825): every output connection not written this
cycle receives an invalid, zeroed phit stamped with the current cycle. -/
def routerBubbleFill (current_cycle : Int) (out_idx : List Nat)
    (conns : List SimConnectionState) : List SimConnectionState :=
  out_idx.foldl
    (fun cs j =>
      let c := getConn cs j
      if c.forward_channels.cycle ≠ current_cycle then
        cs.set j
          { c with forward_channels :=
              { cycle := current_cycle,
                phit := { data := 0, valid := false, vc := 0,
                          destination_index := 0 } } }
      else cs)
    conns

/-- `SimInputBufferedVCRouter::TryForwardPropagation` (lines 675-830).
`route` is the simulator's routing table applied to this router's id.
`none` models the `XLS_CHECK_OK` process abort on a failed routing lookup. -/
def routerTryForwardPropagation
    (route : PortIndexAndVCIndex → Nat → Option PortIndexAndVCIndex)
    (current_cycle : Int) (conns : List SimConnectionState)
    (r : SimInputBufferedVCRouter) :
    Option (List SimConnectionState × SimInputBufferedVCRouter × Bool) :=
  let r1 :=
    if r.internal_propagated_cycle ≠ current_cycle then
      { r with credit := applyCreditUpdates2D r.credit r.credit_update,
               internal_propagated_cycle := current_cycle }
    else r
  if ¬ routerInputsReady current_cycle r1.input_connection_index conns then
    some (conns, r1, false)
  else
    let ics0 := zeroCreditToSend r1.input_credit_to_send
    let bufs1 := routerIngest r1.input_connection_index conns r1.input_buffers
    match routerArbLoop (route) r1.output_connection_index current_cycle
        (arbPairs r1.max_vc bufs1.length)
        ⟨conns, bufs1, ics0, r1.credit⟩ with
    | none => none
    | some st =>
        some (routerBubbleFill current_cycle r1.output_connection_index st.conns,
          { r1 with input_buffers := st.input_buffers,
                    input_credit_to_send := st.input_credit_to_send,
                    credit := st.credit,
                    forward_propagated_cycle := current_cycle },
          true)

/-- The credit-return loop of
`SimInputBufferedVCRouter::TryReversePropagation` (lines 845-867): for every
input port and every VC of its connection, publish a valid reverse phit whose
data is the accumulated credit to return — except at cycle 0, where the full
configured buffer depth is published as the initial credit grant. -/
def routerRevSendStep (current_cycle : Int) (r : SimInputBufferedVCRouter)
    (cs : List SimConnectionState) (i : Nat) : List SimConnectionState :=
  let j := r.input_connection_index.getD i 0
  let input := getConn cs j
  let newRev := (List.range input.reverse_channels.length).map fun vc =>
    ({ cycle := current_cycle,
       phit := { data :=
                   if current_cycle = 0 then
                     (get2D r.input_buffers i vc).max_queue_size
                   else get2D r.input_credit_to_send i vc,
                 valid := true } } : TimedMetadataPhit)
  cs.set j { input with reverse_channels := newRev }

def routerRevSendCredits (current_cycle : Int) (r : SimInputBufferedVCRouter)
    (conns : List SimConnectionState) : List SimConnectionState :=
  (List.range r.input_connection_index.length).foldl
    (routerRevSendStep current_cycle r) conns

/-- The credit-receive loop of the router's reverse propagation
(lines 874-905): per output port, capture this cycle's credit updates from the
downstream reverse channels and count captured versus possible entries.
Returns (credit updates, captured, possible). -/
def routerRevRecvRows (current_cycle : Int) (conns : List SimConnectionState)
    (out_idx : List Nat) (i : Nat) :
    List (List CreditState) → List (List CreditState) × Nat × Nat
  | [] => ([], 0, 0)
  | row :: rest =>
      let output := getConn conns (out_idx.getD i 0)
      let c := captureCredits current_cycle output.reverse_channels 0 row
      let r := routerRevRecvRows current_cycle conns out_idx (i + 1) rest
      (c.1 :: r.1, c.2 + r.2.1, row.length + r.2.2)

/-- `SimInputBufferedVCRouter::TryReversePropagation` (lines 832-916): runs
only after this cycle's forward propagation; sends credits upstream and
captures credits from downstream, succeeding when every output × VC entry was
captured. -/
def routerTryReversePropagation (current_cycle : Int)
    (conns : List SimConnectionState) (r : SimInputBufferedVCRouter) :
    List SimConnectionState × SimInputBufferedVCRouter × Bool :=
  if r.forward_propagated_cycle ≠ current_cycle then (conns, r, false)
  else
    let conns1 := routerRevSendCredits current_cycle r conns
    let recv := routerRevRecvRows current_cycle conns1
        r.output_connection_index 0 r.credit_update
    (conns1, { r with credit_update := recv.1 }, recv.2.1 = recv.2.2)

/-! ## SimNetworkInterfaceSink operations -/

/-- `SimNetworkInterfaceSink::TryForwardPropagation` (lines 918-973): gate on
the upstream forward channel's stamp; log a valid phit and acknowledge it with
one credit; at cycle 0 broadcast a full-depth credit grant on every VC; fill
the remaining reverse channels with stamped bubbles. -/
def sinkTryForwardPropagation (current_cycle : Int)
    (conns : List SimConnectionState) (sink : SimNetworkInterfaceSink) :
    List SimConnectionState × SimNetworkInterfaceSink × Bool :=
  let src := getConn conns sink.src_connection_index
  if src.forward_channels.cycle ≠ current_cycle then (conns, sink, false)
  else
    let rev1 :=
      if src.forward_channels.phit.valid then
        src.reverse_channels.set src.forward_channels.phit.vc
          { cycle := current_cycle, phit := { data := 1, valid := true } }
      else src.reverse_channels
    let traffic1 :=
      if src.forward_channels.phit.valid then
        sink.received_traffic ++
          [{ cycle := current_cycle, phit := src.forward_channels.phit }]
      else sink.received_traffic
    let rev2 :=
      if current_cycle = 0 then
        (List.range rev1.length).map fun vc =>
          ({ cycle := current_cycle,
             phit := { data := (sink.input_buffers.getD vc default).max_queue_size,
                       valid := true } } : TimedMetadataPhit)
      else
        rev1.map fun ch =>
          if ch.cycle ≠ current_cycle then
            { cycle := current_cycle, phit := { data := 0, valid := false } }
          else ch
    (conns.set sink.src_connection_index { src with reverse_channels := rev2 },
      { sink with received_traffic := traffic1 }, true)

/-- Modelled from the spec: the sink inherits `TryReversePropagation` from
`SimNetworkComponentBase` (declared in `sim_objects.h`, which is outside the
source slice); the base default does nothing and succeeds — the sink's credits
are returned during its forward propagation (§4.5) and the sink always
drains. -/
def sinkTryReversePropagation (_current_cycle : Int)
    (_conns : List SimConnectionState) (_sink : SimNetworkInterfaceSink) :
    Bool :=
  true

/-! ## SimNetworkComponentBase::Tick (lines 306-325), per component kind

Forward propagation is attempted only while this cycle's forward marker is
unset, then reverse propagation likewise; the component converges when both
phases have succeeded for the current cycle. -/

/-- `Tick` for a source interface. -/
def srcTick (current_cycle : Int) (conns : List SimConnectionState)
    (src : SimNetworkInterfaceSrc) :
    List SimConnectionState × SimNetworkInterfaceSrc × Bool :=
  let f :=
    if src.forward_propagated_cycle ≠ current_cycle then
      let r := srcTryForwardPropagation current_cycle conns src
      if r.2.2 then
        (r.1, { r.2.1 with forward_propagated_cycle := current_cycle }, true)
      else (r.1, r.2.1, false)
    else (conns, src, true)
  let g :=
    if f.2.1.reverse_propagated_cycle ≠ current_cycle then
      let r := srcTryReversePropagation current_cycle f.1 f.2.1
      if r.2 then
        (f.1, { r.1 with reverse_propagated_cycle := current_cycle }, f.2.2)
      else (f.1, r.1, false)
    else f
  g

/-- `Tick` for a link. -/
def linkTick (current_cycle : Int) (conns : List SimConnectionState)
    (l : SimLink) : List SimConnectionState × SimLink × Bool :=
  let f :=
    if l.forward_propagated_cycle ≠ current_cycle then
      let r := linkTryForwardPropagation current_cycle conns l
      if r.2.2 then
        (r.1, { r.2.1 with forward_propagated_cycle := current_cycle }, true)
      else (r.1, r.2.1, false)
    else (conns, l, true)
  let g :=
    if f.2.1.reverse_propagated_cycle ≠ current_cycle then
      let r := linkTryReversePropagation current_cycle f.1 f.2.1
      if r.2.2 then
        (r.1, { r.2.1 with reverse_propagated_cycle := current_cycle }, f.2.2)
      else (r.1, r.2.1, false)
    else f
  g

/-- `Tick` for a router; `none` propagates a routing-lookup abort. -/
def routerTick (route : PortIndexAndVCIndex → Nat → Option PortIndexAndVCIndex)
    (current_cycle : Int) (conns : List SimConnectionState)
    (r : SimInputBufferedVCRouter) :
    Option (List SimConnectionState × SimInputBufferedVCRouter × Bool) :=
  let fwd :=
    if r.forward_propagated_cycle ≠ current_cycle then
      match routerTryForwardPropagation route current_cycle conns r with
      | none => none
      | some p =>
          if p.2.2 then
            some (p.1, { p.2.1 with forward_propagated_cycle := current_cycle },
              true)
          else some (p.1, p.2.1, false)
    else some (conns, r, true)
  match fwd with
  | none => none
  | some f =>
      if f.2.1.reverse_propagated_cycle ≠ current_cycle then
        let p := routerTryReversePropagation current_cycle f.1 f.2.1
        if p.2.2 then
          some (p.1, { p.2.1 with reverse_propagated_cycle := current_cycle },
            f.2.2)
        else some (p.1, p.2.1, false)
      else some f

/-- `Tick` for a sink interface. -/
def sinkTick (current_cycle : Int) (conns : List SimConnectionState)
    (sink : SimNetworkInterfaceSink) :
    List SimConnectionState × SimNetworkInterfaceSink × Bool :=
  let f :=
    if sink.forward_propagated_cycle ≠ current_cycle then
      let r := sinkTryForwardPropagation current_cycle conns sink
      if r.2.2 then
        (r.1, { r.2.1 with forward_propagated_cycle := current_cycle }, true)
      else (r.1, r.2.1, false)
    else (conns, sink, true)
  if f.2.1.reverse_propagated_cycle ≠ current_cycle then
    if sinkTryReversePropagation current_cycle f.1 f.2.1 then
      (f.1, { f.2.1 with reverse_propagated_cycle := current_cycle }, f.2.2)
    else (f.1, f.2.1, false)
  else f

/-! ## NocSimulator::Tick (lines 265-304) and RunCycle (lines 222-263) -/

/-- The per-kind pass of `NocSimulator::Tick`: tick each source in order,
threading the connection table and conjoining convergence flags. -/
def tickSrcList (current_cycle : Int) :
    List SimNetworkInterfaceSrc → List SimConnectionState →
    List SimConnectionState × List SimNetworkInterfaceSrc × Bool
  | [], conns => (conns, [], true)
  | src :: rest, conns =>
      let a := srcTick current_cycle conns src
      let b := tickSrcList current_cycle rest a.1
      (b.1, a.2.1 :: b.2.1, a.2.2 && b.2.2)

/-- The link pass of `NocSimulator::Tick`. -/
def tickLinkList (current_cycle : Int) :
    List SimLink → List SimConnectionState →
    List SimConnectionState × List SimLink × Bool
  | [], conns => (conns, [], true)
  | l :: rest, conns =>
      let a := linkTick current_cycle conns l
      let b := tickLinkList current_cycle rest a.1
      (b.1, a.2.1 :: b.2.1, a.2.2 && b.2.2)

/-- The router pass of `NocSimulator::Tick`; aborts propagate. -/
def tickRouterList
    (routing : Nat → PortIndexAndVCIndex → Nat → Option PortIndexAndVCIndex)
    (current_cycle : Int) :
    List SimInputBufferedVCRouter → List SimConnectionState →
    Option (List SimConnectionState × List SimInputBufferedVCRouter × Bool)
  | [], conns => some (conns, [], true)
  | r :: rest, conns =>
      match routerTick (routing r.rid) current_cycle conns r with
      | none => none
      | some a =>
          match tickRouterList routing current_cycle rest a.1 with
          | none => none
          | some b => some (b.1, a.2.1 :: b.2.1, a.2.2 && b.2.2)

/-- The sink pass of `NocSimulator::Tick`. -/
def tickSinkList (current_cycle : Int) :
    List SimNetworkInterfaceSink → List SimConnectionState →
    List SimConnectionState × List SimNetworkInterfaceSink × Bool
  | [], conns => (conns, [], true)
  | sink :: rest, conns =>
      let a := sinkTick current_cycle conns sink
      let b := tickSinkList current_cycle rest a.1
      (b.1, a.2.1 :: b.2.1, a.2.2 && b.2.2)

/-- `NocSimulator::Tick` (lines 265-304): tick every component once, in the
order sources, links, routers, sinks; converge only if all components do.
`none` models a process abort (`XLS_CHECK_OK` failure in a router). -/
def tick (s : NocSimulator) : Option (NocSimulator × Bool) :=
  let a := tickSrcList s.cycle s.network_interface_sources s.connections
  let b := tickLinkList s.cycle s.links a.1
  match tickRouterList s.routing s.cycle s.routers b.1 with
  | none => none
  | some c =>
      let d := tickSinkList s.cycle s.network_interface_sinks c.1
      let s1 := { s with
        connections := d.1
        network_interface_sources := a.2.1
        links := b.2.1
        routers := c.2.1
        network_interface_sinks := d.2.1 }
      some (s1, a.2.2 && b.2.2 && c.2.2 && d.2.2)

/-- Result of iterating the convergence loop of `RunCycle`.  The source loop
`while (!converged) { converged = Tick(); ++nticks; }` has no bound of its
own; `fuelOut` is the modelling artifact reporting that the loop is still
running after the given number of ticks. -/
inductive TickLoopResult where
  | converged (s : NocSimulator) (nticks : Int)
  | crashed
  | fuelOut (s : NocSimulator) (nticks : Int)

/-- The convergence loop of `RunCycle` (lines 227-233), with explicit fuel. -/
def runTickLoop : Nat → NocSimulator → Int → TickLoopResult
  | 0, s, n => .fuelOut s n
  | fuel + 1, s, n =>
      match tick s with
      | none => .crashed
      | some (s1, conv) =>
          if conv then .converged s1 (n + 1) else runTickLoop fuel s1 (n + 1)

/-- The observable outcome of `RunCycle`.  `crashed` is the `XLS_CHECK_OK`
process abort; `noConvergence` reports that the tick loop was still running
when the modelling fuel ran out (the C++ loop simply has not returned yet). -/
inductive RunCycleResult where
  | ok (s : NocSimulator)
  | divergenceError (cycle nticks : Int) (s : NocSimulator)
  | crashed
  | noConvergence
deriving Inhabited

/-- `NocSimulator::RunCycle` (lines 222-263): increment the cycle counter and
tick until convergence.  The `max_ticks` bound is examined only inside the
per-connection dump loop that runs after convergence, so it triggers (with
`nticks >= max_ticks`) only when at least one connection exists, and never
bounds the convergence loop itself. -/
def runCycle (fuel : Nat) (max_ticks : Int) (s : NocSimulator) :
    RunCycleResult :=
  let s1 := { s with cycle := s.cycle + 1 }
  match runTickLoop fuel s1 0 with
  | .crashed => .crashed
  | .fuelOut _ _ => .noConvergence
  | .converged s2 nticks =>
      if 0 < s2.connections.length ∧ max_ticks ≤ nticks then
        .divergenceError s2.cycle nticks s2
      else
        .ok s2

/-! ## Spec-side description of the source's forward propagation (claim C6)

`srcForwardSpecDescription` is written from the specification's words, to be
compared with `srcTryForwardPropagation`, which is translated from the code. -/

/-- Spec's scan: the first VC, in ascending index, whose send-queue head has
`cycle ≤ current_cycle` and whose credit is positive.  Returns that VC's
relative index and its queue head. -/
def srcForwardSpecScan (current_cycle : Int) :
    List (List TimedDataPhit) → List Int → Option (Nat × TimedDataPhit)
  | [], _ => none
  | q :: qs, cs =>
      match q with
      | p :: _ =>
          if p.cycle ≤ current_cycle ∧ cs.headD 0 > 0 then some (0, p)
          else
            (srcForwardSpecScan current_cycle qs cs.tail).map
              fun r => (r.1 + 1, r.2)
      | [] =>
          (srcForwardSpecScan current_cycle qs cs.tail).map
            fun r => (r.1 + 1, r.2)

/-- Spec's description of the source's forward propagation: apply credit
updates; for the first qualifying VC write its head phit downstream with
`valid=true`, the `vc` field overridden to the scan index and the cycle
stamped current, pop the queue and decrement the credit; if no VC qualifies,
write a bubble (valid=false, zeroed payload) stamped with the current cycle. -/
def srcForwardSpecDescription (current_cycle : Int)
    (conns : List SimConnectionState) (src : SimNetworkInterfaceSrc) :
    List SimConnectionState × SimNetworkInterfaceSrc × Bool :=
  let cr := applyCreditUpdates src.credit src.credit_update
  let sink := getConn conns src.sink_connection_index
  match srcForwardSpecScan current_cycle src.data_to_send cr with
  | some (vc, p) =>
      (conns.set src.sink_connection_index
        { sink with forward_channels :=
            { cycle := current_cycle,
              phit := { p.phit with vc := vc, valid := true } } },
        { src with
          data_to_send := src.data_to_send.set vc
            ((src.data_to_send.getD vc []).tail),
          credit := cr.set vc (cr.getD vc 0 - 1),
          forward_propagated_cycle := current_cycle },
        true)
  | none =>
      (conns.set src.sink_connection_index
        { sink with forward_channels :=
            { cycle := current_cycle,
              phit := { data := 0, valid := false, vc := 0,
                        destination_index := 0 } } },
        { src with credit := cr,
                   forward_propagated_cycle := current_cycle },
        true)

/-! ## Concrete instances used by witnesses and counterexamples -/

/-- A routing function sending every flow to output port 0, VC 0. -/
def routeAllToZero : PortIndexAndVCIndex → Nat → Option PortIndexAndVCIndex :=
  fun _ _ => some ⟨0, 0⟩

/-- A connection whose forward channel is already stamped at cycle 5. -/
def connStamped5 : SimConnectionState :=
  { forward_channels :=
      { cycle := 5, phit := { data := 7, valid := true, vc := 0,
                              destination_index := 0 } },
    reverse_channels := [⟨5, ⟨0, false⟩⟩] }

/-- An arbitration state with two inputs both holding a buffered phit for the
single output connection, which is already stamped at cycle 5. -/
def arbStTwoInputs : RouterArbState :=
  { conns := [connStamped5],
    input_buffers :=
      [[⟨2, [⟨1, true, 0, 0⟩]⟩], [⟨2, [⟨2, true, 0, 0⟩]⟩]],
    input_credit_to_send := [[0], [0]],
    credit := [[1]] }

/-- A one-input router at the start of cycle 0 (forward pass already done),
with a single input VC of configured depth 3. -/
def routerCycle0 : SimInputBufferedVCRouter :=
  { rid := 0,
    input_connection_index := [0],
    output_connection_index := [],
    input_buffers := [[⟨3, []⟩]],
    input_credit_to_send := [[0]],
    credit := [],
    credit_update := [],
    max_vc := 1,
    internal_propagated_cycle := 0,
    forward_propagated_cycle := 0,
    reverse_propagated_cycle := -1 }

/-- A connection whose forward channel is stamped at cycle 0 and which has a
single reverse channel still stamped at cycle -1. -/
def connCycle0 : SimConnectionState :=
  { forward_channels := { cycle := 0, phit := ⟨0, false, 0, 0⟩ },
    reverse_channels := [⟨-1, ⟨0, false⟩⟩] }

/-- A sink with a single input VC of configured depth 2. -/
def sinkCycle0 : SimNetworkInterfaceSink :=
  { input_buffers := [⟨2, []⟩],
    received_traffic := [],
    src_connection_index := 0,
    forward_propagated_cycle := -1,
    reverse_propagated_cycle := -1 }

/-- A freshly initialized source: one VC with a queued phit, zero credit and a
zero pending credit update. -/
def srcCycle0 : SimNetworkInterfaceSrc :=
  { data_to_send := [[⟨0, ⟨10, true, 0, 0⟩⟩]],
    credit := [0],
    credit_update := [⟨-1, 0⟩],
    sink_connection_index := 0,
    forward_propagated_cycle := -1,
    reverse_propagated_cycle := -1 }

/-- A zero-stage link between two connections both stamped at cycle 5. -/
def linkBothStamped : SimLink :=
  { forward_pipeline_stages := 0,
    reverse_pipeline_stages := 0,
    src_connection_index := 0,
    sink_connection_index := 1,
    forward_data_stages := [],
    reverse_credit_stages := [[]],
    forward_propagated_cycle := -1,
    reverse_propagated_cycle := -1 }

/-- All components have completed both propagation phases for the simulator's
current cycle — the state in which a tick reports convergence. -/
def allConverged (s : NocSimulator) : Prop :=
  (∀ x ∈ s.network_interface_sources,
    x.forward_propagated_cycle = s.cycle ∧
    x.reverse_propagated_cycle = s.cycle) ∧
  (∀ x ∈ s.links,
    x.forward_propagated_cycle = s.cycle ∧
    x.reverse_propagated_cycle = s.cycle) ∧
  (∀ x ∈ s.routers,
    x.forward_propagated_cycle = s.cycle ∧
    x.reverse_propagated_cycle = s.cycle) ∧
  (∀ x ∈ s.network_interface_sinks,
    x.forward_propagated_cycle = s.cycle ∧
    x.reverse_propagated_cycle = s.cycle)

/-- A routing table with no routes at all. -/
def routingNone : Nat → PortIndexAndVCIndex → Nat → Option PortIndexAndVCIndex :=
  fun _ _ _ => none

/-- A sink that has completed both phases for cycle 3. -/
def sinkConverged3 : SimNetworkInterfaceSink :=
  { input_buffers := [⟨2, []⟩],
    received_traffic := [],
    src_connection_index := 0,
    forward_propagated_cycle := 3,
    reverse_propagated_cycle := 3 }

/-- A converged one-sink simulator at cycle 3. -/
def simConverged : NocSimulator :=
  { cycle := 3,
    connections := [],
    routing := routingNone,
    network_interface_sources := [],
    links := [],
    routers := [],
    network_interface_sinks := [sinkConverged3] }

/-- All credit counters of every credit-bearing component (source interfaces
and routers) are non-negative. -/
def creditNonneg (s : NocSimulator) : Prop :=
  (∀ x ∈ s.network_interface_sources, ∀ c ∈ x.credit, 0 ≤ c) ∧
  (∀ r ∈ s.routers, ∀ row ∈ r.credit, ∀ c ∈ row, 0 ≤ c)

/-- A simulator with no components and no connections, before its first
cycle. -/
def simEmpty : NocSimulator :=
  { cycle := -1,
    connections := [],
    routing := routingNone,
    network_interface_sources := [],
    links := [],
    routers := [],
    network_interface_sinks := [] }

/-- `simEmpty` after one cycle. -/
def simEmpty0 : NocSimulator :=
  { cycle := 0,
    connections := [],
    routing := routingNone,
    network_interface_sources := [],
    links := [],
    routers := [],
    network_interface_sinks := [] }

/-- A source with nothing to send, feeding connection 0. -/
def c2src : SimNetworkInterfaceSrc :=
  { data_to_send := [[]],
    credit := [0],
    credit_update := [⟨-1, 0⟩],
    sink_connection_index := 0,
    forward_propagated_cycle := -1,
    reverse_propagated_cycle := -1 }

/-- A router holding a buffered phit whose routing lookup will fail. -/
def c2router : SimInputBufferedVCRouter :=
  { rid := 0,
    input_connection_index := [0],
    output_connection_index := [1],
    input_buffers := [[⟨2, [⟨7, true, 0, 0⟩]⟩]],
    input_credit_to_send := [[0]],
    credit := [[1]],
    credit_update := [[⟨-1, 0⟩]],
    max_vc := 1,
    internal_propagated_cycle := -1,
    forward_propagated_cycle := -1,
    reverse_propagated_cycle := -1 }

/-- A connection before the first cycle, with one reverse channel. -/
def c2conn : SimConnectionState :=
  { forward_channels := { cycle := -1, phit := ⟨0, false, 0, 0⟩ },
    reverse_channels := [⟨-1, ⟨0, false⟩⟩] }

/-- A simulator whose routing table has no entry for the phit buffered in its
router: the first forward pass performs a routing lookup that fails. -/
def c2sim : NocSimulator :=
  { cycle := -1,
    connections := [c2conn, c2conn],
    routing := routingNone,
    network_interface_sources := [c2src],
    links := [],
    routers := [c2router],
    network_interface_sinks := [] }

/-- A router whose single input connection is driven by nobody but the other
router of a two-router cycle: its input gate can never pass.  `inIdx`/`outIdx`
select the connection read/written. -/
def dlRouter (rid inIdx outIdx : Nat) (internal : Int) :
    SimInputBufferedVCRouter :=
  { rid := rid,
    input_connection_index := [inIdx],
    output_connection_index := [outIdx],
    input_buffers := [[]],
    input_credit_to_send := [[]],
    credit := [],
    credit_update := [],
    max_vc := 0,
    internal_propagated_cycle := internal,
    forward_propagated_cycle := -1,
    reverse_propagated_cycle := -1 }

/-- A connection never driven during the deadlocked cycle. -/
def dlConn : SimConnectionState :=
  { forward_channels := { cycle := -1, phit := ⟨0, false, 0, 0⟩ },
    reverse_channels := [] }

/-- Two routers in a routing cycle: router 0 reads connection 1 and drives
connection 0, router 1 reads connection 0 and drives connection 1.  Neither
input gate can ever pass, so no tick converges. -/
def dlSim : NocSimulator :=
  { cycle := -1,
    connections := [dlConn, dlConn],
    routing := routingNone,
    network_interface_sources := [],
    links := [],
    routers := [dlRouter 0 1 0 (-1), dlRouter 1 0 1 (-1)],
    network_interface_sinks := [] }

/-- `dlSim` after the cycle increment and the first tick (which applies the
once-per-cycle credit update, marking `internal_propagated_cycle`). -/
def dlTick1 : NocSimulator :=
  { cycle := 0,
    connections := [dlConn, dlConn],
    routing := routingNone,
    network_interface_sources := [],
    links := [],
    routers := [dlRouter 0 1 0 0, dlRouter 1 0 1 0],
    network_interface_sinks := [] }

/-! ### Predicates for the post-cycle stamp invariant (claim C3) -/

/-- Connection `j`'s forward channel carries cycle stamp `cc`. -/
def StampedF (cc : Int) (conns : List SimConnectionState) (j : Nat) : Prop :=
  (getConn conns j).forward_channels.cycle = cc

/-- Connection `j`'s reverse channel `vc` carries cycle stamp `cc`. -/
def StampedR (cc : Int) (conns : List SimConnectionState) (j vc : Nat) :
    Prop :=
  ((getConn conns j).reverse_channels.getD vc default).cycle = cc

/-- Monotone evolution of the connection table within one cycle: lengths are
preserved and every channel is either untouched or stamped with the current
cycle.  Every write the components perform during cycle `cc` stamps `cc`. -/
def ConnsMono (cc : Int) (conns conns' : List SimConnectionState) : Prop :=
  conns'.length = conns.length ∧
  ∀ j,
    ((getConn conns' j).forward_channels =
        (getConn conns j).forward_channels ∨
      (getConn conns' j).forward_channels.cycle = cc) ∧
    (getConn conns' j).reverse_channels.length =
      (getConn conns j).reverse_channels.length ∧
    ∀ vc,
      ((getConn conns' j).reverse_channels.getD vc default =
          (getConn conns j).reverse_channels.getD vc default ∨
        ((getConn conns' j).reverse_channels.getD vc default).cycle = cc)

/-- Source clause: a source whose forward phase is done has stamped its
connection's forward channel. -/
def SrcP (cc : Int) (conns : List SimConnectionState)
    (x : SimNetworkInterfaceSrc) : Prop :=
  x.forward_propagated_cycle = cc →
    StampedF cc conns x.sink_connection_index

/-- Link forward clause. -/
def LinkPF (cc : Int) (conns : List SimConnectionState) (x : SimLink) :
    Prop :=
  x.forward_propagated_cycle = cc →
    StampedF cc conns x.sink_connection_index

/-- Link reverse clause: a link whose reverse phase is done has stamped every
reverse channel of its upstream connection. -/
def LinkPR (cc : Int) (conns : List SimConnectionState) (x : SimLink) :
    Prop :=
  x.reverse_propagated_cycle = cc →
    ∀ vc < (getConn conns x.src_connection_index).reverse_channels.length,
      StampedR cc conns x.src_connection_index vc

/-- Router forward clause: all output connections stamped. -/
def RouterPF (cc : Int) (conns : List SimConnectionState)
    (x : SimInputBufferedVCRouter) : Prop :=
  x.forward_propagated_cycle = cc →
    ∀ j ∈ x.output_connection_index, StampedF cc conns j

/-- Router reverse clause: all input connections' reverse channels stamped. -/
def RouterPR (cc : Int) (conns : List SimConnectionState)
    (x : SimInputBufferedVCRouter) : Prop :=
  x.reverse_propagated_cycle = cc →
    ∀ j ∈ x.input_connection_index,
      ∀ vc < (getConn conns j).reverse_channels.length,
        StampedR cc conns j vc

/-- Sink clause: a sink whose forward phase is done has stamped every reverse
channel of its upstream connection (the sink returns credits during its
forward propagation). -/
def SinkP (cc : Int) (conns : List SimConnectionState)
    (x : SimNetworkInterfaceSink) : Prop :=
  x.forward_propagated_cycle = cc →
    ∀ vc < (getConn conns x.src_connection_index).reverse_channels.length,
      StampedR cc conns x.src_connection_index vc

/-- The global stamp invariant within a cycle: every component whose phase
marker equals the current cycle has stamped the channels it drives. -/
def StampInv (s : NocSimulator) : Prop :=
  (∀ x ∈ s.network_interface_sources, SrcP s.cycle s.connections x) ∧
  (∀ x ∈ s.links, LinkPF s.cycle s.connections x) ∧
  (∀ x ∈ s.links, LinkPR s.cycle s.connections x) ∧
  (∀ x ∈ s.routers, RouterPF s.cycle s.connections x) ∧
  (∀ x ∈ s.routers, RouterPR s.cycle s.connections x) ∧
  (∀ x ∈ s.network_interface_sinks, SinkP s.cycle s.connections x)

/-- Index sanity: every component's connection indices are in range, and each
link's two connections agree on the VC count of their reverse channels. -/
def IndexBounds (s : NocSimulator) : Prop :=
  (∀ x ∈ s.network_interface_sources,
    x.sink_connection_index < s.connections.length) ∧
  (∀ x ∈ s.links,
    x.src_connection_index < s.connections.length ∧
    x.sink_connection_index < s.connections.length ∧
    (getConn s.connections x.sink_connection_index).reverse_channels.length =
      (getConn s.connections x.src_connection_index).reverse_channels.length) ∧
  (∀ x ∈ s.routers,
    (∀ j ∈ x.input_connection_index, j < s.connections.length) ∧
    (∀ j ∈ x.output_connection_index, j < s.connections.length)) ∧
  (∀ x ∈ s.network_interface_sinks,
    x.src_connection_index < s.connections.length)

/-- Coverage: every connection has a component driving its forward channel
and a component driving its reverse channels, expressed through the lists of
driven connection indices. -/
def Covered (s : NocSimulator) : Prop :=
  ∀ j < s.connections.length,
    (j ∈ s.network_interface_sources.map
        (fun x => x.sink_connection_index) ∨
      j ∈ s.links.map (fun x => x.sink_connection_index) ∨
      ∃ l ∈ s.routers.map (fun x => x.output_connection_index), j ∈ l) ∧
    (j ∈ s.network_interface_sinks.map (fun x => x.src_connection_index) ∨
      j ∈ s.links.map (fun x => x.src_connection_index) ∨
      ∃ l ∈ s.routers.map (fun x => x.input_connection_index), j ∈ l)

/-- All phase markers are at or below the current cycle (true after
initialization, where every marker is the initial cycle, and after every
completed cycle). -/
def FlagsBelow (s : NocSimulator) : Prop :=
  (∀ x ∈ s.network_interface_sources,
    x.forward_propagated_cycle ≤ s.cycle ∧
    x.reverse_propagated_cycle ≤ s.cycle) ∧
  (∀ x ∈ s.links,
    x.forward_propagated_cycle ≤ s.cycle ∧
    x.reverse_propagated_cycle ≤ s.cycle) ∧
  (∀ x ∈ s.routers,
    x.forward_propagated_cycle ≤ s.cycle ∧
    x.reverse_propagated_cycle ≤ s.cycle) ∧
  (∀ x ∈ s.network_interface_sinks,
    x.forward_propagated_cycle ≤ s.cycle ∧
    x.reverse_propagated_cycle ≤ s.cycle)

/-- Shape equality of two simulator states within a cycle: same cycle, same
connection count and per-connection VC counts, and the same connection
indices in every component (ticks never change these). -/
def sameShape (s s' : NocSimulator) : Prop :=
  s'.cycle = s.cycle ∧
  s'.connections.length = s.connections.length ∧
  (∀ j, (getConn s'.connections j).reverse_channels.length =
    (getConn s.connections j).reverse_channels.length) ∧
  s'.network_interface_sources.map (fun x => x.sink_connection_index) =
    s.network_interface_sources.map (fun x => x.sink_connection_index) ∧
  s'.links.map (fun x => (x.src_connection_index, x.sink_connection_index)) =
    s.links.map (fun x => (x.src_connection_index, x.sink_connection_index)) ∧
  s'.routers.map
      (fun x => (x.input_connection_index, x.output_connection_index)) =
    s.routers.map
      (fun x => (x.input_connection_index, x.output_connection_index)) ∧
  s'.network_interface_sinks.map (fun x => x.src_connection_index) =
    s.network_interface_sinks.map (fun x => x.src_connection_index)

/-! ### Named subterms of the loop bodies above (for claim C3's proofs)

These name pieces of `linkRevLoop` and `routerBubbleFill` exactly as they
appear in those definitions, so the loop lemmas can speak about one
iteration. -/

/-- The pipeline invocation of one `linkRevLoop` iteration (lines 528-532). -/
def linkRevStepPipe (cc : Int) (l : SimLink)
    (conns : List SimConnectionState) (vc : Nat) :
    Bool × TimedMetadataPhit × List MetadataPhit :=
  simplePipelineTryPropagation metaBubbleOf cc l.reverse_pipeline_stages
    ((getConn conns l.sink_connection_index).reverse_channels.getD vc default)
    ((getConn conns l.src_connection_index).reverse_channels.getD vc default)
    (l.reverse_credit_stages.getD vc [])

/-- The connection write of one `linkRevLoop` iteration (line 535). -/
def linkRevStepConns (cc : Int) (l : SimLink)
    (conns : List SimConnectionState) (vc : Nat) : List SimConnectionState :=
  conns.set l.src_connection_index
    { getConn conns l.src_connection_index with
      reverse_channels :=
        (getConn conns l.src_connection_index).reverse_channels.set vc
          (linkRevStepPipe cc l conns vc).2.1 }

/-- One step of the router's bubble fill (lines 815-825). -/
def routerBubbleStep (cc : Int) (cs : List SimConnectionState) (j : Nat) :
    List SimConnectionState :=
  let c := getConn cs j
  if c.forward_channels.cycle ≠ cc then
    cs.set j
      { c with forward_channels :=
          { cycle := cc,
            phit := { data := 0, valid := false, vc := 0,
                      destination_index := 0 } } }
  else cs

/-! ### A one-source, one-sink network (witness instance for claim C3) -/

/-- A single connection with one virtual channel, as initialized. -/
def c3conn : SimConnectionState :=
  { forward_channels :=
      { cycle := 0,
        phit := { data := 0, valid := false, vc := 0, destination_index := 0 } },
    reverse_channels := [{ cycle := 0, phit := { data := 0, valid := false } }] }

/-- A source with an empty send queue and no credit. -/
def c3src : SimNetworkInterfaceSrc :=
  { data_to_send := [[]],
    credit := [0],
    credit_update := [{ cycle := 0, credit := 0 }],
    sink_connection_index := 0,
    forward_propagated_cycle := 0,
    reverse_propagated_cycle := 0 }

/-- A sink with a depth-2 buffer on its single VC. -/
def c3sink : SimNetworkInterfaceSink :=
  { input_buffers := [{ max_queue_size := 2, queue := [] }],
    received_traffic := [],
    src_connection_index := 0,
    forward_propagated_cycle := 0,
    reverse_propagated_cycle := 0 }

/-- A source wired straight to a sink over one connection. -/
def c3sim : NocSimulator :=
  { cycle := 0,
    connections := [c3conn],
    routing := routingNone,
    network_interface_sources := [c3src],
    links := [],
    routers := [],
    network_interface_sinks := [c3sink] }

/-- The state `RunCycle` returns on `c3sim` (the ok payload). -/
def c3simResult : NocSimulator :=
  match runCycle 8 5 c3sim with
  | .ok t => t
  | _ => c3sim

/-! ## Basic lemmas about the embedding's list access helpers -/

theorem getConn_set (conns : List SimConnectionState) (i : Nat)
    (c : SimConnectionState) (j : Nat) :
    getConn (conns.set i c) j =
      if i = j ∧ i < conns.length then c else getConn conns j := by
  simp only [getConn, List.getD_eq_getElem?_getD, List.getElem?_set]
  by_cases h1 : i = j
  · subst h1
    by_cases h2 : i < conns.length
    · simp [h2]
    · simp [h2, List.getElem?_eq_none (Nat.le_of_not_lt h2)]
  · simp [h1]

theorem getConn_set_ne {i j : Nat} (conns : List SimConnectionState)
    (c : SimConnectionState) (h : i ≠ j) :
    getConn (conns.set i c) j = getConn conns j := by
  simp [getConn_set, h]

theorem getConn_set_self {i : Nat} (conns : List SimConnectionState)
    (c : SimConnectionState) (h : i < conns.length) :
    getConn (conns.set i c) i = c := by
  simp [getConn_set, h]

/-! ## Claim theorems: the simple pipeline -/

/-- C9: For every pipeline lane (forward data or per-VC reverse credit), if
both the upstream and the downstream timed slots are already stamped with the
current cycle, a propagation attempt returns success and leaves the downstream
slot, the upstream slot (which the pipeline only reads), and the internal FIFO
unchanged. -/
theorem pipeline_idempotent_when_both_stamped {α : Type} (bubbleOf : α → α)
    (current_cycle stage_count : Int) (fromCh toCh : TimedPhit α)
    (state : List α) (hf : fromCh.cycle = current_cycle)
    (ht : toCh.cycle = current_cycle) :
    simplePipelineTryPropagation bubbleOf current_cycle stage_count
      fromCh toCh state = (true, toCh, state) := by
  simp [simplePipelineTryPropagation, hf, ht]

/-- Witness for C9: a concrete data-phit lane with both slots stamped at
cycle 3 propagates to success without any mutation. -/
theorem pipeline_idempotent_when_both_stamped_witness :
    simplePipelineTryPropagation dataBubbleOf 3 1
      ⟨3, default⟩ ⟨3, default⟩ [] = (true, ⟨3, default⟩, []) :=
  pipeline_idempotent_when_both_stamped dataBubbleOf 3 1
    ⟨3, default⟩ ⟨3, default⟩ [] rfl rfl

/-- Helper: the pipeline reports success exactly when both slots already
carry this cycle's stamp. -/
theorem pipeline_success_iff {α : Type} (bubbleOf : α → α)
    (current_cycle stage_count : Int) (fromCh toCh : TimedPhit α)
    (state : List α) :
    (simplePipelineTryPropagation bubbleOf current_cycle stage_count
        fromCh toCh state).1 = true ↔
      fromCh.cycle = current_cycle ∧ toCh.cycle = current_cycle := by
  constructor
  · intro h
    by_cases hf : fromCh.cycle = current_cycle
    · by_cases ht : toCh.cycle = current_cycle
      · exact ⟨hf, ht⟩
      · unfold simplePipelineTryPropagation at h
        rw [if_pos hf, if_neg ht] at h
        dsimp only at h
        split at h <;> simp at h
    · simp [simplePipelineTryPropagation, hf] at h
  · intro ⟨hf, ht⟩
    simp [simplePipelineTryPropagation, hf, ht]

/-- C10: a pipeline propagation attempt returns `false` on the very tick in
which it consumes the upstream phit and drives the downstream slot; it returns
`true` exactly when both slots are already stamped with the current cycle.
Consequently `SimLink::TryForwardPropagation` reports success only when the
downstream slot already carries this cycle's stamp, so the link needs a second
tick invocation after the one that moved its data before it converges. -/
theorem pipeline_drive_returns_false :
    (∀ (α : Type) (bubbleOf : α → α) (current_cycle stage_count : Int)
        (fromCh toCh : TimedPhit α) (state : List α),
        fromCh.cycle = current_cycle → toCh.cycle ≠ current_cycle →
        (simplePipelineTryPropagation bubbleOf current_cycle stage_count
            fromCh toCh state).1 = false ∧
        (simplePipelineTryPropagation bubbleOf current_cycle stage_count
            fromCh toCh state).2.1.cycle = current_cycle) ∧
    (∀ (α : Type) (bubbleOf : α → α) (current_cycle stage_count : Int)
        (fromCh toCh : TimedPhit α) (state : List α),
        (simplePipelineTryPropagation bubbleOf current_cycle stage_count
            fromCh toCh state).1 = true ↔
          fromCh.cycle = current_cycle ∧ toCh.cycle = current_cycle) ∧
    (∀ (current_cycle : Int) (conns : List SimConnectionState) (l : SimLink),
        (linkTryForwardPropagation current_cycle conns l).2.2 = true →
        (getConn conns l.sink_connection_index).forward_channels.cycle =
          current_cycle) := by
  refine ⟨?_, ?_, ?_⟩
  · intro α bubbleOf cc sc fromCh toCh st hf ht
    unfold simplePipelineTryPropagation
    rw [if_pos hf, if_neg ht]
    dsimp only
    split <;> simp
  · intro α bubbleOf cc sc fromCh toCh st
    exact pipeline_success_iff bubbleOf cc sc fromCh toCh st
  · intro cc conns l h
    unfold linkTryForwardPropagation at h
    by_cases hp : (simplePipelineTryPropagation dataBubbleOf cc
        l.forward_pipeline_stages
        (getConn conns l.src_connection_index).forward_channels
        (getConn conns l.sink_connection_index).forward_channels
        l.forward_data_stages).1 = true
    · exact ((pipeline_success_iff _ _ _ _ _ _).mp hp).2
    · simp only [Bool.not_eq_true] at hp
      simp only [hp] at h
      simp at h

/-- Witness for C10: a concrete drive tick returns false while stamping the
downstream slot, and a concrete link whose pipeline reports success had its
downstream slot stamped before the invocation. -/
theorem pipeline_drive_returns_false_witness :
    ((simplePipelineTryPropagation dataBubbleOf 1 0 ⟨1, default⟩ ⟨0, default⟩
        ([] : List DataPhit)).1 = false ∧
      (simplePipelineTryPropagation dataBubbleOf 1 0 ⟨1, default⟩ ⟨0, default⟩
        ([] : List DataPhit)).2.1.cycle = 1) ∧
    (getConn [connStamped5, connStamped5]
        linkBothStamped.sink_connection_index).forward_channels.cycle = 5 :=
  ⟨pipeline_drive_returns_false.1 DataPhit dataBubbleOf 1 0 ⟨1, default⟩
      ⟨0, default⟩ [] rfl (by decide),
    pipeline_drive_returns_false.2.2 5 [connStamped5, connStamped5]
      linkBothStamped rfl⟩

/-! ## Claim theorems: router arbitration single-writer property -/

/-- Helper: one arbitration iteration never touches a connection whose forward
channel already carries this cycle's stamp (the `cycle == current_cycle` check
before the send). -/
theorem routerArbStep_stamped_unchanged
    (route : PortIndexAndVCIndex → Nat → Option PortIndexAndVCIndex)
    (out_idx : List Nat) (cc : Int) (st st' : RouterArbState) (p : Nat × Nat)
    (j : Nat) (hstep : routerArbStep route out_idx cc st p = some st')
    (hj : (getConn st.conns j).forward_channels.cycle = cc) :
    getConn st'.conns j = getConn st.conns j := by
  unfold routerArbStep at hstep
  dsimp only at hstep
  split at hstep
  · cases hstep; rfl
  · split at hstep
    · cases hstep; rfl
    · split at hstep
      · exact absurd hstep (by simp)
      · split at hstep
        · cases hstep; rfl
        · split at hstep
          · cases hstep; rfl
          · rename_i houtstamp
            cases hstep
            simp only [getConn_set]
            split
            · rename_i hcond
              exact absurd (hcond.1 ▸ hj) houtstamp
            · rfl

/-- Helper: the full arbitration loop never touches a connection whose
forward channel already carries this cycle's stamp. -/
theorem routerArbLoop_stamped_unchanged
    (route : PortIndexAndVCIndex → Nat → Option PortIndexAndVCIndex)
    (out_idx : List Nat) (cc : Int) (pairs : List (Nat × Nat)) :
    ∀ (st st' : RouterArbState) (j : Nat),
      routerArbLoop route out_idx cc pairs st = some st' →
      (getConn st.conns j).forward_channels.cycle = cc →
      getConn st'.conns j = getConn st.conns j := by
  induction pairs with
  | nil =>
      intro st st' j hloop hj
      cases hloop; rfl
  | cons p ps ih =>
      intro st st' j hloop hj
      unfold routerArbLoop at hloop
      cases hstep : routerArbStep route out_idx cc st p with
      | none => rw [hstep] at hloop; cases hloop
      | some st1 =>
          rw [hstep] at hloop
          have h1 := routerArbStep_stamped_unchanged route out_idx cc st st1 p
            j hstep hj
          have h2 := ih st1 st' j hloop (by rw [h1]; exact hj)
          rw [h2, h1]

/-- Helper: one arbitration iteration either leaves the connection table
unchanged, or writes exactly one connection that was not yet stamped this
cycle, giving it this cycle's stamp and a valid phit. -/
theorem routerArbStep_write_shape
    (route : PortIndexAndVCIndex → Nat → Option PortIndexAndVCIndex)
    (out_idx : List Nat) (cc : Int) (st st' : RouterArbState) (p : Nat × Nat)
    (hstep : routerArbStep route out_idx cc st p = some st') :
    st'.conns = st.conns ∨
    ∃ (j : Nat) (sent : DataPhit),
      (getConn st.conns j).forward_channels.cycle ≠ cc ∧
      sent.valid = true ∧
      st'.conns = st.conns.set j
        { getConn st.conns j with
          forward_channels := { cycle := cc, phit := sent } } := by
  unfold routerArbStep at hstep
  dsimp only at hstep
  split at hstep
  · cases hstep; exact Or.inl rfl
  · split at hstep
    · cases hstep; exact Or.inl rfl
    · split at hstep
      · exact absurd hstep (by simp)
      · split at hstep
        · cases hstep; exact Or.inl rfl
        · split at hstep
          · cases hstep; exact Or.inl rfl
          · rename_i hlen x1 phit rest heqq x2 output heqr hcred houtstamp
            cases hstep
            exact Or.inr ⟨out_idx.getD output.port_index 0,
              { phit with valid := true, vc := output.vc_index },
              houtstamp, rfl, rfl⟩

/-- C5: single writer per output connection per cycle within a router's
forward pass.  (a) Once an output connection's forward channel carries this
cycle's stamp, every remaining arbitration iteration skips it and leaves it
unchanged (so after one input wins an output, no later attempt can write it
again).  (b) Each iteration writes at most one connection, and only one whose
forward channel was not yet stamped this cycle, marking it valid and stamped:
together the two parts give at most one valid write per output connection per
forward pass. -/
theorem router_single_writer_per_cycle :
    (∀ (route : PortIndexAndVCIndex → Nat → Option PortIndexAndVCIndex)
        (out_idx : List Nat) (cc : Int) (pairs : List (Nat × Nat))
        (st st' : RouterArbState) (j : Nat),
        routerArbLoop route out_idx cc pairs st = some st' →
        (getConn st.conns j).forward_channels.cycle = cc →
        getConn st'.conns j = getConn st.conns j) ∧
    (∀ (route : PortIndexAndVCIndex → Nat → Option PortIndexAndVCIndex)
        (out_idx : List Nat) (cc : Int) (st st' : RouterArbState)
        (p : Nat × Nat),
        routerArbStep route out_idx cc st p = some st' →
        st'.conns = st.conns ∨
        ∃ (j : Nat) (sent : DataPhit),
          (getConn st.conns j).forward_channels.cycle ≠ cc ∧
          sent.valid = true ∧
          st'.conns = st.conns.set j
            { getConn st.conns j with
              forward_channels := { cycle := cc, phit := sent } }) := by
  constructor
  · intro route out_idx cc pairs st st' j hloop hj
    exact routerArbLoop_stamped_unchanged route out_idx cc pairs st st' j
      hloop hj
  · intro route out_idx cc st st' p hstep
    exact routerArbStep_write_shape route out_idx cc st st' p hstep

/-- Witness for C5: in a concrete arbitration pass with two inputs competing
for an output already stamped at the current cycle, the loop leaves the output
connection unchanged. -/
theorem router_single_writer_per_cycle_witness :
    routerArbLoop routeAllToZero [0] 5 [(0, 0), (0, 1)] arbStTwoInputs =
      some arbStTwoInputs ∧
    (getConn arbStTwoInputs.conns 0).forward_channels.cycle = 5 ∧
    getConn arbStTwoInputs.conns 0 = getConn arbStTwoInputs.conns 0 :=
  ⟨rfl, rfl, router_single_writer_per_cycle.1 routeAllToZero [0] 5
    [(0, 0), (0, 1)] arbStTwoInputs arbStTwoInputs 0 rfl rfl⟩

/-! ## Claim theorems: the source's forward propagation (C6) -/

/-- Helper: the code's send scan agrees with the spec's "first qualifying VC"
scan, modulo the reconstruction of the untouched queue/credit entries. -/
theorem srcSendScan_eq_spec (cc : Int) :
    ∀ (qs : List (List TimedDataPhit)) (cs : List Int) (idx : Nat),
    srcSendScan cc idx qs cs =
      match srcForwardSpecScan cc qs cs with
      | none => (qs, cs, none)
      | some (k, p) =>
          (qs.set k ((qs.getD k []).tail), cs.set k ((cs.getD k 0) - 1),
            some { p.phit with vc := idx + k, valid := true }) := by
  intro qs
  induction qs with
  | nil => intro cs idx; rfl
  | cons q qs ih =>
      intro cs idx
      cases cs with
      | nil =>
          cases q with
          | nil =>
              simp only [srcSendScan, srcForwardSpecScan, List.tail_nil,
                ih [] (idx + 1)]
              cases h : srcForwardSpecScan cc qs [] with
              | none => simp
              | some r =>
                  obtain ⟨k, p⟩ := r
                  simp [List.set_cons_succ, List.getD_cons_succ]
                  omega
          | cons p rest =>
              simp only [srcSendScan, srcForwardSpecScan, List.headD_nil,
                List.tail_nil]
              rw [if_neg (fun h => absurd h.2 (by omega)), ih [] (idx + 1)]
              cases h : srcForwardSpecScan cc qs [] with
              | none => simp
              | some r =>
                  obtain ⟨k, pp⟩ := r
                  simp [List.set_cons_succ, List.getD_cons_succ]
                  omega
      | cons c cs =>
          cases q with
          | nil =>
              simp only [srcSendScan, srcForwardSpecScan, List.tail_cons,
                ih cs (idx + 1)]
              cases h : srcForwardSpecScan cc qs cs with
              | none => simp
              | some r =>
                  obtain ⟨k, p⟩ := r
                  simp [List.set_cons_succ, List.getD_cons_succ]
                  omega
          | cons p rest =>
              simp only [srcSendScan, srcForwardSpecScan, List.headD_cons,
                List.tail_cons]
              by_cases hp : p.cycle ≤ cc
              · by_cases hcr : c > 0
                · rw [if_pos hp, if_pos hcr, if_pos (And.intro hp hcr)]
                  simp
                · rw [if_pos hp, if_neg hcr,
                    if_neg (fun h => hcr h.2), ih cs (idx + 1)]
                  cases h : srcForwardSpecScan cc qs cs with
                  | none => simp
                  | some r =>
                      obtain ⟨k, pp⟩ := r
                      simp [List.set_cons_succ, List.getD_cons_succ]
                      omega
              · rw [if_neg hp, if_neg (fun h => hp h.1), ih cs (idx + 1)]
                cases h : srcForwardSpecScan cc qs cs with
                | none => simp
                | some r =>
                    obtain ⟨k, pp⟩ := r
                    simp [List.set_cons_succ, List.getD_cons_succ]
                    omega

/-- C6: the source's forward propagation always succeeds in the tick that
runs it, and its behaviour refines the spec's description: scan VCs in
ascending index; at the first VC whose send-queue head has
`cycle ≤ current_cycle` and positive credit, write that phit downstream
(valid, vc overridden to the scan index, stamped current), pop the queue and
decrement the credit; otherwise write a zeroed bubble stamped current. -/
theorem src_forward_matches_spec (current_cycle : Int)
    (conns : List SimConnectionState) (src : SimNetworkInterfaceSrc) :
    srcTryForwardPropagation current_cycle conns src =
      srcForwardSpecDescription current_cycle conns src ∧
    (srcTryForwardPropagation current_cycle conns src).2.2 = true := by
  constructor
  · unfold srcTryForwardPropagation srcForwardSpecDescription
    dsimp only
    rw [srcSendScan_eq_spec current_cycle src.data_to_send
      (applyCreditUpdates src.credit src.credit_update) 0]
    cases h : srcForwardSpecScan current_cycle src.data_to_send
        (applyCreditUpdates src.credit src.credit_update) with
    | none => simp
    | some r =>
        obtain ⟨k, p⟩ := r
        simp
  · unfold srcTryForwardPropagation
    rfl

/-! ## Claim theorems: cycle-0 initial credit grants (C7) -/

/-- Helper: reading an index below the bound out of a mapped range. -/
theorem getD_range_map {α : Type} (f : Nat → α) (n i : Nat) (d : α)
    (h : i < n) : ((List.range n).map f).getD i d = f i := by
  rw [List.getD_eq_getElem?_getD, List.getElem?_map, List.getElem?_range h]
  rfl

/-- Helper: positions of a duplicate-free list carrying equal values are
equal. -/
theorem nodup_getD_inj (l : List Nat) (h : l.Nodup) {a b : Nat}
    (ha : a < l.length) (hb : b < l.length)
    (heq : l.getD a 0 = l.getD b 0) : a = b := by
  rw [List.getD_eq_getElem?_getD, List.getD_eq_getElem?_getD] at heq
  rw [List.getElem?_eq_getElem ha, List.getElem?_eq_getElem hb] at heq
  simp only [Option.getD_some] at heq
  exact (List.Nodup.getElem_inj_iff h).mp heq

/-- Helper: the credit-return loop leaves untargeted connections unchanged. -/
theorem revSendFold_frame (cc : Int) (r : SimInputBufferedVCRouter) (j : Nat) :
    ∀ (is : List Nat) (conns : List SimConnectionState),
      (∀ b ∈ is, r.input_connection_index.getD b 0 ≠ j) →
      getConn (List.foldl (routerRevSendStep cc r) conns is) j =
        getConn conns j := by
  intro is
  induction is with
  | nil => intro conns _; rfl
  | cons a is ih =>
      intro conns hne
      rw [List.foldl_cons]
      rw [ih (routerRevSendStep cc r conns a)
        (fun b hb => hne b (List.mem_cons_of_mem a hb))]
      exact getConn_set_ne _ _ (hne a (List.mem_cons_self a is))

/-- Helper: the credit-return loop preserves the connection-table length. -/
theorem revSendFold_length (cc : Int) (r : SimInputBufferedVCRouter) :
    ∀ (is : List Nat) (conns : List SimConnectionState),
      (List.foldl (routerRevSendStep cc r) conns is).length = conns.length := by
  intro is
  induction is with
  | nil => intro conns; rfl
  | cons a is ih =>
      intro conns
      rw [List.foldl_cons, ih]
      exact List.length_set conns _ _

/-- Helper: the iteration for input port `i` rewrites connection
`input_connection_index[i]`'s reverse channels with freshly stamped credit
phits, and no other iteration touches that connection. -/
theorem revSendFold_write (cc : Int) (r : SimInputBufferedVCRouter)
    (j i : Nat) (hj : j = r.input_connection_index.getD i 0) :
    ∀ (is : List Nat) (conns : List SimConnectionState),
      is.Nodup →
      (∀ b ∈ is, r.input_connection_index.getD b 0 = j → b = i) →
      i ∈ is → j < conns.length →
      getConn (List.foldl (routerRevSendStep cc r) conns is) j =
        { getConn conns j with reverse_channels :=
            (List.range (getConn conns j).reverse_channels.length).map fun vc =>
              ({ cycle := cc,
                 phit := { data :=
                             if cc = 0 then
                               (get2D r.input_buffers i vc).max_queue_size
                             else get2D r.input_credit_to_send i vc,
                           valid := true } } : TimedMetadataPhit) } := by
  intro is
  induction is with
  | nil => intro conns _ _ hmem _; cases hmem
  | cons a is ih =>
      intro conns hnd hmap hmem hlen
      rw [List.foldl_cons]
      by_cases ha : a = i
      · subst ha
        have hstep : getConn (routerRevSendStep cc r conns a) j =
            { getConn conns j with reverse_channels :=
                (List.range (getConn conns j).reverse_channels.length).map (fun vc =>
                  ({ cycle := cc,
                     phit := { data :=
                                 if cc = 0 then
                                   (get2D r.input_buffers a vc).max_queue_size
                                 else get2D r.input_credit_to_send a vc,
                               valid := true } } : TimedMetadataPhit)) } := by
          unfold routerRevSendStep
          rw [← hj]
          exact getConn_set_self conns _ hlen
        have hnotin : a ∉ is := (List.nodup_cons.mp hnd).1
        have hne : ∀ b ∈ is, r.input_connection_index.getD b 0 ≠ j := by
          intro b hb hbj
          exact hnotin ((hmap b (List.mem_cons_of_mem a hb) hbj) ▸ hb)
        rw [revSendFold_frame cc r j is _ hne, hstep]
      · have hane : r.input_connection_index.getD a 0 ≠ j := by
          intro haj
          exact ha (hmap a (List.mem_cons_self a is) haj)
        have hconn : getConn (routerRevSendStep cc r conns a) j =
            getConn conns j := by
          unfold routerRevSendStep
          exact getConn_set_ne _ _ hane
        have hlen2 : j < (routerRevSendStep cc r conns a).length := by
          unfold routerRevSendStep
          rw [List.length_set]
          exact hlen
        have hmem2 : i ∈ is := by
          cases List.mem_cons.mp hmem with
          | inl h => exact absurd h.symm ha
          | inr h => exact h
        rw [ih (routerRevSendStep cc r conns a) (List.nodup_cons.mp hnd).2
          (fun b hb => hmap b (List.mem_cons_of_mem a hb)) hmem2 hlen2, hconn]

/-- Helper: with only non-positive credits and non-positive pending updates,
the credit-application step yields only non-positive credits. -/
theorem applyCreditUpdates_nonpos :
    ∀ (cs : List Int) (cu : List CreditState),
      (∀ c ∈ cs, c ≤ 0) → (∀ u ∈ cu, u.credit ≤ 0) →
      ∀ c ∈ applyCreditUpdates cs cu, c ≤ 0 := by
  intro cs
  induction cs with
  | nil => intro cu _ _ c hc; cases hc
  | cons c0 cs ih =>
      intro cu hcs hcu c hc
      cases cu with
      | nil =>
          unfold applyCreditUpdates at hc
          cases List.mem_cons.mp hc with
          | inl h => exact h ▸ hcs c0 (List.mem_cons_self c0 cs)
          | inr h =>
              exact ih [] (fun x hx => hcs x (List.mem_cons_of_mem c0 hx))
                (fun u hu => by cases hu) c h
      | cons u us =>
          unfold applyCreditUpdates at hc
          cases List.mem_cons.mp hc with
          | inl h =>
              have hu0 : u.credit ≤ 0 := hcu u (List.mem_cons_self u us)
              have hc0 : c0 ≤ 0 := hcs c0 (List.mem_cons_self c0 cs)
              rw [h, if_neg (by omega)]
              exact hc0
          | inr h =>
              exact ih us (fun x hx => hcs x (List.mem_cons_of_mem c0 hx))
                (fun x hx => hcu x (List.mem_cons_of_mem u hx)) c h

/-- Helper: the send scan finds nothing when every credit is non-positive. -/
theorem srcSendScan_none_of_nonpos (cc : Int) :
    ∀ (qs : List (List TimedDataPhit)) (cs : List Int) (idx : Nat),
      (∀ c ∈ cs, c ≤ 0) →
      (srcSendScan cc idx qs cs).2.2 = none := by
  intro qs
  induction qs with
  | nil => intro cs idx _; rfl
  | cons q qs ih =>
      intro cs idx hcs
      cases cs with
      | nil =>
          cases q with
          | nil => exact ih [] (idx + 1) (fun c hc => by cases hc)
          | cons p rest =>
              unfold srcSendScan
              exact ih [] (idx + 1) (fun c hc => by cases hc)
      | cons c cs =>
          cases q with
          | nil =>
              unfold srcSendScan
              exact ih cs (idx + 1)
                (fun x hx => hcs x (List.mem_cons_of_mem c hx))
          | cons p rest =>
              unfold srcSendScan
              dsimp only
              by_cases hp : p.cycle ≤ cc
              · rw [if_pos hp]
                have hc0 : c ≤ 0 := hcs c (List.mem_cons_self c cs)
                rw [if_neg (by omega)]
                exact ih cs (idx + 1)
                  (fun x hx => hcs x (List.mem_cons_of_mem c hx))
              · rw [if_neg hp]
                exact ih cs (idx + 1)
                  (fun x hx => hcs x (List.mem_cons_of_mem c hx))

/-- C7: at cycle 0, (a) a router's reverse propagation publishes on every
input port × VC reverse channel a valid credit phit carrying the full
configured buffer depth; (b) a sink's forward propagation publishes the same
full-depth grant on every VC of its upstream connection; (c) a source whose
credits are all zero (its initial state) and whose pending updates are
non-positive writes an invalid bubble, i.e. transmits no valid phit. -/
theorem cycle0_initial_credit_grants :
    (∀ (conns : List SimConnectionState) (r : SimInputBufferedVCRouter)
        (i vc j : Nat),
        r.forward_propagated_cycle = 0 →
        r.input_connection_index.Nodup →
        i < r.input_connection_index.length →
        j = r.input_connection_index.getD i 0 →
        j < conns.length →
        vc < (getConn conns j).reverse_channels.length →
        ((getConn (routerTryReversePropagation 0 conns r).1 j).reverse_channels.getD
            vc default) =
          ⟨0, ⟨(get2D r.input_buffers i vc).max_queue_size, true⟩⟩) ∧
    (∀ (conns : List SimConnectionState) (sink : SimNetworkInterfaceSink)
        (vc : Nat),
        sink.src_connection_index < conns.length →
        (getConn conns sink.src_connection_index).forward_channels.cycle = 0 →
        vc < (getConn conns sink.src_connection_index).reverse_channels.length →
        ((getConn (sinkTryForwardPropagation 0 conns sink).1
            sink.src_connection_index).reverse_channels.getD vc default) =
          ⟨0, ⟨(sink.input_buffers.getD vc default).max_queue_size, true⟩⟩) ∧
    (∀ (cc : Int) (conns : List SimConnectionState)
        (src : SimNetworkInterfaceSrc),
        src.sink_connection_index < conns.length →
        (∀ c ∈ src.credit, c ≤ 0) →
        (∀ u ∈ src.credit_update, u.credit ≤ 0) →
        (getConn (srcTryForwardPropagation cc conns src).1
            src.sink_connection_index).forward_channels =
          ⟨cc, ⟨0, false, 0, 0⟩⟩) := by
  refine ⟨?_, ?_, ?_⟩
  · intro conns r i vc j hfwd hnd hi hj hjlen hvc
    unfold routerTryReversePropagation
    rw [if_neg (by rw [hfwd]; exact fun h => h rfl)]
    dsimp only
    unfold routerRevSendCredits
    rw [revSendFold_write 0 r j i hj (List.range
        r.input_connection_index.length) conns (List.nodup_range _)
      (fun b hb hbj => nodup_getD_inj _ hnd (List.mem_range.mp hb) hi
        (hbj.trans hj))
      (List.mem_range.mpr hi) hjlen]
    dsimp only
    rw [getD_range_map _ _ _ _ hvc]
    simp
  · intro conns sink vc hlen hstamp hvc
    unfold sinkTryForwardPropagation
    rw [if_neg (by rw [hstamp]; exact fun h => h rfl)]
    dsimp only
    rw [if_pos rfl, getConn_set_self conns _ hlen]
    dsimp only
    have hlen1 : ∀ (b : Bool) (rv : List TimedMetadataPhit) (k : Nat)
        (v : TimedMetadataPhit),
        (if b then rv.set k v else rv).length = rv.length := by
      intro b rv k v
      cases b <;> simp
    rw [getD_range_map _ _ _ _ (by rw [hlen1]; exact hvc)]
  · intro cc conns src hlen hcs hcu
    unfold srcTryForwardPropagation
    dsimp only
    rw [srcSendScan_none_of_nonpos cc src.data_to_send
      (applyCreditUpdates src.credit src.credit_update) 0
      (applyCreditUpdates_nonpos src.credit src.credit_update hcs hcu)]
    rw [getConn_set_self conns _ hlen]

/-- Witness for C7: at cycle 0 a concrete router publishes a depth-3 grant,
a concrete sink publishes a depth-2 grant, and a concrete zero-credit source
with pending traffic emits a bubble. -/
theorem cycle0_initial_credit_grants_witness :
    ((getConn (routerTryReversePropagation 0 [connCycle0] routerCycle0).1
        0).reverse_channels.getD 0 default) = ⟨0, ⟨3, true⟩⟩ ∧
    ((getConn (sinkTryForwardPropagation 0 [connCycle0] sinkCycle0).1
        0).reverse_channels.getD 0 default) = ⟨0, ⟨2, true⟩⟩ ∧
    (getConn (srcTryForwardPropagation 0 [connCycle0] srcCycle0).1
        0).forward_channels = ⟨0, ⟨0, false, 0, 0⟩⟩ := by
  refine ⟨?_, ?_, ?_⟩
  · have h := cycle0_initial_credit_grants.1 [connCycle0] routerCycle0 0 0 0
      rfl (by decide) (by decide) rfl (by decide) (by decide)
    simpa using h
  · have h := cycle0_initial_credit_grants.2.1 [connCycle0] sinkCycle0 0
      (by decide) rfl (by decide)
    simpa using h
  · have h := cycle0_initial_credit_grants.2.2 0 [connCycle0] srcCycle0
      (by decide) (by decide) (by decide)
    simpa using h

/-! ## Claim theorems: tick idempotence after convergence (C8) -/

/-- Helper: a source whose both phases are marked done for this cycle ticks
as a no-op. -/
theorem srcTick_noop (cc : Int) (conns : List SimConnectionState)
    (src : SimNetworkInterfaceSrc) (hf : src.forward_propagated_cycle = cc)
    (hr : src.reverse_propagated_cycle = cc) :
    srcTick cc conns src = (conns, src, true) := by
  unfold srcTick
  simp [hf, hr]

/-- Helper: a link whose both phases are marked done ticks as a no-op. -/
theorem linkTick_noop (cc : Int) (conns : List SimConnectionState)
    (l : SimLink) (hf : l.forward_propagated_cycle = cc)
    (hr : l.reverse_propagated_cycle = cc) :
    linkTick cc conns l = (conns, l, true) := by
  unfold linkTick
  simp [hf, hr]

/-- Helper: a router whose both phases are marked done ticks as a no-op. -/
theorem routerTick_noop
    (route : PortIndexAndVCIndex → Nat → Option PortIndexAndVCIndex)
    (cc : Int) (conns : List SimConnectionState)
    (r : SimInputBufferedVCRouter) (hf : r.forward_propagated_cycle = cc)
    (hr : r.reverse_propagated_cycle = cc) :
    routerTick route cc conns r = some (conns, r, true) := by
  unfold routerTick
  simp [hf, hr]

/-- Helper: a sink whose both phases are marked done ticks as a no-op. -/
theorem sinkTick_noop (cc : Int) (conns : List SimConnectionState)
    (sink : SimNetworkInterfaceSink) (hf : sink.forward_propagated_cycle = cc)
    (hr : sink.reverse_propagated_cycle = cc) :
    sinkTick cc conns sink = (conns, sink, true) := by
  unfold sinkTick
  simp [hf, hr]

/-- Helper: the source's reverse propagation never touches the forward
marker. -/
theorem srcRev_pres_fwd (cc : Int) (cs : List SimConnectionState)
    (s : SimNetworkInterfaceSrc) :
    (srcTryReversePropagation cc cs s).1.forward_propagated_cycle =
      s.forward_propagated_cycle := by
  unfold srcTryReversePropagation
  dsimp only
  split <;> rfl

/-- Helper: a successful source reverse propagation marks the reverse phase
done. -/
theorem srcRev_flag_on_true (cc : Int) (cs : List SimConnectionState)
    (s : SimNetworkInterfaceSrc)
    (h : (srcTryReversePropagation cc cs s).2 = true) :
    (srcTryReversePropagation cc cs s).1.reverse_propagated_cycle = cc := by
  unfold srcTryReversePropagation at h ⊢
  dsimp only at h ⊢
  split at h <;> simp_all

/-- Helper: the link's forward propagation never touches the reverse
marker. -/
theorem linkFwd_pres_rev (cc : Int) (cs : List SimConnectionState)
    (l : SimLink) :
    (linkTryForwardPropagation cc cs l).2.1.reverse_propagated_cycle =
      l.reverse_propagated_cycle := by
  unfold linkTryForwardPropagation
  dsimp only
  split <;> rfl

/-- Helper: the link's reverse propagation never touches the forward
marker. -/
theorem linkRev_pres_fwd (cc : Int) (cs : List SimConnectionState)
    (l : SimLink) :
    (linkTryReversePropagation cc cs l).2.1.forward_propagated_cycle =
      l.forward_propagated_cycle := by
  unfold linkTryReversePropagation
  dsimp only
  split <;> rfl

/-- Helper: the router's forward propagation (when it does not abort) never
touches the reverse marker. -/
theorem routerFwd_pres_rev
    (route : PortIndexAndVCIndex → Nat → Option PortIndexAndVCIndex)
    (cc : Int) (cs : List SimConnectionState) (r : SimInputBufferedVCRouter)
    (p : List SimConnectionState × SimInputBufferedVCRouter × Bool)
    (h : routerTryForwardPropagation route cc cs r = some p) :
    p.2.1.reverse_propagated_cycle = r.reverse_propagated_cycle := by
  unfold routerTryForwardPropagation at h
  by_cases hi : r.internal_propagated_cycle ≠ cc
  · rw [if_pos hi] at h
    dsimp only at h
    split at h
    · cases h; rfl
    · split at h
      · cases h
      · cases h; rfl
  · rw [if_neg hi] at h
    dsimp only at h
    split at h
    · cases h; rfl
    · split at h
      · cases h
      · cases h; rfl

/-- Helper: the router's reverse propagation never touches the forward
marker. -/
theorem routerRev_pres_fwd (cc : Int) (cs : List SimConnectionState)
    (r : SimInputBufferedVCRouter) :
    (routerTryReversePropagation cc cs r).2.1.forward_propagated_cycle =
      r.forward_propagated_cycle := by
  unfold routerTryReversePropagation
  dsimp only
  split <;> rfl

/-- Helper: the sink's forward propagation touches neither phase marker. -/
theorem sinkFwd_pres_flags (cc : Int) (cs : List SimConnectionState)
    (s : SimNetworkInterfaceSink) :
    (sinkTryForwardPropagation cc cs s).2.1.forward_propagated_cycle =
      s.forward_propagated_cycle ∧
    (sinkTryForwardPropagation cc cs s).2.1.reverse_propagated_cycle =
      s.reverse_propagated_cycle := by
  unfold sinkTryForwardPropagation
  dsimp only
  split <;> exact ⟨rfl, rfl⟩

/-- Helper: a converged source tick leaves both phase markers at the current
cycle. -/
theorem srcTick_true_flags (cc : Int) (conns conns' : List SimConnectionState)
    (src src' : SimNetworkInterfaceSrc)
    (h : srcTick cc conns src = (conns', src', true)) :
    src'.forward_propagated_cycle = cc ∧
    src'.reverse_propagated_cycle = cc := by
  unfold srcTick at h
  dsimp only at h
  by_cases h1 : src.forward_propagated_cycle ≠ cc
  · rw [if_pos h1,
      if_pos (show (srcTryForwardPropagation cc conns src).2.2 = true from
        rfl)] at h
    by_cases h2 : ((srcTryForwardPropagation cc conns
        src).2.1.reverse_propagated_cycle ≠ cc)
    · rw [if_pos h2] at h
      dsimp only at h
      split at h
      · injection h with ha h
        injection h with hb hc
        subst hb
        refine ⟨?_, rfl⟩
        simp only [srcRev_pres_fwd]
      · injection h with ha h
        injection h with hb hc
        cases hc
    · rw [if_neg h2] at h
      injection h with ha h
      injection h with hb hc
      subst hb
      exact ⟨rfl, not_ne_iff.mp h2⟩
  · rw [if_neg h1] at h
    have h1' : src.forward_propagated_cycle = cc := not_ne_iff.mp h1
    by_cases h2 : (src.reverse_propagated_cycle ≠ cc)
    · rw [if_pos h2] at h
      dsimp only at h
      split at h
      · injection h with ha h
        injection h with hb hc
        subst hb
        refine ⟨?_, rfl⟩
        simp only [srcRev_pres_fwd]
        exact h1'
      · injection h with ha h
        injection h with hb hc
        cases hc
    · rw [if_neg h2] at h
      injection h with ha h
      injection h with hb hc
      subst hb
      exact ⟨h1', not_ne_iff.mp h2⟩

/-- Helper: a converged link tick leaves both phase markers at the current
cycle. -/
theorem linkTick_true_flags (cc : Int) (conns conns' : List SimConnectionState)
    (l l' : SimLink) (h : linkTick cc conns l = (conns', l', true)) :
    l'.forward_propagated_cycle = cc ∧ l'.reverse_propagated_cycle = cc := by
  unfold linkTick at h
  dsimp only at h
  by_cases h1 : l.forward_propagated_cycle ≠ cc
  · rw [if_pos h1] at h
    by_cases hf : (linkTryForwardPropagation cc conns l).2.2 = true
    · rw [if_pos hf] at h
      dsimp only at h
      by_cases h2 : ((linkTryForwardPropagation cc conns
          l).2.1.reverse_propagated_cycle ≠ cc)
      · rw [if_pos h2] at h
        try dsimp only at h
        split at h
        · injection h with ha h
          injection h with hb hc
          subst hb
          refine ⟨?_, rfl⟩
          simp only [linkRev_pres_fwd]
        · injection h with ha h
          injection h with hb hc
          cases hc
      · rw [if_neg h2] at h
        injection h with ha h
        injection h with hb hc
        subst hb
        exact ⟨rfl, not_ne_iff.mp h2⟩
    · rw [if_neg hf] at h
      dsimp only at h
      by_cases h2 : ((linkTryForwardPropagation cc conns
          l).2.1.reverse_propagated_cycle ≠ cc)
      · rw [if_pos h2] at h
        try dsimp only at h
        split at h
        · injection h with ha h
          injection h with hb hc
          cases hc
        · injection h with ha h
          injection h with hb hc
          cases hc
      · rw [if_neg h2] at h
        injection h with ha h
        injection h with hb hc
        cases hc
  · rw [if_neg h1] at h
    have h1' : l.forward_propagated_cycle = cc := not_ne_iff.mp h1
    by_cases h2 : (l.reverse_propagated_cycle ≠ cc)
    · rw [if_pos h2] at h
      dsimp only at h
      split at h
      · injection h with ha h
        injection h with hb hc
        subst hb
        refine ⟨?_, rfl⟩
        simp only [linkRev_pres_fwd]
        exact h1'
      · injection h with ha h
        injection h with hb hc
        cases hc
    · rw [if_neg h2] at h
      injection h with ha h
      injection h with hb hc
      subst hb
      exact ⟨h1', not_ne_iff.mp h2⟩

/-- Helper: a converged router tick leaves both phase markers at the current
cycle. -/
theorem routerTick_true_flags
    (route : PortIndexAndVCIndex → Nat → Option PortIndexAndVCIndex)
    (cc : Int) (conns conns' : List SimConnectionState)
    (r r' : SimInputBufferedVCRouter)
    (h : routerTick route cc conns r = some (conns', r', true)) :
    r'.forward_propagated_cycle = cc ∧ r'.reverse_propagated_cycle = cc := by
  unfold routerTick at h
  dsimp only at h
  by_cases h1 : r.forward_propagated_cycle ≠ cc
  · rw [if_pos h1] at h
    cases hfp : routerTryForwardPropagation route cc conns r with
    | none =>
        rw [hfp] at h
        exact Option.noConfusion h
    | some p =>
        rw [hfp] at h
        dsimp only at h
        by_cases hb : p.2.2 = true
        · rw [if_pos hb] at h
          dsimp only at h
          by_cases h2 : (p.2.1.reverse_propagated_cycle ≠ cc)
          · rw [if_pos h2] at h
            try dsimp only at h
            split at h
            · injection h with h
              injection h with ha h
              injection h with hb2 hc
              subst hb2
              refine ⟨?_, rfl⟩
              simp only [routerRev_pres_fwd]
            · injection h with h
              injection h with ha h
              injection h with hb2 hc
              cases hc
          · rw [if_neg h2] at h
            injection h with h
            injection h with ha h
            injection h with hb2 hc
            subst hb2
            exact ⟨rfl, not_ne_iff.mp h2⟩
        · rw [if_neg hb] at h
          dsimp only at h
          by_cases h2 : (p.2.1.reverse_propagated_cycle ≠ cc)
          · rw [if_pos h2] at h
            try dsimp only at h
            split at h
            · injection h with h
              injection h with ha h
              injection h with hb2 hc
              cases hc
            · injection h with h
              injection h with ha h
              injection h with hb2 hc
              cases hc
          · rw [if_neg h2] at h
            injection h with h
            injection h with ha h
            injection h with hb2 hc
            cases hc
  · rw [if_neg h1] at h
    have h1' : r.forward_propagated_cycle = cc := not_ne_iff.mp h1
    dsimp only at h
    by_cases h2 : (r.reverse_propagated_cycle ≠ cc)
    · rw [if_pos h2] at h
      try dsimp only at h
      split at h
      · injection h with h
        injection h with ha h
        injection h with hb2 hc
        subst hb2
        refine ⟨?_, rfl⟩
        simp only [routerRev_pres_fwd]
        exact h1'
      · injection h with h
        injection h with ha h
        injection h with hb2 hc
        cases hc
    · rw [if_neg h2] at h
      injection h with h
      injection h with ha h
      injection h with hb2 hc
      subst hb2
      exact ⟨h1', not_ne_iff.mp h2⟩

/-- Helper: a converged sink tick leaves both phase markers at the current
cycle. -/
theorem sinkTick_true_flags (cc : Int) (conns conns' : List SimConnectionState)
    (sink sink' : SimNetworkInterfaceSink)
    (h : sinkTick cc conns sink = (conns', sink', true)) :
    sink'.forward_propagated_cycle = cc ∧
    sink'.reverse_propagated_cycle = cc := by
  unfold sinkTick at h
  dsimp only at h
  by_cases h1 : sink.forward_propagated_cycle ≠ cc
  · rw [if_pos h1] at h
    by_cases hf : (sinkTryForwardPropagation cc conns sink).2.2 = true
    · rw [if_pos hf] at h
      dsimp only at h
      by_cases h2 : ((sinkTryForwardPropagation cc conns
          sink).2.1.reverse_propagated_cycle ≠ cc)
      · rw [if_pos h2] at h
        rw [if_pos (show sinkTryReversePropagation cc
            (sinkTryForwardPropagation cc conns sink).1
            { (sinkTryForwardPropagation cc conns sink).2.1 with
              forward_propagated_cycle := cc } = true from rfl)] at h
        injection h with ha h
        injection h with hb hc
        subst hb
        exact ⟨rfl, rfl⟩
      · rw [if_neg h2] at h
        injection h with ha h
        injection h with hb hc
        subst hb
        exact ⟨rfl, not_ne_iff.mp h2⟩
    · rw [if_neg hf] at h
      dsimp only at h
      by_cases h2 : ((sinkTryForwardPropagation cc conns
          sink).2.1.reverse_propagated_cycle ≠ cc)
      · rw [if_pos h2] at h
        rw [if_pos (show sinkTryReversePropagation cc
            (sinkTryForwardPropagation cc conns sink).1
            (sinkTryForwardPropagation cc conns sink).2.1 = true from rfl)] at h
        injection h with ha h
        injection h with hb hc
        cases hc
      · rw [if_neg h2] at h
        injection h with ha h
        injection h with hb hc
        cases hc
  · rw [if_neg h1] at h
    have h1' : sink.forward_propagated_cycle = cc := not_ne_iff.mp h1
    by_cases h2 : (sink.reverse_propagated_cycle ≠ cc)
    · rw [if_pos h2] at h
      rw [if_pos (show sinkTryReversePropagation cc conns sink = true from
        rfl)] at h
      injection h with ha h
      injection h with hb hc
      subst hb
      exact ⟨h1', rfl⟩
    · rw [if_neg h2] at h
      injection h with ha h
      injection h with hb hc
      subst hb
      exact ⟨h1', not_ne_iff.mp h2⟩

/-- Helper: split a true boolean conjunction. -/
theorem and_eq_true_split {a b : Bool} (h : (a && b) = true) :
    a = true ∧ b = true := by
  cases a <;> cases b <;> simp_all

/-- Helper: rebuild a triple whose third component is known. -/
theorem prod3_eta {α β γ : Type} (x : α × β × γ) (c : γ) (h : x.2.2 = c) :
    x = (x.1, x.2.1, c) := by
  rw [← h]

/-- Helper: a pass over sources that are all converged is a no-op. -/
theorem tickSrcList_noop (cc : Int) :
    ∀ (xs : List SimNetworkInterfaceSrc) (conns : List SimConnectionState),
      (∀ x ∈ xs, x.forward_propagated_cycle = cc ∧
        x.reverse_propagated_cycle = cc) →
      tickSrcList cc xs conns = (conns, xs, true) := by
  intro xs
  induction xs with
  | nil => intro conns _; rfl
  | cons x rest ih =>
      intro conns hall
      have hx := hall x (List.mem_cons_self x rest)
      simp only [tickSrcList]
      rw [srcTick_noop cc conns x hx.1 hx.2]
      dsimp only
      rw [ih conns (fun y hy => hall y (List.mem_cons_of_mem x hy))]
      rfl

/-- Helper: a pass over links that are all converged is a no-op. -/
theorem tickLinkList_noop (cc : Int) :
    ∀ (xs : List SimLink) (conns : List SimConnectionState),
      (∀ x ∈ xs, x.forward_propagated_cycle = cc ∧
        x.reverse_propagated_cycle = cc) →
      tickLinkList cc xs conns = (conns, xs, true) := by
  intro xs
  induction xs with
  | nil => intro conns _; rfl
  | cons x rest ih =>
      intro conns hall
      have hx := hall x (List.mem_cons_self x rest)
      simp only [tickLinkList]
      rw [linkTick_noop cc conns x hx.1 hx.2]
      dsimp only
      rw [ih conns (fun y hy => hall y (List.mem_cons_of_mem x hy))]
      rfl

/-- Helper: a pass over routers that are all converged is a no-op. -/
theorem tickRouterList_noop
    (routing : Nat → PortIndexAndVCIndex → Nat → Option PortIndexAndVCIndex)
    (cc : Int) :
    ∀ (xs : List SimInputBufferedVCRouter) (conns : List SimConnectionState),
      (∀ x ∈ xs, x.forward_propagated_cycle = cc ∧
        x.reverse_propagated_cycle = cc) →
      tickRouterList routing cc xs conns = some (conns, xs, true) := by
  intro xs
  induction xs with
  | nil => intro conns _; rfl
  | cons x rest ih =>
      intro conns hall
      have hx := hall x (List.mem_cons_self x rest)
      simp only [tickRouterList]
      rw [routerTick_noop (routing x.rid) cc conns x hx.1 hx.2]
      dsimp only
      rw [ih conns (fun y hy => hall y (List.mem_cons_of_mem x hy))]
      rfl

/-- Helper: a pass over sinks that are all converged is a no-op. -/
theorem tickSinkList_noop (cc : Int) :
    ∀ (xs : List SimNetworkInterfaceSink) (conns : List SimConnectionState),
      (∀ x ∈ xs, x.forward_propagated_cycle = cc ∧
        x.reverse_propagated_cycle = cc) →
      tickSinkList cc xs conns = (conns, xs, true) := by
  intro xs
  induction xs with
  | nil => intro conns _; rfl
  | cons x rest ih =>
      intro conns hall
      have hx := hall x (List.mem_cons_self x rest)
      simp only [tickSinkList]
      rw [sinkTick_noop cc conns x hx.1 hx.2]
      dsimp only
      rw [ih conns (fun y hy => hall y (List.mem_cons_of_mem x hy))]
      rfl

/-- Helper: a converged source pass leaves every resulting source with both
phase markers at the current cycle. -/
theorem tickSrcList_true (cc : Int) :
    ∀ (xs : List SimNetworkInterfaceSrc)
      (conns conns' : List SimConnectionState)
      (xs' : List SimNetworkInterfaceSrc),
      tickSrcList cc xs conns = (conns', xs', true) →
      ∀ x ∈ xs', x.forward_propagated_cycle = cc ∧
        x.reverse_propagated_cycle = cc := by
  intro xs
  induction xs with
  | nil =>
      intro conns conns' xs' h x hx
      injection h with ha h
      injection h with hb hc
      subst hb
      cases hx
  | cons x0 rest ih =>
      intro conns conns' xs' h x hx
      simp only [tickSrcList] at h
      try dsimp only at h
      injection h with ha h
      injection h with hb hc
      subst hb
      have hcc := and_eq_true_split hc
      cases List.mem_cons.mp hx with
      | inl he =>
          exact he ▸ srcTick_true_flags cc conns _ _ _
            (prod3_eta (srcTick cc conns x0) true hcc.1)
      | inr he =>
          exact ih (srcTick cc conns x0).1 conns' _
            (ha ▸ prod3_eta (tickSrcList cc rest (srcTick cc conns x0).1)
              true hcc.2) x he

/-- Helper: a converged link pass leaves every resulting link with both phase
markers at the current cycle. -/
theorem tickLinkList_true (cc : Int) :
    ∀ (xs : List SimLink) (conns conns' : List SimConnectionState)
      (xs' : List SimLink),
      tickLinkList cc xs conns = (conns', xs', true) →
      ∀ x ∈ xs', x.forward_propagated_cycle = cc ∧
        x.reverse_propagated_cycle = cc := by
  intro xs
  induction xs with
  | nil =>
      intro conns conns' xs' h x hx
      injection h with ha h
      injection h with hb hc
      subst hb
      cases hx
  | cons x0 rest ih =>
      intro conns conns' xs' h x hx
      simp only [tickLinkList] at h
      try dsimp only at h
      injection h with ha h
      injection h with hb hc
      subst hb
      have hcc := and_eq_true_split hc
      cases List.mem_cons.mp hx with
      | inl he =>
          exact he ▸ linkTick_true_flags cc conns _ _ _
            (prod3_eta (linkTick cc conns x0) true hcc.1)
      | inr he =>
          exact ih (linkTick cc conns x0).1 conns' _
            (ha ▸ prod3_eta (tickLinkList cc rest (linkTick cc conns x0).1)
              true hcc.2) x he

/-- Helper: a converged router pass leaves every resulting router with both
phase markers at the current cycle. -/
theorem tickRouterList_true
    (routing : Nat → PortIndexAndVCIndex → Nat → Option PortIndexAndVCIndex)
    (cc : Int) :
    ∀ (xs : List SimInputBufferedVCRouter)
      (conns conns' : List SimConnectionState)
      (xs' : List SimInputBufferedVCRouter),
      tickRouterList routing cc xs conns = some (conns', xs', true) →
      ∀ x ∈ xs', x.forward_propagated_cycle = cc ∧
        x.reverse_propagated_cycle = cc := by
  intro xs
  induction xs with
  | nil =>
      intro conns conns' xs' h x hx
      injection h with h
      injection h with ha h
      injection h with hb hc
      subst hb
      cases hx
  | cons x0 rest ih =>
      intro conns conns' xs' h x hx
      simp only [tickRouterList] at h
      cases ha : routerTick (routing x0.rid) cc conns x0 with
      | none => rw [ha] at h; exact Option.noConfusion h
      | some a =>
          rw [ha] at h
          dsimp only at h
          cases hb : tickRouterList routing cc rest a.1 with
          | none => rw [hb] at h; exact Option.noConfusion h
          | some b =>
              rw [hb] at h
              dsimp only at h
              injection h with h
              injection h with h1 h
              injection h with h2 h3
              subst h2
              have hcc := and_eq_true_split h3
              cases List.mem_cons.mp hx with
              | inl he =>
                  refine he ▸ routerTick_true_flags (routing x0.rid) cc conns
                    a.1 x0 a.2.1 ?_
                  rw [ha]
                  rw [prod3_eta a true hcc.1]
              | inr he =>
                  refine ih a.1 conns' b.2.1 ?_ x he
                  rw [hb, prod3_eta b true hcc.2, h1]

/-- Helper: a converged sink pass leaves every resulting sink with both phase
markers at the current cycle. -/
theorem tickSinkList_true (cc : Int) :
    ∀ (xs : List SimNetworkInterfaceSink)
      (conns conns' : List SimConnectionState)
      (xs' : List SimNetworkInterfaceSink),
      tickSinkList cc xs conns = (conns', xs', true) →
      ∀ x ∈ xs', x.forward_propagated_cycle = cc ∧
        x.reverse_propagated_cycle = cc := by
  intro xs
  induction xs with
  | nil =>
      intro conns conns' xs' h x hx
      injection h with ha h
      injection h with hb hc
      subst hb
      cases hx
  | cons x0 rest ih =>
      intro conns conns' xs' h x hx
      simp only [tickSinkList] at h
      try dsimp only at h
      injection h with ha h
      injection h with hb hc
      subst hb
      have hcc := and_eq_true_split hc
      cases List.mem_cons.mp hx with
      | inl he =>
          exact he ▸ sinkTick_true_flags cc conns _ _ _
            (prod3_eta (sinkTick cc conns x0) true hcc.1)
      | inr he =>
          exact ih (sinkTick cc conns x0).1 conns' _
            (ha ▸ prod3_eta (tickSinkList cc rest (sinkTick cc conns x0).1)
              true hcc.2) x he

/-- Helper: a tick on a fully converged simulator is the identity and reports
convergence. -/
theorem tick_of_allConverged (s : NocSimulator) (h : allConverged s) :
    tick s = some (s, true) := by
  obtain ⟨h1, h2, h3, h4⟩ := h
  unfold tick
  rw [tickSrcList_noop s.cycle _ _ h1]
  dsimp only
  rw [tickLinkList_noop s.cycle _ _ h2]
  dsimp only
  rw [tickRouterList_noop s.routing s.cycle _ _ h3]
  dsimp only
  rw [tickSinkList_noop s.cycle _ _ h4]
  rfl

/-- Helper: a tick that reports convergence leaves every component with both
phase markers at the (unchanged) current cycle. -/
theorem tick_true_allConverged (s s' : NocSimulator)
    (h : tick s = some (s', true)) : allConverged s' := by
  unfold tick at h
  dsimp only at h
  cases hR : tickRouterList s.routing s.cycle s.routers
      (tickLinkList s.cycle s.links
        (tickSrcList s.cycle s.network_interface_sources s.connections).1).1
    with
  | none => rw [hR] at h; exact Option.noConfusion h
  | some c =>
      rw [hR] at h
      dsimp only at h
      injection h with h
      injection h with h1 h2
      subst h1
      have hb1 := and_eq_true_split h2
      have hb2 := and_eq_true_split hb1.1
      have hb3 := and_eq_true_split hb2.1
      refine ⟨?_, ?_, ?_, ?_⟩
      · exact tickSrcList_true s.cycle s.network_interface_sources
          s.connections _ _
          (prod3_eta (tickSrcList s.cycle s.network_interface_sources
            s.connections) true hb3.1)
      · exact tickLinkList_true s.cycle s.links _ _ _
          (prod3_eta (tickLinkList s.cycle s.links
            (tickSrcList s.cycle s.network_interface_sources
              s.connections).1) true hb3.2)
      · exact tickRouterList_true s.routing s.cycle s.routers _ _ _
          (by rw [hR, prod3_eta c true hb2.2])
      · exact tickSinkList_true s.cycle s.network_interface_sinks _ _ _
          (prod3_eta (tickSinkList s.cycle s.network_interface_sinks c.1)
            true hb1.2)

/-- C8: once a tick has reported convergence for the current cycle, ticking
again is a no-op: it returns `true` and changes nothing — no connection's
forward or reverse phits or cycle stamps, no component buffers, credits or
markers. -/
theorem tick_idempotent_after_convergence (s s' : NocSimulator)
    (h : tick s = some (s', true)) : tick s' = some (s', true) :=
  tick_of_allConverged s' (tick_true_allConverged s s' h)

/-- Witness for C8: on a concrete converged simulator, a tick converges
without change, and ticking the result again is the same no-op. -/
theorem tick_idempotent_after_convergence_witness :
    tick simConverged = some (simConverged, true) ∧
    tick simConverged = some (simConverged, true) :=
  ⟨rfl, tick_idempotent_after_convergence simConverged simConverged rfl⟩

/-! ## Claim theorems: credit non-negativity and send conditions (C4) -/

/-- Helper: membership in a list read at a valid index. -/
theorem getD_mem {α : Type} (l : List α) (i : Nat) (d : α)
    (h : i < l.length) : l.getD i d ∈ l := by
  rw [List.getD_eq_getElem?_getD, List.getElem?_eq_getElem h]
  exact List.getElem_mem h

/-- Helper: a 2D write preserves an elementwise predicate when the written
value satisfies it. -/
theorem set2D_forall {P : Int → Prop} (l : List (List Int)) (i j : Nat)
    (v : Int) (hl : ∀ row ∈ l, ∀ c ∈ row, P c) (hv : P v) :
    ∀ row ∈ set2D l i j v, ∀ c ∈ row, P c := by
  intro row hrow c hc
  cases List.mem_or_eq_of_mem_set hrow with
  | inl h => exact hl row h c hc
  | inr h =>
      subst h
      cases List.mem_or_eq_of_mem_set hc with
      | inl h2 =>
          by_cases hi : i < l.length
          · exact hl _ (getD_mem l i [] hi) c h2
          · rw [List.getD_eq_getElem?_getD,
              List.getElem?_eq_none (Nat.le_of_not_lt hi)] at h2
            cases h2
      | inr h2 => exact h2 ▸ hv

/-- Helper: applying credit updates preserves non-negativity (only positive
deltas are added). -/
theorem applyCreditUpdates_nonneg :
    ∀ (cs : List Int) (cu : List CreditState),
      (∀ c ∈ cs, 0 ≤ c) → ∀ c ∈ applyCreditUpdates cs cu, 0 ≤ c := by
  intro cs
  induction cs with
  | nil => intro cu _ c hc; cases hc
  | cons c0 cs ih =>
      intro cu hcs c hc
      cases cu with
      | nil =>
          unfold applyCreditUpdates at hc
          cases List.mem_cons.mp hc with
          | inl h => exact h ▸ hcs c0 (List.mem_cons_self c0 cs)
          | inr h =>
              exact ih [] (fun x hx => hcs x (List.mem_cons_of_mem c0 hx)) c h
      | cons u us =>
          unfold applyCreditUpdates at hc
          cases List.mem_cons.mp hc with
          | inl h =>
              have hc0 : 0 ≤ c0 := hcs c0 (List.mem_cons_self c0 cs)
              subst h
              split <;> omega
          | inr h =>
              exact ih us (fun x hx => hcs x (List.mem_cons_of_mem c0 hx)) c h

/-- Helper: rowwise version of `applyCreditUpdates_nonneg`. -/
theorem applyCreditUpdates2D_nonneg :
    ∀ (cr : List (List Int)) (cu : List (List CreditState)),
      (∀ row ∈ cr, ∀ c ∈ row, 0 ≤ c) →
      ∀ row ∈ applyCreditUpdates2D cr cu, ∀ c ∈ row, 0 ≤ c := by
  intro cr
  induction cr with
  | nil => intro cu _ row hrow; cases hrow
  | cons r0 rs ih =>
      intro cu hcr row hrow
      cases cu with
      | nil =>
          unfold applyCreditUpdates2D at hrow
          cases List.mem_cons.mp hrow with
          | inl h => exact h ▸ hcr r0 (List.mem_cons_self r0 rs)
          | inr h =>
              exact ih [] (fun x hx => hcr x (List.mem_cons_of_mem r0 hx))
                row h
      | cons u us =>
          unfold applyCreditUpdates2D at hrow
          cases List.mem_cons.mp hrow with
          | inl h =>
              subst h
              exact applyCreditUpdates_nonneg r0 u
                (hcr r0 (List.mem_cons_self r0 rs))
          | inr h =>
              exact ih us (fun x hx => hcr x (List.mem_cons_of_mem r0 hx))
                row h

/-- Helper: the send scan only ever decrements a positive credit, so the
resulting credit vector stays non-negative. -/
theorem srcSendScan_credit_nonneg (cc : Int) :
    ∀ (qs : List (List TimedDataPhit)) (cs : List Int) (idx : Nat),
      (∀ c ∈ cs, 0 ≤ c) →
      ∀ c ∈ (srcSendScan cc idx qs cs).2.1, 0 ≤ c := by
  intro qs
  induction qs with
  | nil => intro cs idx hcs c hc; exact hcs c hc
  | cons q qs ih =>
      intro cs idx hcs c hc
      cases cs with
      | nil =>
          cases q with
          | nil =>
              unfold srcSendScan at hc
              exact ih [] (idx + 1) (fun x hx => by cases hx) c hc
          | cons p rest =>
              unfold srcSendScan at hc
              exact ih [] (idx + 1) (fun x hx => by cases hx) c hc
      | cons c0 cs =>
          cases q with
          | nil =>
              unfold srcSendScan at hc
              dsimp only at hc
              cases List.mem_cons.mp hc with
              | inl h => exact h ▸ hcs c0 (List.mem_cons_self c0 cs)
              | inr h =>
                  exact ih cs (idx + 1)
                    (fun x hx => hcs x (List.mem_cons_of_mem c0 hx)) c h
          | cons p rest =>
              unfold srcSendScan at hc
              dsimp only at hc
              by_cases hp : p.cycle ≤ cc
              · rw [if_pos hp] at hc
                by_cases hcr : c0 > 0
                · rw [if_pos hcr] at hc
                  cases List.mem_cons.mp hc with
                  | inl h => subst h; omega
                  | inr h =>
                      exact hcs c (List.mem_cons_of_mem c0 h)
                · rw [if_neg hcr] at hc
                  cases List.mem_cons.mp hc with
                  | inl h => exact h ▸ hcs c0 (List.mem_cons_self c0 cs)
                  | inr h =>
                      exact ih cs (idx + 1)
                        (fun x hx => hcs x (List.mem_cons_of_mem c0 hx)) c h
              · rw [if_neg hp] at hc
                cases List.mem_cons.mp hc with
                | inl h => exact h ▸ hcs c0 (List.mem_cons_self c0 cs)
                | inr h =>
                    exact ih cs (idx + 1)
                      (fun x hx => hcs x (List.mem_cons_of_mem c0 hx)) c h

/-- Helper: the source's reverse propagation does not change its credits. -/
theorem srcRev_credit (cc : Int) (cs : List SimConnectionState)
    (s : SimNetworkInterfaceSrc) :
    (srcTryReversePropagation cc cs s).1.credit = s.credit := by
  unfold srcTryReversePropagation
  dsimp only
  split <;> rfl

/-- Helper: a source tick keeps its credits non-negative. -/
theorem srcTick_credit_nonneg (cc : Int) (conns : List SimConnectionState)
    (src : SimNetworkInterfaceSrc) (h : ∀ c ∈ src.credit, 0 ≤ c) :
    ∀ c ∈ (srcTick cc conns src).2.1.credit, 0 ≤ c := by
  have hfwd : ∀ c ∈ (srcTryForwardPropagation cc conns src).2.1.credit,
      0 ≤ c := by
    unfold srcTryForwardPropagation
    dsimp only
    exact srcSendScan_credit_nonneg cc src.data_to_send _ 0
      (applyCreditUpdates_nonneg src.credit src.credit_update h)
  unfold srcTick
  dsimp only
  by_cases h1 : src.forward_propagated_cycle ≠ cc
  · rw [if_pos h1,
      if_pos (show (srcTryForwardPropagation cc conns src).2.2 = true from
        rfl)]
    dsimp only
    split
    · split
      · intro c hc
        rw [srcRev_credit] at hc
        exact hfwd c hc
      · intro c hc
        rw [srcRev_credit] at hc
        exact hfwd c hc
    · exact hfwd
  · rw [if_neg h1]
    dsimp only
    split
    · split
      · intro c hc
        rw [srcRev_credit] at hc
        exact h c hc
      · intro c hc
        rw [srcRev_credit] at hc
        exact h c hc
    · exact h

/-- Helper: an arbitration iteration either leaves conns and credits alone,
or sends one valid phit on a not-yet-stamped output connection while
decrementing the matching positive credit by exactly one. -/
theorem routerArbStep_credit_shape
    (route : PortIndexAndVCIndex → Nat → Option PortIndexAndVCIndex)
    (out_idx : List Nat) (cc : Int) (st st' : RouterArbState) (p : Nat × Nat)
    (hstep : routerArbStep route out_idx cc st p = some st') :
    (st'.conns = st.conns ∧ st'.credit = st.credit) ∨
    ∃ (o v j : Nat) (sent : DataPhit),
      j = out_idx.getD o 0 ∧
      sent.valid = true ∧ sent.vc = v ∧
      (getConn st.conns j).forward_channels.cycle ≠ cc ∧
      st'.conns = st.conns.set j
        { getConn st.conns j with
          forward_channels := { cycle := cc, phit := sent } } ∧
      get2D st.credit o v > 0 ∧
      st'.credit = set2D st.credit o v (get2D st.credit o v - 1) := by
  unfold routerArbStep at hstep
  dsimp only at hstep
  split at hstep
  · cases hstep; exact Or.inl ⟨rfl, rfl⟩
  · split at hstep
    · cases hstep; exact Or.inl ⟨rfl, rfl⟩
    · split at hstep
      · exact absurd hstep (by simp)
      · split at hstep
        · cases hstep; exact Or.inl ⟨rfl, rfl⟩
        · split at hstep
          · cases hstep; exact Or.inl ⟨rfl, rfl⟩
          · rename_i hlen x1 phit rest heqq x2 output heqr hcred houtstamp
            cases hstep
            refine Or.inr ⟨output.port_index, output.vc_index,
              out_idx.getD output.port_index 0,
              { phit with valid := true, vc := output.vc_index },
              rfl, rfl, rfl, houtstamp, rfl, by omega, rfl⟩

/-- Helper: the arbitration loop keeps credits non-negative. -/
theorem routerArbLoop_credit_nonneg
    (route : PortIndexAndVCIndex → Nat → Option PortIndexAndVCIndex)
    (out_idx : List Nat) (cc : Int) :
    ∀ (pairs : List (Nat × Nat)) (st st' : RouterArbState),
      routerArbLoop route out_idx cc pairs st = some st' →
      (∀ row ∈ st.credit, ∀ c ∈ row, 0 ≤ c) →
      ∀ row ∈ st'.credit, ∀ c ∈ row, 0 ≤ c := by
  intro pairs
  induction pairs with
  | nil =>
      intro st st' h hnn
      cases h
      exact hnn
  | cons p ps ih =>
      intro st st' h hnn
      unfold routerArbLoop at h
      cases hstep : routerArbStep route out_idx cc st p with
      | none => rw [hstep] at h; exact Option.noConfusion h
      | some st1 =>
          rw [hstep] at h
          refine ih st1 st' h ?_
          cases routerArbStep_credit_shape route out_idx cc st st1 p hstep with
          | inl he => rw [he.2]; exact hnn
          | inr he =>
              obtain ⟨o, v, j, sent, _, _, _, _, _, hpos, hcr⟩ := he
              rw [hcr]
              exact set2D_forall st.credit o v _ hnn (by omega)

/-- Helper: the router's forward propagation keeps credits non-negative. -/
theorem routerFwd_credit_nonneg
    (route : PortIndexAndVCIndex → Nat → Option PortIndexAndVCIndex)
    (cc : Int) (cs : List SimConnectionState) (r : SimInputBufferedVCRouter)
    (p : List SimConnectionState × SimInputBufferedVCRouter × Bool)
    (h : routerTryForwardPropagation route cc cs r = some p)
    (hnn : ∀ row ∈ r.credit, ∀ c ∈ row, 0 ≤ c) :
    ∀ row ∈ p.2.1.credit, ∀ c ∈ row, 0 ≤ c := by
  have happ : ∀ row ∈ applyCreditUpdates2D r.credit r.credit_update,
      ∀ c ∈ row, 0 ≤ c := applyCreditUpdates2D_nonneg r.credit
    r.credit_update hnn
  unfold routerTryForwardPropagation at h
  by_cases hi : r.internal_propagated_cycle ≠ cc
  · rw [if_pos hi] at h
    dsimp only at h
    split at h
    · cases h; exact happ
    · split at h
      · exact Option.noConfusion h
      · rename_i st hloop
        cases h
        exact routerArbLoop_credit_nonneg route r.output_connection_index cc
          _ _ st hloop happ
  · rw [if_neg hi] at h
    dsimp only at h
    split at h
    · cases h; exact hnn
    · split at h
      · exact Option.noConfusion h
      · rename_i st hloop
        cases h
        exact routerArbLoop_credit_nonneg route r.output_connection_index cc
          _ _ st hloop hnn

/-- Helper: the router's reverse propagation does not change its credits. -/
theorem routerRev_credit (cc : Int) (cs : List SimConnectionState)
    (r : SimInputBufferedVCRouter) :
    (routerTryReversePropagation cc cs r).2.1.credit = r.credit := by
  unfold routerTryReversePropagation
  dsimp only
  split <;> rfl

/-- Helper: a router tick keeps its credits non-negative. -/
theorem routerTick_credit_nonneg
    (route : PortIndexAndVCIndex → Nat → Option PortIndexAndVCIndex)
    (cc : Int) (conns : List SimConnectionState)
    (r : SimInputBufferedVCRouter)
    (q : List SimConnectionState × SimInputBufferedVCRouter × Bool)
    (h : routerTick route cc conns r = some q)
    (hnn : ∀ row ∈ r.credit, ∀ c ∈ row, 0 ≤ c) :
    ∀ row ∈ q.2.1.credit, ∀ c ∈ row, 0 ≤ c := by
  unfold routerTick at h
  dsimp only at h
  by_cases h1 : r.forward_propagated_cycle ≠ cc
  · rw [if_pos h1] at h
    cases hfp : routerTryForwardPropagation route cc conns r with
    | none => rw [hfp] at h; exact Option.noConfusion h
    | some p =>
        rw [hfp] at h
        dsimp only at h
        have hp := routerFwd_credit_nonneg route cc conns r p hfp hnn
        by_cases hb : p.2.2 = true
        · rw [if_pos hb] at h
          dsimp only at h
          by_cases h2 : (p.2.1.reverse_propagated_cycle ≠ cc)
          · rw [if_pos h2] at h
            try dsimp only at h
            split at h <;>
              (injection h with h; subst h; intro row hrow;
                rw [routerRev_credit] at hrow; exact hp row hrow)
          · rw [if_neg h2] at h
            injection h with h
            subst h
            exact hp
        · rw [if_neg hb] at h
          dsimp only at h
          by_cases h2 : (p.2.1.reverse_propagated_cycle ≠ cc)
          · rw [if_pos h2] at h
            try dsimp only at h
            split at h <;>
              (injection h with h; subst h; intro row hrow;
                rw [routerRev_credit] at hrow; exact hp row hrow)
          · rw [if_neg h2] at h
            injection h with h
            subst h
            exact hp
  · rw [if_neg h1] at h
    dsimp only at h
    by_cases h2 : (r.reverse_propagated_cycle ≠ cc)
    · rw [if_pos h2] at h
      try dsimp only at h
      split at h <;>
        (injection h with h; subst h; intro row hrow;
          rw [routerRev_credit] at hrow; exact hnn row hrow)
    · rw [if_neg h2] at h
      injection h with h
      subst h
      exact hnn

/-- Helper: the source pass keeps every source's credits non-negative. -/
theorem tickSrcList_credit_nonneg (cc : Int) :
    ∀ (xs : List SimNetworkInterfaceSrc) (conns : List SimConnectionState),
      (∀ x ∈ xs, ∀ c ∈ x.credit, 0 ≤ c) →
      ∀ x ∈ (tickSrcList cc xs conns).2.1, ∀ c ∈ x.credit, 0 ≤ c := by
  intro xs
  induction xs with
  | nil => intro conns _ x hx; cases hx
  | cons x0 rest ih =>
      intro conns hall x hx
      simp only [tickSrcList] at hx
      cases List.mem_cons.mp hx with
      | inl he =>
          subst he
          exact srcTick_credit_nonneg cc conns x0
            (hall x0 (List.mem_cons_self x0 rest))
      | inr he =>
          exact ih (srcTick cc conns x0).1
            (fun y hy => hall y (List.mem_cons_of_mem x0 hy)) x he

/-- Helper: the router pass keeps every router's credits non-negative. -/
theorem tickRouterList_credit_nonneg
    (routing : Nat → PortIndexAndVCIndex → Nat → Option PortIndexAndVCIndex)
    (cc : Int) :
    ∀ (xs : List SimInputBufferedVCRouter)
      (conns : List SimConnectionState)
      (q : List SimConnectionState × List SimInputBufferedVCRouter × Bool),
      tickRouterList routing cc xs conns = some q →
      (∀ x ∈ xs, ∀ row ∈ x.credit, ∀ c ∈ row, 0 ≤ c) →
      ∀ x ∈ q.2.1, ∀ row ∈ x.credit, ∀ c ∈ row, 0 ≤ c := by
  intro xs
  induction xs with
  | nil =>
      intro conns q h _ x hx
      cases h
      cases hx
  | cons x0 rest ih =>
      intro conns q h hall x hx
      simp only [tickRouterList] at h
      cases ha : routerTick (routing x0.rid) cc conns x0 with
      | none => rw [ha] at h; exact Option.noConfusion h
      | some a =>
          rw [ha] at h
          dsimp only at h
          cases hb : tickRouterList routing cc rest a.1 with
          | none => rw [hb] at h; exact Option.noConfusion h
          | some b =>
              rw [hb] at h
              dsimp only at h
              injection h with h
              subst h
              cases List.mem_cons.mp hx with
              | inl he =>
                  subst he
                  exact routerTick_credit_nonneg (routing x0.rid) cc conns x0
                    a ha (hall x0 (List.mem_cons_self x0 rest))
              | inr he =>
                  exact ih a.1 b hb
                    (fun y hy => hall y (List.mem_cons_of_mem x0 hy)) x he

/-- Helper: a tick preserves the credit non-negativity invariant. -/
theorem tick_credit_nonneg (s s' : NocSimulator) (b : Bool)
    (hnn : creditNonneg s) (h : tick s = some (s', b)) : creditNonneg s' := by
  unfold tick at h
  dsimp only at h
  cases hR : tickRouterList s.routing s.cycle s.routers
      (tickLinkList s.cycle s.links
        (tickSrcList s.cycle s.network_interface_sources s.connections).1).1
    with
  | none => rw [hR] at h; exact Option.noConfusion h
  | some c =>
      rw [hR] at h
      dsimp only at h
      injection h with h
      injection h with h1 h2
      subst h1
      constructor
      · exact tickSrcList_credit_nonneg s.cycle s.network_interface_sources
          s.connections hnn.1
      · exact tickRouterList_credit_nonneg s.routing s.cycle s.routers _ c
          hR hnn.2

/-- Helper: the convergence loop preserves credit non-negativity. -/
theorem runTickLoop_credit_nonneg :
    ∀ (fuel : Nat) (s : NocSimulator) (n : Int) (s' : NocSimulator) (k : Int),
      runTickLoop fuel s n = .converged s' k → creditNonneg s →
      creditNonneg s' := by
  intro fuel
  induction fuel with
  | zero => intro s n s' k h _; cases h
  | succ fuel ih =>
      intro s n s' k h hnn
      unfold runTickLoop at h
      cases ht : tick s with
      | none => rw [ht] at h; cases h
      | some p =>
          rw [ht] at h
          obtain ⟨s1, conv⟩ := p
          dsimp only at h
          by_cases hc : conv = true
          · subst hc
            rw [if_pos rfl] at h
            cases h
            exact tick_credit_nonneg s s' true hnn ht
          · rw [if_neg (by simpa using hc)] at h
            exact ih s1 (n + 1) s' k h
              (tick_credit_nonneg s s1 conv hnn ht)

/-- Helper: the credit of the VC chosen by the spec scan is positive. -/
theorem srcForwardSpecScan_pos (cc : Int) :
    ∀ (qs : List (List TimedDataPhit)) (cs : List Int) (k : Nat)
      (p : TimedDataPhit),
      srcForwardSpecScan cc qs cs = some (k, p) → cs.getD k 0 > 0 := by
  intro qs
  induction qs with
  | nil => intro cs k p h; cases h
  | cons q qs ih =>
      intro cs k p h
      cases q with
      | nil =>
          unfold srcForwardSpecScan at h
          dsimp only at h
          cases hr : srcForwardSpecScan cc qs cs.tail with
          | none => rw [hr] at h; cases h
          | some r =>
              rw [hr] at h
              obtain ⟨k0, p0⟩ := r
              dsimp only [Option.map] at h
              injection h with h
              injection h with h1 h2
              subst h1
              have hp2 := ih cs.tail k0 p0 hr
              cases cs with
              | nil => exact hp2
              | cons c0 cs => simpa using hp2
      | cons p0 rest =>
          unfold srcForwardSpecScan at h
          dsimp only at h
          split at h
          · rename_i hcond
            injection h with h
            injection h with h1 h2
            subst h1
            cases cs with
            | nil => simpa using hcond.2
            | cons c0 cs => simpa using hcond.2
          · cases hr : srcForwardSpecScan cc qs cs.tail with
            | none => rw [hr] at h; cases h
            | some r =>
                rw [hr] at h
                obtain ⟨k0, pp⟩ := r
                dsimp only [Option.map] at h
                injection h with h
                injection h with h1 h2
                subst h1
                have hp2 := ih cs.tail k0 pp hr
                cases cs with
                | nil => exact hp2
                | cons c0 cs => simpa using hp2

/-- Helper: a successful send implies the chosen VC's credit was positive and
is decremented by exactly one. -/
theorem srcSendScan_send_condition (cc : Int) (idx : Nat)
    (qs : List (List TimedDataPhit)) (cs : List Int) (phit : DataPhit)
    (h : (srcSendScan cc idx qs cs).2.2 = some phit) :
    ∃ k, cs.getD k 0 > 0 ∧
      (srcSendScan cc idx qs cs).2.1 = cs.set k (cs.getD k 0 - 1) ∧
      phit.valid = true := by
  rw [srcSendScan_eq_spec cc qs cs idx] at h ⊢
  cases hs : srcForwardSpecScan cc qs cs with
  | none =>
      rw [hs] at h
      dsimp only at h
      cases h
  | some r =>
      rw [hs] at h
      obtain ⟨k, p⟩ := r
      dsimp only at h ⊢
      injection h with h
      subst h
      exact ⟨k, srcForwardSpecScan_pos cc qs cs k p hs, rfl, rfl⟩

/-- C4: credit-based flow control is sound for every credit-bearing component.
(a) A tick preserves non-negativity of every source and router credit counter,
and (b) so does a whole successful `RunCycle`, so credits are non-negative at
every observation point of a run started from the all-zero initial credits.
(c) A source sends a valid phit only when the chosen VC's credit is positive,
decrementing it by exactly one.  (d) A router arbitration iteration transmits
a valid phit on an output (port, VC) only when that credit is positive,
decrementing it by exactly one. -/
theorem credit_flow_invariants :
    (∀ (s s' : NocSimulator) (b : Bool),
        creditNonneg s → tick s = some (s', b) → creditNonneg s') ∧
    (∀ (fuel : Nat) (mt : Int) (s s' : NocSimulator),
        creditNonneg s → runCycle fuel mt s = .ok s' → creditNonneg s') ∧
    (∀ (cc : Int) (idx : Nat) (qs : List (List TimedDataPhit))
        (cs : List Int) (phit : DataPhit),
        (srcSendScan cc idx qs cs).2.2 = some phit →
        ∃ k, cs.getD k 0 > 0 ∧
          (srcSendScan cc idx qs cs).2.1 = cs.set k (cs.getD k 0 - 1) ∧
          phit.valid = true) ∧
    (∀ (route : PortIndexAndVCIndex → Nat → Option PortIndexAndVCIndex)
        (out_idx : List Nat) (cc : Int) (st st' : RouterArbState)
        (p : Nat × Nat),
        routerArbStep route out_idx cc st p = some st' →
        (st'.conns = st.conns ∧ st'.credit = st.credit) ∨
        ∃ (o v j : Nat) (sent : DataPhit),
          j = out_idx.getD o 0 ∧
          sent.valid = true ∧ sent.vc = v ∧
          (getConn st.conns j).forward_channels.cycle ≠ cc ∧
          st'.conns = st.conns.set j
            { getConn st.conns j with
              forward_channels := { cycle := cc, phit := sent } } ∧
          get2D st.credit o v > 0 ∧
          st'.credit = set2D st.credit o v (get2D st.credit o v - 1)) := by
  refine ⟨tick_credit_nonneg, ?_, srcSendScan_send_condition,
    routerArbStep_credit_shape⟩
  intro fuel mt s s' hnn h
  unfold runCycle at h
  dsimp only at h
  cases hl : runTickLoop fuel { s with cycle := s.cycle + 1 } 0 with
  | crashed => rw [hl] at h; cases h
  | fuelOut s2 n => rw [hl] at h; cases h
  | converged s2 n =>
      rw [hl] at h
      dsimp only at h
      split at h
      · cases h
      · injection h with h
        subst h
        exact runTickLoop_credit_nonneg fuel _ 0 _ n hl hnn

/-- Witness for C4: a tick and a full cycle on a concrete simulator keep the
(trivially non-negative) credits non-negative; a concrete send scan that sends
had positive credit 2, decremented to 1; a concrete arbitration iteration that
skips a stamped output changes nothing. -/
theorem credit_flow_invariants_witness :
    creditNonneg simConverged ∧
    creditNonneg simEmpty0 ∧
    (∃ k, ([2] : List Int).getD k 0 > 0 ∧
      (srcSendScan 5 0 [[⟨0, ⟨9, true, 0, 0⟩⟩]] [2]).2.1 =
        ([2] : List Int).set k (([2] : List Int).getD k 0 - 1) ∧
      (⟨9, true, 0, 0⟩ : DataPhit).valid = true) ∧
    ((arbStTwoInputs.conns = arbStTwoInputs.conns ∧
        arbStTwoInputs.credit = arbStTwoInputs.credit) ∨
      ∃ (o v j : Nat) (sent : DataPhit),
        j = ([0] : List Nat).getD o 0 ∧
        sent.valid = true ∧ sent.vc = v ∧
        (getConn arbStTwoInputs.conns j).forward_channels.cycle ≠ 5 ∧
        arbStTwoInputs.conns = arbStTwoInputs.conns.set j
          { getConn arbStTwoInputs.conns j with
            forward_channels := { cycle := 5, phit := sent } } ∧
        get2D arbStTwoInputs.credit o v > 0 ∧
        arbStTwoInputs.credit = set2D arbStTwoInputs.credit o v
          (get2D arbStTwoInputs.credit o v - 1)) := by
  refine ⟨?_, ?_, ?_, ?_⟩
  · exact credit_flow_invariants.1 simConverged simConverged true
      (by constructor <;> simp [simConverged]) rfl
  · exact credit_flow_invariants.2.1 10 10 simEmpty simEmpty0
      (by constructor <;> simp [simEmpty]) rfl
  · exact credit_flow_invariants.2.2.1 5 0 [[⟨0, ⟨9, true, 0, 0⟩⟩]] [2]
      ⟨9, true, 0, 0⟩ rfl
  · exact credit_flow_invariants.2.2.2 routeAllToZero [0] 5 arbStTwoInputs
      arbStTwoInputs (0, 0) rfl

/-! ## Claim theorems: routing-lookup failure during arbitration (C2) -/

/-- Helper: when every routing query fails, an arbitration iteration that
finds a buffered head phit aborts (`XLS_CHECK_OK`). -/
theorem routerArbStep_all_fail_crash
    (route : PortIndexAndVCIndex → Nat → Option PortIndexAndVCIndex)
    (hroute : ∀ q d, route q d = none) (out_idx : List Nat) (cc : Int)
    (st : RouterArbState) (p : Nat × Nat)
    (hvc : p.1 < (st.input_buffers.getD p.2 []).length)
    (hne : (get2D st.input_buffers p.2 p.1).queue ≠ []) :
    routerArbStep route out_idx cc st p = none := by
  unfold routerArbStep
  dsimp only
  rw [if_neg (by omega)]
  cases hq : (get2D st.input_buffers p.2 p.1).queue with
  | nil => exact absurd hq hne
  | cons ph rest =>
      dsimp only
      rw [hroute]

/-- Helper: when every routing query fails, an arbitration iteration that
finds nothing to route leaves the state unchanged. -/
theorem routerArbStep_all_fail_skip
    (route : PortIndexAndVCIndex → Nat → Option PortIndexAndVCIndex)
    (out_idx : List Nat) (cc : Int)
    (st : RouterArbState) (p : Nat × Nat)
    (hnot : ¬ (p.1 < (st.input_buffers.getD p.2 []).length ∧
      (get2D st.input_buffers p.2 p.1).queue ≠ [])) :
    routerArbStep route out_idx cc st p = some st := by
  unfold routerArbStep
  dsimp only
  by_cases hvc : p.1 ≥ (st.input_buffers.getD p.2 []).length
  · rw [if_pos hvc]
  · rw [if_neg hvc]
    cases hq : (get2D st.input_buffers p.2 p.1).queue with
    | nil => rfl
    | cons ph rest =>
        exact absurd ⟨by omega, by rw [hq]; exact fun hx => List.noConfusion hx⟩
          hnot

/-- Helper: when every routing query fails, the whole arbitration loop aborts
as soon as some pair in priority order has a buffered phit. -/
theorem routerArbLoop_all_fail_crash
    (route : PortIndexAndVCIndex → Nat → Option PortIndexAndVCIndex)
    (hroute : ∀ q d, route q d = none) (out_idx : List Nat) (cc : Int) :
    ∀ (pairs : List (Nat × Nat)) (st : RouterArbState),
      (∃ p ∈ pairs, p.1 < (st.input_buffers.getD p.2 []).length ∧
        (get2D st.input_buffers p.2 p.1).queue ≠ []) →
      routerArbLoop route out_idx cc pairs st = none := by
  intro pairs
  induction pairs with
  | nil => intro st h; obtain ⟨p, hp, _⟩ := h; cases hp
  | cons p0 ps ih =>
      intro st h
      unfold routerArbLoop
      by_cases htrig : p0.1 < (st.input_buffers.getD p0.2 []).length ∧
          (get2D st.input_buffers p0.2 p0.1).queue ≠ []
      · rw [routerArbStep_all_fail_crash route hroute out_idx cc st p0
          htrig.1 htrig.2]
      · rw [routerArbStep_all_fail_skip route out_idx cc st p0 htrig]
        obtain ⟨p, hp, hcond⟩ := h
        cases List.mem_cons.mp hp with
        | inl he => exact absurd (he ▸ hcond) htrig
        | inr he => exact ih st ⟨p, he, hcond⟩

/-- C2 (amended): when the routing table has no route for this router's
traffic, the router's forward propagation — and hence the whole
`run_cycle` invocation — aborts via the `XLS_CHECK_OK` process check;
no `InternalError` (or any other status) is returned to `run_cycle`'s caller,
because `TryForwardPropagation` returns only a bool and the lookup failure is
consumed by a fatal check. -/
theorem routing_failure_aborts_process (s : NocSimulator)
    (r : SimInputBufferedVCRouter) (fuel : Nat) (mt : Int)
    (hr : s.routers = [r])
    (hroute : ∀ q d, s.routing r.rid q d = none)
    (hflag : r.forward_propagated_cycle ≠ s.cycle + 1)
    (hgate : routerInputsReady (s.cycle + 1) r.input_connection_index
      (tickLinkList (s.cycle + 1) s.links
        (tickSrcList (s.cycle + 1) s.network_interface_sources
          s.connections).1).1 = true)
    (hbuf : ∃ p ∈ arbPairs r.max_vc
        (routerIngest r.input_connection_index
          (tickLinkList (s.cycle + 1) s.links
            (tickSrcList (s.cycle + 1) s.network_interface_sources
              s.connections).1).1 r.input_buffers).length,
      p.1 < ((routerIngest r.input_connection_index
          (tickLinkList (s.cycle + 1) s.links
            (tickSrcList (s.cycle + 1) s.network_interface_sources
              s.connections).1).1 r.input_buffers).getD p.2 []).length ∧
      (get2D (routerIngest r.input_connection_index
          (tickLinkList (s.cycle + 1) s.links
            (tickSrcList (s.cycle + 1) s.network_interface_sources
              s.connections).1).1 r.input_buffers) p.2 p.1).queue ≠ []) :
    runCycle (fuel + 1) mt s = .crashed := by
  have hfwd : routerTryForwardPropagation (s.routing r.rid) (s.cycle + 1)
      (tickLinkList (s.cycle + 1) s.links
        (tickSrcList (s.cycle + 1) s.network_interface_sources
          s.connections).1).1 r = none := by
    unfold routerTryForwardPropagation
    by_cases hi : r.internal_propagated_cycle ≠ s.cycle + 1
    · rw [if_pos hi]
      dsimp only
      rw [if_neg (by rw [hgate]; intro hx; exact hx rfl)]
      rw [routerArbLoop_all_fail_crash (s.routing r.rid) hroute
        r.output_connection_index (s.cycle + 1) _ _ hbuf]
    · rw [if_neg hi]
      dsimp only
      rw [if_neg (by rw [hgate]; intro hx; exact hx rfl)]
      rw [routerArbLoop_all_fail_crash (s.routing r.rid) hroute
        r.output_connection_index (s.cycle + 1) _ _ hbuf]
  have hrtick : routerTick (s.routing r.rid) (s.cycle + 1)
      (tickLinkList (s.cycle + 1) s.links
        (tickSrcList (s.cycle + 1) s.network_interface_sources
          s.connections).1).1 r = none := by
    unfold routerTick
    rw [if_pos hflag, hfwd]
  have htick : tick { s with cycle := s.cycle + 1 } = none := by
    unfold tick
    dsimp only
    rw [hr]
    simp only [tickRouterList]
    rw [hrtick]
  unfold runCycle
  dsimp only
  unfold runTickLoop
  rw [htick]

/-- Counterexample for C2 as stated: on a concrete simulator whose routing
table lacks the entry for a buffered phit, `run_cycle` does not return an
`InternalError` status to its caller — the run aborts with the
`XLS_CHECK_OK` process crash (`RunCycleResult.crashed`, a distinct outcome
from `.ok` and from the returned `.divergenceError` status). -/
theorem routing_failure_returns_no_status :
    runCycle 10 10 c2sim = RunCycleResult.crashed := rfl

/-- Witness for the amended C2: the general abort theorem applied to the
concrete simulator `c2sim`. -/
theorem routing_failure_aborts_process_witness :
    runCycle (9 + 1) 10 c2sim = RunCycleResult.crashed :=
  routing_failure_aborts_process c2sim c2router 9 10 rfl
    (fun _ _ => rfl) (by decide) rfl
    ⟨(0, 0), by decide, by decide, by decide⟩

/-! ## Claim theorems: RunCycle's convergence loop and max_ticks (C1) -/

/-- Helper: the deadlocked two-router simulator is a fixpoint of `tick` that
never converges. -/
theorem dlTick1_fixpoint : tick dlTick1 = some (dlTick1, false) := rfl

/-- Helper: from the deadlocked fixpoint, the convergence loop runs out of
any fuel bound without converging. -/
theorem runTickLoop_dl : ∀ (fuel : Nat) (n : Int),
    runTickLoop fuel dlTick1 n = .fuelOut dlTick1 (n + fuel) := by
  intro fuel
  induction fuel with
  | zero => intro n; simp [runTickLoop]
  | succ fuel ih =>
      intro n
      unfold runTickLoop
      rw [dlTick1_fixpoint]
      dsimp only
      rw [if_neg (by simp)]
      rw [ih (n + 1)]
      congr 1
      omega

/-- C1 (the code evaluated at the failing input): on a two-router routing
cycle, no tick ever converges, and `RunCycle` — whose `max_ticks` test sits
only in the post-convergence connection dump loop — never reaches that test:
for every tick budget the convergence loop is still spinning, so `run_cycle`
neither returns Ok nor the claimed divergence error; it does not terminate. -/
theorem runCycle_never_returns_on_deadlock :
    ∀ (fuel : Nat) (mt : Int), runCycle fuel mt dlSim = .noConvergence := by
  intro fuel mt
  cases fuel with
  | zero => rfl
  | succ fuel =>
      unfold runCycle
      dsimp only
      unfold runTickLoop
      rw [show tick { dlSim with cycle := dlSim.cycle + 1 } =
        some (dlTick1, false) from rfl]
      dsimp only
      rw [if_neg (by simp)]
      rw [runTickLoop_dl fuel (0 + 1)]

/-! ## Claim C3: monotone stamp evolution within a cycle -/

/-- Helper: reading back a just-written list entry. -/
theorem getD_set_self' {α : Type} [Inhabited α] (l : List α) (i : Nat)
    (v : α) (h : i < l.length) : (l.set i v).getD i default = v := by
  rw [List.getD_eq_getElem?_getD, List.getElem?_set_self h]
  rfl

/-- Helper: reading an untouched entry of a written list. -/
theorem getD_set_ne' {α : Type} [Inhabited α] (l : List α) (i k : Nat)
    (v d : α) (h : i ≠ k) : (l.set i v).getD k d = l.getD k d := by
  rw [List.getD_eq_getElem?_getD, List.getD_eq_getElem?_getD,
    List.getElem?_set_ne h]

/-- Helper: reading beyond the end yields the default. -/
theorem getD_of_le {α : Type} (l : List α) (i : Nat) (d : α)
    (h : l.length ≤ i) : l.getD i d = d := by
  rw [List.getD_eq_getElem?_getD, List.getElem?_eq_none h]
  rfl

/-- Helper: reading an in-range index of a mapped list. -/
theorem getD_map' {α β : Type} [Inhabited α] [Inhabited β] (f : α → β)
    (l : List α) (i : Nat) (h : i < l.length) :
    (l.map f).getD i default = f (l.getD i default) := by
  rw [List.getD_eq_getElem?_getD, List.getD_eq_getElem?_getD,
    List.getElem?_map, List.getElem?_eq_getElem h]
  rfl

theorem connsMono_refl (cc : Int) (conns : List SimConnectionState) :
    ConnsMono cc conns conns :=
  ⟨rfl, fun _ => ⟨Or.inl rfl, rfl, fun _ => Or.inl rfl⟩⟩

theorem connsMono_trans {cc : Int} {a b c : List SimConnectionState}
    (hab : ConnsMono cc a b) (hbc : ConnsMono cc b c) : ConnsMono cc a c := by
  refine ⟨hbc.1.trans hab.1, fun j => ⟨?_, ?_, fun vc => ?_⟩⟩
  · cases (hbc.2 j).1 with
    | inl h => rw [h]; exact (hab.2 j).1
    | inr h => exact Or.inr h
  · exact ((hbc.2 j).2.1).trans ((hab.2 j).2.1)
  · cases (hbc.2 j).2.2 vc with
    | inl h => rw [h]; exact (hab.2 j).2.2 vc
    | inr h => exact Or.inr h

theorem stampedF_mono {cc : Int} {conns conns' : List SimConnectionState}
    {j : Nat} (hm : ConnsMono cc conns conns') (h : StampedF cc conns j) :
    StampedF cc conns' j := by
  cases (hm.2 j).1 with
  | inl he => unfold StampedF at h ⊢; rw [he]; exact h
  | inr he => exact he

theorem stampedR_mono {cc : Int} {conns conns' : List SimConnectionState}
    {j vc : Nat} (hm : ConnsMono cc conns conns')
    (h : StampedR cc conns j vc) : StampedR cc conns' j vc := by
  cases (hm.2 j).2.2 vc with
  | inl he => unfold StampedR at h ⊢; rw [he]; exact h
  | inr he => exact he

/-- Helper: overwriting one connection's forward channel with anything that
is either unchanged or freshly stamped is a monotone step. -/
theorem connsMono_set_fwd_keep (cc : Int) (conns : List SimConnectionState)
    (j : Nat) (ch : TimedDataPhit)
    (hch : ch = (getConn conns j).forward_channels ∨ ch.cycle = cc) :
    ConnsMono cc conns
      (conns.set j { getConn conns j with forward_channels := ch }) := by
  refine ⟨List.length_set conns j _, fun k => ?_⟩
  rw [getConn_set]
  by_cases hk : j = k ∧ j < conns.length
  · rw [if_pos hk]
    obtain ⟨hjk, _⟩ := hk
    subst hjk
    exact ⟨by cases hch with
      | inl h => exact Or.inl h
      | inr h => exact Or.inr h, rfl, fun vc => Or.inl rfl⟩
  · rw [if_neg hk]
    exact ⟨Or.inl rfl, rfl, fun vc => Or.inl rfl⟩

/-- Helper: overwriting one connection's reverse channels with a same-length
vector whose entries are unchanged or freshly stamped is a monotone step. -/
theorem connsMono_set_rev (cc : Int) (conns : List SimConnectionState)
    (j : Nat) (newRev : List TimedMetadataPhit)
    (hlen : newRev.length = (getConn conns j).reverse_channels.length)
    (hent : ∀ vc,
      newRev.getD vc default =
        (getConn conns j).reverse_channels.getD vc default ∨
      (newRev.getD vc default).cycle = cc) :
    ConnsMono cc conns
      (conns.set j { getConn conns j with reverse_channels := newRev }) := by
  refine ⟨List.length_set conns j _, fun k => ?_⟩
  rw [getConn_set]
  by_cases hk : j = k ∧ j < conns.length
  · rw [if_pos hk]
    obtain ⟨hjk, _⟩ := hk
    subst hjk
    exact ⟨Or.inl rfl, hlen, hent⟩
  · rw [if_neg hk]
    exact ⟨Or.inl rfl, rfl, fun vc => Or.inl rfl⟩

/-- Helper: the pipeline's downstream slot is either untouched or freshly
stamped. -/
theorem pipeline_to_shape {α : Type} (bubbleOf : α → α) (cc sc : Int)
    (fromCh toCh : TimedPhit α) (st : List α) :
    (simplePipelineTryPropagation bubbleOf cc sc fromCh toCh st).2.1 = toCh ∨
    (simplePipelineTryPropagation bubbleOf cc sc fromCh toCh st).2.1.cycle =
      cc := by
  unfold simplePipelineTryPropagation
  dsimp only
  split
  · split
    · exact Or.inl rfl
    · split <;> exact Or.inr rfl
  · exact Or.inl rfl

/-- Helper: the source's forward propagation is a monotone step. -/
theorem srcFwd_connsMono (cc : Int) (conns : List SimConnectionState)
    (src : SimNetworkInterfaceSrc) :
    ConnsMono cc conns (srcTryForwardPropagation cc conns src).1 := by
  unfold srcTryForwardPropagation
  dsimp only
  exact connsMono_set_fwd_keep cc conns src.sink_connection_index _
    (Or.inr (by
      cases (srcSendScan cc 0 src.data_to_send
        (applyCreditUpdates src.credit src.credit_update)).2.2 <;> rfl))

/-- Helper: the link's forward propagation is a monotone step. -/
theorem linkFwd_connsMono (cc : Int) (conns : List SimConnectionState)
    (l : SimLink) :
    ConnsMono cc conns (linkTryForwardPropagation cc conns l).1 := by
  unfold linkTryForwardPropagation
  dsimp only
  split <;>
    exact connsMono_set_fwd_keep cc conns l.sink_connection_index _
      (pipeline_to_shape dataBubbleOf cc l.forward_pipeline_stages _ _ _)

/-- Helper: the link's reverse loop is a monotone step. -/
theorem linkRevLoop_connsMono (cc : Int) (l : SimLink) :
    ∀ (vcs : List Nat) (conns : List SimConnectionState),
      ConnsMono cc conns (linkRevLoop cc l vcs conns).1 := by
  intro vcs
  induction vcs with
  | nil => intro conns; exact connsMono_refl cc conns
  | cons vc vcs ih =>
      intro conns
      unfold linkRevLoop
      dsimp only
      refine connsMono_trans ?_ (ih _)
      refine connsMono_set_rev cc conns l.src_connection_index _
        (List.length_set _ _ _) (fun vc2 => ?_)
      by_cases hvv : vc = vc2
      · subst hvv
        by_cases hin : vc <
            (getConn conns l.src_connection_index).reverse_channels.length
        · rw [getD_set_self' _ _ _ hin]
          cases pipeline_to_shape metaBubbleOf cc l.reverse_pipeline_stages
            ((getConn conns l.sink_connection_index).reverse_channels.getD vc
              default)
            ((getConn conns l.src_connection_index).reverse_channels.getD vc
              default)
            (l.reverse_credit_stages.getD vc []) with
          | inl h => exact Or.inl h
          | inr h => exact Or.inr h
        · rw [List.set_eq_of_length_le (Nat.le_of_not_lt hin)]
          exact Or.inl rfl
      · rw [getD_set_ne' _ _ _ _ _ hvv]
        exact Or.inl rfl

/-- Helper: the arbitration loop is a monotone step on connections. -/
theorem routerArbLoop_connsMono
    (route : PortIndexAndVCIndex → Nat → Option PortIndexAndVCIndex)
    (out_idx : List Nat) (cc : Int) :
    ∀ (pairs : List (Nat × Nat)) (st st' : RouterArbState),
      routerArbLoop route out_idx cc pairs st = some st' →
      ConnsMono cc st.conns st'.conns := by
  intro pairs
  induction pairs with
  | nil => intro st st' h; cases h; exact connsMono_refl cc st.conns
  | cons p ps ih =>
      intro st st' h
      unfold routerArbLoop at h
      cases hstep : routerArbStep route out_idx cc st p with
      | none => rw [hstep] at h; exact Option.noConfusion h
      | some st1 =>
          rw [hstep] at h
          refine connsMono_trans ?_ (ih st1 st' h)
          cases routerArbStep_write_shape route out_idx cc st st1 p hstep with
          | inl he => rw [he]; exact connsMono_refl cc st.conns
          | inr he =>
              obtain ⟨j, sent, _, _, hconns⟩ := he
              rw [hconns]
              exact connsMono_set_fwd_keep cc st.conns j _ (Or.inr rfl)

/-- Helper: the bubble fill is a monotone step. -/
theorem routerBubbleFill_connsMono (cc : Int) :
    ∀ (out_idx : List Nat) (conns : List SimConnectionState),
      ConnsMono cc conns (routerBubbleFill cc out_idx conns) := by
  intro out_idx
  induction out_idx with
  | nil => intro conns; exact connsMono_refl cc conns
  | cons j js ih =>
      intro conns
      have hstep : ConnsMono cc conns
          (if (getConn conns j).forward_channels.cycle ≠ cc then
            conns.set j
              { getConn conns j with forward_channels :=
                  { cycle := cc,
                    phit := { data := 0, valid := false, vc := 0,
                              destination_index := 0 } } }
          else conns) := by
        split
        · exact connsMono_set_fwd_keep cc conns j _ (Or.inr rfl)
        · exact connsMono_refl cc conns
      show ConnsMono cc conns
        (routerBubbleFill cc js
          (if (getConn conns j).forward_channels.cycle ≠ cc then
            conns.set j
              { getConn conns j with forward_channels :=
                  { cycle := cc,
                    phit := { data := 0, valid := false, vc := 0,
                              destination_index := 0 } } }
          else conns))
      exact connsMono_trans hstep (ih _)

/-- Helper: one credit-return write is a monotone step. -/
theorem routerRevSendStep_connsMono (cc : Int) (r : SimInputBufferedVCRouter)
    (conns : List SimConnectionState) (i : Nat) :
    ConnsMono cc conns (routerRevSendStep cc r conns i) := by
  unfold routerRevSendStep
  dsimp only
  refine connsMono_set_rev cc conns (r.input_connection_index.getD i 0) _
    (by rw [List.length_map, List.length_range]) (fun vc => ?_)
  by_cases hvc : vc < (getConn conns
      (r.input_connection_index.getD i 0)).reverse_channels.length
  · rw [getD_range_map _ _ _ _ hvc]
    exact Or.inr rfl
  · rw [getD_of_le _ _ _ (by
      rw [List.length_map, List.length_range]
      exact Nat.le_of_not_lt hvc)]
    rw [getD_of_le _ _ _ (Nat.le_of_not_lt hvc)]
    exact Or.inl rfl

/-- Helper: the whole credit-return loop is a monotone step. -/
theorem routerRevSendCredits_connsMono (cc : Int)
    (r : SimInputBufferedVCRouter) (conns : List SimConnectionState) :
    ConnsMono cc conns (routerRevSendCredits cc r conns) := by
  unfold routerRevSendCredits
  generalize List.range r.input_connection_index.length = is
  induction is generalizing conns with
  | nil => exact connsMono_refl cc conns
  | cons a as ih =>
      rw [List.foldl_cons]
      exact connsMono_trans (routerRevSendStep_connsMono cc r conns a) (ih _)

/-- Helper: the sink's forward propagation is a monotone step. -/
theorem sinkFwd_connsMono (cc : Int) (conns : List SimConnectionState)
    (sink : SimNetworkInterfaceSink) :
    ConnsMono cc conns (sinkTryForwardPropagation cc conns sink).1 := by
  unfold sinkTryForwardPropagation
  dsimp only
  split
  · exact connsMono_refl cc conns
  · set src := getConn conns sink.src_connection_index with hsrc
    set rev1 := (if src.forward_channels.phit.valid then
      src.reverse_channels.set src.forward_channels.phit.vc
        { cycle := cc, phit := { data := 1, valid := true } }
      else src.reverse_channels) with hrev1
    have hlen1 : rev1.length = src.reverse_channels.length := by
      rw [hrev1]; split <;> simp
    have hent1 : ∀ vc, rev1.getD vc default =
        src.reverse_channels.getD vc default ∨
        (rev1.getD vc default).cycle = cc := by
      intro vc
      rw [hrev1]
      split
      · by_cases hvv : src.forward_channels.phit.vc = vc
        · subst hvv
          by_cases hin : src.forward_channels.phit.vc <
              src.reverse_channels.length
          · rw [getD_set_self' _ _ _ hin]
            exact Or.inr rfl
          · rw [List.set_eq_of_length_le (Nat.le_of_not_lt hin)]
            exact Or.inl rfl
        · rw [getD_set_ne' _ _ _ _ _ hvv]
          exact Or.inl rfl
      · exact Or.inl rfl
    refine connsMono_set_rev cc conns sink.src_connection_index _ ?_
      (fun vc => ?_)
    · split
      · rw [List.length_map, List.length_range, hlen1]
      · rw [List.length_map, hlen1]
    · split
      · rename_i hcc0
        by_cases hvc : vc < rev1.length
        · rw [getD_range_map _ _ _ _ hvc]
          exact Or.inr (by rw [hcc0])
        · rw [getD_of_le _ _ _ (by
              rw [List.length_map, List.length_range]
              exact Nat.le_of_not_lt hvc),
            getD_of_le _ _ _ (by rw [← hlen1]; exact Nat.le_of_not_lt hvc)]
          exact Or.inl rfl
      · by_cases hvc : vc < rev1.length
        · rw [getD_map' _ _ _ hvc]
          split
          · exact Or.inr rfl
          · rename_i hkeep
            rw [not_ne_iff] at hkeep
            exact Or.inr hkeep
        · rw [getD_of_le _ _ _ (by
              rw [List.length_map]; exact Nat.le_of_not_lt hvc),
            getD_of_le _ _ _ (by rw [← hlen1]; exact Nat.le_of_not_lt hvc)]
          exact Or.inl rfl

/-- Helper: the router's forward propagation is a monotone step. -/
theorem routerFwd_connsMono
    (route : PortIndexAndVCIndex → Nat → Option PortIndexAndVCIndex)
    (cc : Int) (conns : List SimConnectionState)
    (r : SimInputBufferedVCRouter)
    (p : List SimConnectionState × SimInputBufferedVCRouter × Bool)
    (h : routerTryForwardPropagation route cc conns r = some p) :
    ConnsMono cc conns p.1 := by
  unfold routerTryForwardPropagation at h
  by_cases hi : r.internal_propagated_cycle ≠ cc
  · rw [if_pos hi] at h
    dsimp only at h
    split at h
    · cases h; exact connsMono_refl cc conns
    · split at h
      · exact Option.noConfusion h
      · rename_i st hloop
        cases h
        exact connsMono_trans
          (routerArbLoop_connsMono route r.output_connection_index cc _ _ st
            hloop)
          (routerBubbleFill_connsMono cc r.output_connection_index st.conns)
  · rw [if_neg hi] at h
    dsimp only at h
    split at h
    · cases h; exact connsMono_refl cc conns
    · split at h
      · exact Option.noConfusion h
      · rename_i st hloop
        cases h
        exact connsMono_trans
          (routerArbLoop_connsMono route r.output_connection_index cc _ _ st
            hloop)
          (routerBubbleFill_connsMono cc r.output_connection_index st.conns)

/-- Helper: the router's reverse propagation is a monotone step. -/
theorem routerRev_connsMono (cc : Int) (conns : List SimConnectionState)
    (r : SimInputBufferedVCRouter) :
    ConnsMono cc conns (routerTryReversePropagation cc conns r).1 := by
  unfold routerTryReversePropagation
  dsimp only
  split
  · exact connsMono_refl cc conns
  · exact routerRevSendCredits_connsMono cc r conns

/-- Helper: the link's reverse propagation is a monotone step. -/
theorem linkRev_connsMono (cc : Int) (conns : List SimConnectionState)
    (l : SimLink) :
    ConnsMono cc conns (linkTryReversePropagation cc conns l).1 := by
  unfold linkTryReversePropagation
  dsimp only
  split <;> exact linkRevLoop_connsMono cc l _ conns

/-- Helper: a source tick is a monotone step on connections. -/
theorem srcTick_connsMono (cc : Int) (conns : List SimConnectionState)
    (x : SimNetworkInterfaceSrc) :
    ConnsMono cc conns (srcTick cc conns x).1 := by
  unfold srcTick
  dsimp only
  by_cases h1 : x.forward_propagated_cycle ≠ cc
  · rw [if_pos h1,
      if_pos (show (srcTryForwardPropagation cc conns x).2.2 = true from rfl)]
    dsimp only
    split
    · split <;> exact srcFwd_connsMono cc conns x
    · exact srcFwd_connsMono cc conns x
  · rw [if_neg h1]
    dsimp only
    split
    · split <;> exact connsMono_refl cc conns
    · exact connsMono_refl cc conns

/-- Helper: a link tick is a monotone step on connections. -/
theorem linkTick_connsMono (cc : Int) (conns : List SimConnectionState)
    (x : SimLink) :
    ConnsMono cc conns (linkTick cc conns x).1 := by
  unfold linkTick
  dsimp only
  by_cases h1 : x.forward_propagated_cycle ≠ cc
  · rw [if_pos h1]
    by_cases hf : (linkTryForwardPropagation cc conns x).2.2 = true
    · rw [if_pos hf]
      dsimp only
      split
      · split <;>
          exact connsMono_trans (linkFwd_connsMono cc conns x)
            (linkRev_connsMono cc _ _)
      · exact linkFwd_connsMono cc conns x
    · rw [if_neg hf]
      dsimp only
      split
      · split <;>
          exact connsMono_trans (linkFwd_connsMono cc conns x)
            (linkRev_connsMono cc _ _)
      · exact linkFwd_connsMono cc conns x
  · rw [if_neg h1]
    dsimp only
    split
    · split <;> exact linkRev_connsMono cc conns x
    · exact connsMono_refl cc conns

/-- Helper: a router tick is a monotone step on connections. -/
theorem routerTick_connsMono
    (route : PortIndexAndVCIndex → Nat → Option PortIndexAndVCIndex)
    (cc : Int) (conns : List SimConnectionState)
    (r : SimInputBufferedVCRouter)
    (q : List SimConnectionState × SimInputBufferedVCRouter × Bool)
    (h : routerTick route cc conns r = some q) :
    ConnsMono cc conns q.1 := by
  unfold routerTick at h
  try dsimp only at h
  by_cases h1 : r.forward_propagated_cycle ≠ cc
  · rw [if_pos h1] at h
    cases hfp : routerTryForwardPropagation route cc conns r with
    | none => rw [hfp] at h; exact Option.noConfusion h
    | some p =>
        rw [hfp] at h
        try dsimp only at h
        have hm1 := routerFwd_connsMono route cc conns r p hfp
        by_cases hb : p.2.2 = true
        · rw [if_pos hb] at h
          try dsimp only at h
          by_cases h2 : (p.2.1.reverse_propagated_cycle ≠ cc)
          · rw [if_pos h2] at h
            try dsimp only at h
            split at h <;>
              (injection h with h; subst h;
                exact connsMono_trans hm1 (routerRev_connsMono cc p.1 _))
          · rw [if_neg h2] at h
            injection h with h
            subst h
            exact hm1
        · rw [if_neg hb] at h
          try dsimp only at h
          by_cases h2 : (p.2.1.reverse_propagated_cycle ≠ cc)
          · rw [if_pos h2] at h
            try dsimp only at h
            split at h <;>
              (injection h with h; subst h;
                exact connsMono_trans hm1 (routerRev_connsMono cc p.1 _))
          · rw [if_neg h2] at h
            injection h with h
            subst h
            exact hm1
  · rw [if_neg h1] at h
    try dsimp only at h
    by_cases h2 : (r.reverse_propagated_cycle ≠ cc)
    · rw [if_pos h2] at h
      try dsimp only at h
      split at h <;>
        (injection h with h; subst h;
          exact routerRev_connsMono cc conns _)
    · rw [if_neg h2] at h
      injection h with h
      subst h
      exact connsMono_refl cc conns

/-- Helper: a sink tick is a monotone step on connections. -/
theorem sinkTick_connsMono (cc : Int) (conns : List SimConnectionState)
    (x : SimNetworkInterfaceSink) :
    ConnsMono cc conns (sinkTick cc conns x).1 := by
  unfold sinkTick
  dsimp only
  by_cases h1 : x.forward_propagated_cycle ≠ cc
  · rw [if_pos h1]
    by_cases hf : (sinkTryForwardPropagation cc conns x).2.2 = true
    · rw [if_pos hf]
      dsimp only
      split
      · split <;> exact sinkFwd_connsMono cc conns x
      · exact sinkFwd_connsMono cc conns x
    · rw [if_neg hf]
      dsimp only
      split
      · split <;> exact sinkFwd_connsMono cc conns x
      · exact sinkFwd_connsMono cc conns x
  · rw [if_neg h1]
    dsimp only
    split
    · split <;> exact connsMono_refl cc conns
    · exact connsMono_refl cc conns

/-! ## Stamp-clause transfer along monotone steps (claim C3) -/

/-- Helper: a monotone step preserves per-connection VC counts. -/
theorem connsMono_revlen {cc : Int} {a b : List SimConnectionState}
    (hm : ConnsMono cc a b) (j : Nat) :
    (getConn b j).reverse_channels.length =
      (getConn a j).reverse_channels.length :=
  (hm.2 j).2.1

/-- Helper: the source clause survives a monotone step. -/
theorem srcP_mono {cc : Int} {conns conns' : List SimConnectionState}
    {x : SimNetworkInterfaceSrc} (hm : ConnsMono cc conns conns')
    (h : SrcP cc conns x) : SrcP cc conns' x :=
  fun hf => stampedF_mono hm (h hf)

/-- Helper: the link forward clause survives a monotone step. -/
theorem linkPF_mono {cc : Int} {conns conns' : List SimConnectionState}
    {x : SimLink} (hm : ConnsMono cc conns conns')
    (h : LinkPF cc conns x) : LinkPF cc conns' x :=
  fun hf => stampedF_mono hm (h hf)

/-- Helper: the link reverse clause survives a monotone step. -/
theorem linkPR_mono {cc : Int} {conns conns' : List SimConnectionState}
    {x : SimLink} (hm : ConnsMono cc conns conns')
    (h : LinkPR cc conns x) : LinkPR cc conns' x := by
  intro hf vc hvc
  rw [connsMono_revlen hm] at hvc
  exact stampedR_mono hm (h hf vc hvc)

/-- Helper: the router forward clause survives a monotone step. -/
theorem routerPF_mono {cc : Int} {conns conns' : List SimConnectionState}
    {x : SimInputBufferedVCRouter} (hm : ConnsMono cc conns conns')
    (h : RouterPF cc conns x) : RouterPF cc conns' x :=
  fun hf j hj => stampedF_mono hm (h hf j hj)

/-- Helper: the router reverse clause survives a monotone step. -/
theorem routerPR_mono {cc : Int} {conns conns' : List SimConnectionState}
    {x : SimInputBufferedVCRouter} (hm : ConnsMono cc conns conns')
    (h : RouterPR cc conns x) : RouterPR cc conns' x := by
  intro hf j hj vc hvc
  rw [connsMono_revlen hm] at hvc
  exact stampedR_mono hm (h hf j hj vc hvc)

/-- Helper: the sink clause survives a monotone step. -/
theorem sinkP_mono {cc : Int} {conns conns' : List SimConnectionState}
    {x : SimNetworkInterfaceSink} (hm : ConnsMono cc conns conns')
    (h : SinkP cc conns x) : SinkP cc conns' x := by
  intro hf vc hvc
  rw [connsMono_revlen hm] at hvc
  exact stampedR_mono hm (h hf vc hvc)

/-! ## Establishment lemmas: each successful phase stamps its channels -/

/-- Helper: a successful pipeline propagation leaves the downstream slot
stamped with the current cycle. -/
theorem pipeline_success_stamped {α : Type} (bubbleOf : α → α)
    (cc sc : Int) (fromCh toCh : TimedPhit α) (st : List α)
    (h : (simplePipelineTryPropagation bubbleOf cc sc fromCh toCh st).1 =
      true) :
    (simplePipelineTryPropagation bubbleOf cc sc fromCh toCh st).2.1.cycle =
      cc := by
  cases pipeline_to_shape bubbleOf cc sc fromCh toCh st with
  | inl he =>
      rw [he]
      exact ((pipeline_success_iff bubbleOf cc sc fromCh toCh st).mp h).2
  | inr he => exact he

/-- Helper: the source's forward propagation stamps its sink connection. -/
theorem srcFwd_stamps (cc : Int) (conns : List SimConnectionState)
    (x : SimNetworkInterfaceSrc)
    (hb : x.sink_connection_index < conns.length) :
    StampedF cc (srcTryForwardPropagation cc conns x).1
      x.sink_connection_index := by
  unfold srcTryForwardPropagation StampedF
  dsimp only
  rw [getConn_set_self _ _ hb]
  cases (srcSendScan cc 0 x.data_to_send
      (applyCreditUpdates x.credit x.credit_update)).2.2 <;> rfl

/-- Helper: the source's forward propagation keeps the connection index. -/
theorem srcFwd_pres_idx (cc : Int) (conns : List SimConnectionState)
    (x : SimNetworkInterfaceSrc) :
    (srcTryForwardPropagation cc conns x).2.1.sink_connection_index =
      x.sink_connection_index := rfl

/-- Helper: the source's reverse propagation keeps the connection index. -/
theorem srcRev_pres_idx (cc : Int) (conns : List SimConnectionState)
    (x : SimNetworkInterfaceSrc) :
    (srcTryReversePropagation cc conns x).1.sink_connection_index =
      x.sink_connection_index := by
  unfold srcTryReversePropagation
  dsimp only
  split <;> rfl

/-- Helper: a successful link forward propagation stamps its sink
connection. -/
theorem linkFwd_stamps (cc : Int) (conns : List SimConnectionState)
    (l : SimLink) (hb : l.sink_connection_index < conns.length)
    (h : (linkTryForwardPropagation cc conns l).2.2 = true) :
    StampedF cc (linkTryForwardPropagation cc conns l).1
      l.sink_connection_index := by
  unfold linkTryForwardPropagation at h ⊢
  dsimp only at h ⊢
  by_cases hp : (simplePipelineTryPropagation dataBubbleOf cc
      l.forward_pipeline_stages
      (getConn conns l.src_connection_index).forward_channels
      (getConn conns l.sink_connection_index).forward_channels
      l.forward_data_stages).1 = true
  · rw [if_pos hp]
    unfold StampedF
    dsimp only
    rw [getConn_set_self _ _ hb]
    exact pipeline_success_stamped dataBubbleOf cc l.forward_pipeline_stages
      _ _ _ hp
  · rw [if_neg hp] at h
    exact absurd h (by simp)

/-- Helper: a failed link forward propagation keeps the forward marker. -/
theorem linkFwdFail_flag (cc : Int) (conns : List SimConnectionState)
    (l : SimLink)
    (h : (linkTryForwardPropagation cc conns l).2.2 = false) :
    (linkTryForwardPropagation cc conns l).2.1.forward_propagated_cycle =
      l.forward_propagated_cycle := by
  unfold linkTryForwardPropagation at h ⊢
  dsimp only at h ⊢
  by_cases hp : (simplePipelineTryPropagation dataBubbleOf cc
      l.forward_pipeline_stages
      (getConn conns l.src_connection_index).forward_channels
      (getConn conns l.sink_connection_index).forward_channels
      l.forward_data_stages).1 = true
  · rw [if_pos hp] at h
    exact absurd h (by simp)
  · rw [if_neg hp]

/-- Helper: the link's forward propagation keeps both connection indices. -/
theorem linkFwd_pres_idx (cc : Int) (conns : List SimConnectionState)
    (l : SimLink) :
    (linkTryForwardPropagation cc conns l).2.1.src_connection_index =
      l.src_connection_index ∧
    (linkTryForwardPropagation cc conns l).2.1.sink_connection_index =
      l.sink_connection_index := by
  unfold linkTryForwardPropagation
  dsimp only
  split <;> exact ⟨rfl, rfl⟩

/-- Helper: the link's reverse propagation keeps both connection indices. -/
theorem linkRev_pres_idx (cc : Int) (conns : List SimConnectionState)
    (l : SimLink) :
    (linkTryReversePropagation cc conns l).2.1.src_connection_index =
      l.src_connection_index ∧
    (linkTryReversePropagation cc conns l).2.1.sink_connection_index =
      l.sink_connection_index := by
  unfold linkTryReversePropagation
  dsimp only
  split <;> exact ⟨rfl, rfl⟩

/-- Helper: a failed link reverse propagation keeps the reverse marker. -/
theorem linkRevFail_flag (cc : Int) (conns : List SimConnectionState)
    (l : SimLink)
    (h : (linkTryReversePropagation cc conns l).2.2 = false) :
    (linkTryReversePropagation cc conns l).2.1.reverse_propagated_cycle =
      l.reverse_propagated_cycle := by
  unfold linkTryReversePropagation at h ⊢
  dsimp only at h ⊢
  by_cases hc : (linkRevLoop cc l
      (List.range
        (getConn conns l.sink_connection_index).reverse_channels.length)
      conns).2.2 =
      (getConn conns l.sink_connection_index).reverse_channels.length
  · rw [if_pos hc] at h
    exact absurd h (by simp)
  · rw [if_neg hc]

/-- Helper: one unfolding of the link's reverse loop, phrased with the named
step subterms. -/
theorem linkRevLoop_cons_eq (cc : Int) (l : SimLink) (vc0 : Nat)
    (vcs : List Nat) (conns : List SimConnectionState) :
    linkRevLoop cc l (vc0 :: vcs) conns =
      ((linkRevLoop cc l vcs (linkRevStepConns cc l conns vc0)).1,
       (linkRevLoop cc l vcs (linkRevStepConns cc l conns vc0)).2.1.set vc0
         (linkRevStepPipe cc l conns vc0).2.2,
       (linkRevLoop cc l vcs (linkRevStepConns cc l conns vc0)).2.2 +
         (if (linkRevStepPipe cc l conns vc0).1 then 1 else 0)) := rfl

/-- Helper: the link's reverse loop propagates at most one lane per listed
VC. -/
theorem linkRevLoop_count_le (cc : Int) (l : SimLink) :
    ∀ (vcs : List Nat) (conns : List SimConnectionState),
      (linkRevLoop cc l vcs conns).2.2 ≤ vcs.length := by
  intro vcs
  induction vcs with
  | nil => intro conns; exact Nat.le_refl 0
  | cons vc0 vcs ih =>
      intro conns
      rw [linkRevLoop_cons_eq]
      dsimp only
      refine Nat.add_le_add (ih _) ?_
      split
      · exact Nat.le_refl 1
      · exact Nat.zero_le 1

/-- Helper: the connection write of one reverse-loop iteration keeps the
table's length. -/
theorem linkRevStepConns_length (cc : Int) (l : SimLink)
    (conns : List SimConnectionState) (vc : Nat) :
    (linkRevStepConns cc l conns vc).length = conns.length :=
  List.length_set conns _ _

/-- Helper: the connection write of one reverse-loop iteration keeps the
upstream connection's VC count. -/
theorem linkRevStepConns_revlen (cc : Int) (l : SimLink)
    (conns : List SimConnectionState) (vc : Nat)
    (hb : l.src_connection_index < conns.length) :
    (getConn (linkRevStepConns cc l conns vc)
        l.src_connection_index).reverse_channels.length =
      (getConn conns l.src_connection_index).reverse_channels.length := by
  unfold linkRevStepConns
  rw [getConn_set_self _ _ hb]
  exact List.length_set _ _ _

/-- Helper: when the link's reverse loop propagates every listed VC, each of
those VCs ends stamped on the upstream connection. -/
theorem linkRevLoop_all_stamped (cc : Int) (l : SimLink) :
    ∀ (vcs : List Nat) (conns : List SimConnectionState),
      l.src_connection_index < conns.length →
      (∀ v ∈ vcs,
        v < (getConn conns l.src_connection_index).reverse_channels.length) →
      (linkRevLoop cc l vcs conns).2.2 = vcs.length →
      ∀ v ∈ vcs,
        StampedR cc (linkRevLoop cc l vcs conns).1
          l.src_connection_index v := by
  intro vcs
  induction vcs with
  | nil => intro conns _ _ _ v hv; exact absurd hv (List.not_mem_nil v)
  | cons vc0 vcs ih =>
      intro conns hb hin hcount v hv
      rw [linkRevLoop_cons_eq] at hcount ⊢
      dsimp only at hcount ⊢
      have hle := linkRevLoop_count_le cc l vcs
        (linkRevStepConns cc l conns vc0)
      by_cases hp : (linkRevStepPipe cc l conns vc0).1 = true
      · rw [if_pos hp] at hcount
        simp only [List.length_cons] at hcount
        have hcount2 : (linkRevLoop cc l vcs
            (linkRevStepConns cc l conns vc0)).2.2 = vcs.length := by omega
        have hb1 : l.src_connection_index <
            (linkRevStepConns cc l conns vc0).length := by
          rw [linkRevStepConns_length]; exact hb
        have hin1 : ∀ v2 ∈ vcs, v2 <
            (getConn (linkRevStepConns cc l conns vc0)
              l.src_connection_index).reverse_channels.length := by
          intro v2 hv2
          rw [linkRevStepConns_revlen cc l conns vc0 hb]
          exact hin v2 (List.mem_cons_of_mem _ hv2)
        cases List.mem_cons.mp hv with
        | inl hveq =>
            have hst : StampedR cc (linkRevStepConns cc l conns vc0)
                l.src_connection_index vc0 := by
              unfold StampedR linkRevStepConns
              rw [getConn_set_self _ _ hb]
              dsimp only
              rw [getD_set_self' _ _ _ (hin vc0 (List.mem_cons_self vc0 vcs))]
              exact pipeline_success_stamped metaBubbleOf cc
                l.reverse_pipeline_stages _ _ _ hp
            rw [hveq]
            exact stampedR_mono
              (linkRevLoop_connsMono cc l vcs
                (linkRevStepConns cc l conns vc0)) hst
        | inr hvmem =>
            exact ih (linkRevStepConns cc l conns vc0) hb1 hin1 hcount2 v hvmem
      · rw [if_neg hp] at hcount
        simp only [List.length_cons] at hcount
        omega

/-- Helper: a successful link reverse propagation stamps every VC of the
upstream connection. -/
theorem linkRev_stamps (cc : Int) (conns : List SimConnectionState)
    (l : SimLink) (hb : l.src_connection_index < conns.length)
    (hcompat :
      (getConn conns l.sink_connection_index).reverse_channels.length =
        (getConn conns l.src_connection_index).reverse_channels.length)
    (h : (linkTryReversePropagation cc conns l).2.2 = true) :
    ∀ vc < (getConn conns l.src_connection_index).reverse_channels.length,
      StampedR cc (linkTryReversePropagation cc conns l).1
        l.src_connection_index vc := by
  intro vc hvc
  unfold linkTryReversePropagation at h ⊢
  dsimp only at h ⊢
  by_cases hc : (linkRevLoop cc l
      (List.range
        (getConn conns l.sink_connection_index).reverse_channels.length)
      conns).2.2 =
      (getConn conns l.sink_connection_index).reverse_channels.length
  · rw [if_pos hc]
    dsimp only
    refine linkRevLoop_all_stamped cc l _ conns hb ?_ ?_ vc ?_
    · intro v hv
      rw [← hcompat]
      exact List.mem_range.mp hv
    · rw [List.length_range]
      exact hc
    · rw [List.mem_range, hcompat]
      exact hvc
  · rw [if_neg hc] at h
    exact absurd h (by simp)

/-- Helper: one unfolding of the router's bubble fill. -/
theorem routerBubbleFill_cons_eq (cc : Int) (j : Nat) (js : List Nat)
    (cs : List SimConnectionState) :
    routerBubbleFill cc (j :: js) cs =
      routerBubbleFill cc js (routerBubbleStep cc cs j) := rfl

/-- Helper: one bubble-fill step keeps the table's length. -/
theorem routerBubbleStep_length (cc : Int) (cs : List SimConnectionState)
    (j : Nat) : (routerBubbleStep cc cs j).length = cs.length := by
  unfold routerBubbleStep
  dsimp only
  split
  · exact List.length_set cs _ _
  · rfl

/-- Helper: the bubble fill stamps every listed output connection. -/
theorem routerBubbleFill_stamps (cc : Int) :
    ∀ (out_idx : List Nat) (conns : List SimConnectionState),
      (∀ j ∈ out_idx, j < conns.length) →
      ∀ j ∈ out_idx, StampedF cc (routerBubbleFill cc out_idx conns) j := by
  intro out_idx
  induction out_idx with
  | nil => intro conns _ j hj; exact absurd hj (List.not_mem_nil j)
  | cons j0 js ih =>
      intro conns hb j hj
      rw [routerBubbleFill_cons_eq]
      cases List.mem_cons.mp hj with
      | inl hje =>
          have hst : StampedF cc (routerBubbleStep cc conns j0) j0 := by
            unfold StampedF routerBubbleStep
            dsimp only
            by_cases hc : (getConn conns j0).forward_channels.cycle ≠ cc
            · rw [if_pos hc,
                getConn_set_self _ _ (hb j0 (List.mem_cons_self j0 js))]
            · rw [if_neg hc]
              exact not_ne_iff.mp hc
          rw [hje]
          exact stampedF_mono (routerBubbleFill_connsMono cc js _) hst
      | inr hjm =>
          refine ih (routerBubbleStep cc conns j0) ?_ j hjm
          intro k hk
          rw [routerBubbleStep_length]
          exact hb k (List.mem_cons_of_mem _ hk)

/-- Helper: a successful router forward propagation stamps every output
connection. -/
theorem routerFwd_stamps
    (route : PortIndexAndVCIndex → Nat → Option PortIndexAndVCIndex)
    (cc : Int) (conns : List SimConnectionState)
    (r : SimInputBufferedVCRouter)
    (p : List SimConnectionState × SimInputBufferedVCRouter × Bool)
    (h : routerTryForwardPropagation route cc conns r = some p)
    (hflag : p.2.2 = true)
    (hb : ∀ j ∈ r.output_connection_index, j < conns.length) :
    ∀ j ∈ r.output_connection_index, StampedF cc p.1 j := by
  unfold routerTryForwardPropagation at h
  by_cases hi : r.internal_propagated_cycle ≠ cc
  · rw [if_pos hi] at h
    dsimp only at h
    split at h
    · cases h
      exact absurd hflag (by simp)
    · split at h
      · exact Option.noConfusion h
      · rename_i st hloop
        cases h
        refine routerBubbleFill_stamps cc r.output_connection_index
          st.conns ?_
        intro j hj
        rw [(routerArbLoop_connsMono route _ cc _ _ st hloop).1]
        exact hb j hj
  · rw [if_neg hi] at h
    dsimp only at h
    split at h
    · cases h
      exact absurd hflag (by simp)
    · split at h
      · exact Option.noConfusion h
      · rename_i st hloop
        cases h
        refine routerBubbleFill_stamps cc r.output_connection_index
          st.conns ?_
        intro j hj
        rw [(routerArbLoop_connsMono route _ cc _ _ st hloop).1]
        exact hb j hj

/-- Helper: a failed (but non-aborting) router forward propagation keeps the
forward marker. -/
theorem routerFwdFail_flag
    (route : PortIndexAndVCIndex → Nat → Option PortIndexAndVCIndex)
    (cc : Int) (conns : List SimConnectionState)
    (r : SimInputBufferedVCRouter)
    (p : List SimConnectionState × SimInputBufferedVCRouter × Bool)
    (h : routerTryForwardPropagation route cc conns r = some p)
    (hflag : p.2.2 = false) :
    p.2.1.forward_propagated_cycle = r.forward_propagated_cycle := by
  unfold routerTryForwardPropagation at h
  by_cases hi : r.internal_propagated_cycle ≠ cc
  · rw [if_pos hi] at h
    dsimp only at h
    split at h
    · cases h; rfl
    · split at h
      · exact Option.noConfusion h
      · cases h
        exact absurd hflag (by simp)
  · rw [if_neg hi] at h
    dsimp only at h
    split at h
    · cases h; rfl
    · split at h
      · exact Option.noConfusion h
      · cases h
        exact absurd hflag (by simp)

/-- Helper: the router's forward propagation keeps both connection index
lists. -/
theorem routerFwd_pres_idx
    (route : PortIndexAndVCIndex → Nat → Option PortIndexAndVCIndex)
    (cc : Int) (conns : List SimConnectionState)
    (r : SimInputBufferedVCRouter)
    (p : List SimConnectionState × SimInputBufferedVCRouter × Bool)
    (h : routerTryForwardPropagation route cc conns r = some p) :
    p.2.1.input_connection_index = r.input_connection_index ∧
    p.2.1.output_connection_index = r.output_connection_index := by
  unfold routerTryForwardPropagation at h
  by_cases hi : r.internal_propagated_cycle ≠ cc
  · rw [if_pos hi] at h
    dsimp only at h
    split at h
    · cases h; exact ⟨rfl, rfl⟩
    · split at h
      · exact Option.noConfusion h
      · cases h; exact ⟨rfl, rfl⟩
  · rw [if_neg hi] at h
    dsimp only at h
    split at h
    · cases h; exact ⟨rfl, rfl⟩
    · split at h
      · exact Option.noConfusion h
      · cases h; exact ⟨rfl, rfl⟩

/-- Helper: the router's reverse propagation keeps the reverse marker. -/
theorem routerRev_pres_rev (cc : Int) (conns : List SimConnectionState)
    (r : SimInputBufferedVCRouter) :
    (routerTryReversePropagation cc conns r).2.1.reverse_propagated_cycle =
      r.reverse_propagated_cycle := by
  unfold routerTryReversePropagation
  dsimp only
  split <;> rfl

/-- Helper: the router's reverse propagation keeps both connection index
lists. -/
theorem routerRev_pres_idx (cc : Int) (conns : List SimConnectionState)
    (r : SimInputBufferedVCRouter) :
    (routerTryReversePropagation cc conns r).2.1.input_connection_index =
      r.input_connection_index ∧
    (routerTryReversePropagation cc conns r).2.1.output_connection_index =
      r.output_connection_index := by
  unfold routerTryReversePropagation
  dsimp only
  split <;> exact ⟨rfl, rfl⟩

/-- Helper: a member of a `Nat` list is read back by `getD` at some
position. -/
theorem mem_getD_of_mem {l : List Nat} {j : Nat} (hj : j ∈ l) :
    ∃ i < l.length, l.getD i 0 = j := by
  obtain ⟨i, hi, he⟩ := List.mem_iff_getElem.mp hj
  refine ⟨i, hi, ?_⟩
  rw [List.getD_eq_getElem?_getD, List.getElem?_eq_getElem hi]
  exact he

/-- Helper: one credit-return write stamps every VC of its target input
connection. -/
theorem routerRevSendStep_stamps (cc : Int) (r : SimInputBufferedVCRouter)
    (cs : List SimConnectionState) (i : Nat)
    (hb : r.input_connection_index.getD i 0 < cs.length) :
    ∀ vc < (getConn (routerRevSendStep cc r cs i)
        (r.input_connection_index.getD i 0)).reverse_channels.length,
      StampedR cc (routerRevSendStep cc r cs i)
        (r.input_connection_index.getD i 0) vc := by
  intro vc hvc
  unfold routerRevSendStep at hvc ⊢
  unfold StampedR
  dsimp only at hvc ⊢
  rw [getConn_set_self _ _ hb] at hvc ⊢
  dsimp only at hvc ⊢
  rw [List.length_map, List.length_range] at hvc
  rw [getD_range_map _ _ _ _ hvc]

/-- Helper: the credit-return fold is monotone from any start state. -/
theorem revSendFoldGen_connsMono (cc : Int) (r : SimInputBufferedVCRouter) :
    ∀ (is : List Nat) (cs : List SimConnectionState),
      ConnsMono cc cs (is.foldl (routerRevSendStep cc r) cs) := by
  intro is
  induction is with
  | nil => intro cs; exact connsMono_refl cc cs
  | cons a as ih =>
      intro cs
      rw [List.foldl_cons]
      exact connsMono_trans (routerRevSendStep_connsMono cc r cs a) (ih _)

/-- Helper: the credit-return fold stamps every VC of every listed input
connection. -/
theorem revSendFold_stamps (cc : Int) (r : SimInputBufferedVCRouter) :
    ∀ (is : List Nat) (cs : List SimConnectionState),
      (∀ i ∈ is, r.input_connection_index.getD i 0 < cs.length) →
      ∀ i ∈ is,
        ∀ vc < (getConn (is.foldl (routerRevSendStep cc r) cs)
            (r.input_connection_index.getD i 0)).reverse_channels.length,
          StampedR cc (is.foldl (routerRevSendStep cc r) cs)
            (r.input_connection_index.getD i 0) vc := by
  intro is
  induction is with
  | nil => intro cs _ i hi; exact absurd hi (List.not_mem_nil i)
  | cons a as ih =>
      intro cs hb i hi
      rw [List.foldl_cons]
      cases List.mem_cons.mp hi with
      | inl hie =>
          rw [hie]
          intro vc hvc
          have hm := revSendFoldGen_connsMono cc r as
            (routerRevSendStep cc r cs a)
          rw [connsMono_revlen hm] at hvc
          exact stampedR_mono hm
            (routerRevSendStep_stamps cc r cs a
              (hb a (List.mem_cons_self a as)) vc hvc)
      | inr him =>
          refine ih (routerRevSendStep cc r cs a) ?_ i him
          intro k hk
          rw [(routerRevSendStep_connsMono cc r cs a).1]
          exact hb k (List.mem_cons_of_mem _ hk)

/-- Helper: the router's credit-return loop stamps every VC of every input
connection. -/
theorem routerRevSendCredits_stamps (cc : Int)
    (r : SimInputBufferedVCRouter) (conns : List SimConnectionState)
    (hb : ∀ j ∈ r.input_connection_index, j < conns.length) :
    ∀ j ∈ r.input_connection_index,
      ∀ vc < (getConn (routerRevSendCredits cc r conns)
          j).reverse_channels.length,
        StampedR cc (routerRevSendCredits cc r conns) j vc := by
  intro j hj
  obtain ⟨i, hi, hgd⟩ := mem_getD_of_mem hj
  rw [← hgd]
  unfold routerRevSendCredits
  refine revSendFold_stamps cc r (List.range r.input_connection_index.length)
    conns ?_ i (List.mem_range.mpr hi)
  intro k hk
  exact hb _ (getD_mem _ _ _ (List.mem_range.mp hk))

/-- Helper: a successful router reverse propagation stamps every VC of every
input connection. -/
theorem routerRev_stamps (cc : Int) (conns : List SimConnectionState)
    (r : SimInputBufferedVCRouter)
    (h : (routerTryReversePropagation cc conns r).2.2 = true)
    (hb : ∀ j ∈ r.input_connection_index, j < conns.length) :
    ∀ j ∈ r.input_connection_index,
      ∀ vc < (getConn (routerTryReversePropagation cc conns r).1
          j).reverse_channels.length,
        StampedR cc (routerTryReversePropagation cc conns r).1 j vc := by
  unfold routerTryReversePropagation at h ⊢
  by_cases hf : r.forward_propagated_cycle ≠ cc
  · rw [if_pos hf] at h
    exact absurd h (by simp)
  · rw [if_neg hf]
    dsimp only
    exact routerRevSendCredits_stamps cc r conns hb

/-- Helper: a successful sink forward propagation stamps every VC of the
upstream connection. -/
theorem sinkFwd_stamps (cc : Int) (conns : List SimConnectionState)
    (k : SimNetworkInterfaceSink)
    (hb : k.src_connection_index < conns.length)
    (h : (sinkTryForwardPropagation cc conns k).2.2 = true) :
    ∀ vc < (getConn (sinkTryForwardPropagation cc conns k).1
        k.src_connection_index).reverse_channels.length,
      StampedR cc (sinkTryForwardPropagation cc conns k).1
        k.src_connection_index vc := by
  intro vc hvc
  unfold sinkTryForwardPropagation at h hvc ⊢
  dsimp only at h hvc ⊢
  by_cases hg :
      (getConn conns k.src_connection_index).forward_channels.cycle ≠ cc
  · rw [if_pos hg] at h
    exact absurd h (by simp)
  · rw [if_neg hg] at hvc ⊢
    dsimp only at hvc ⊢
    unfold StampedR
    rw [getConn_set_self _ _ hb] at hvc ⊢
    dsimp only at hvc ⊢
    by_cases h0 : cc = 0
    · rw [if_pos h0] at hvc ⊢
      rw [List.length_map, List.length_range] at hvc
      rw [getD_range_map _ _ _ _ hvc]
    · rw [if_neg h0] at hvc ⊢
      rw [List.length_map] at hvc
      rw [getD_map' _ _ _ hvc]
      split <;> split
      all_goals
        first
          | rfl
          | (rename_i hkeep
             rw [not_ne_iff] at hkeep
             exact hkeep)

/-- Helper: the sink's forward propagation keeps the connection index. -/
theorem sinkFwd_pres_idx (cc : Int) (conns : List SimConnectionState)
    (k : SimNetworkInterfaceSink) :
    (sinkTryForwardPropagation cc conns k).2.1.src_connection_index =
      k.src_connection_index := by
  unfold sinkTryForwardPropagation
  dsimp only
  split <;> rfl

/-! ## Tick-level clause lemmas: one component tick establishes or keeps its
stamp clause -/

/-- Helper: a source tick yields a source whose stamp clause holds on the
post-tick connection table, with the connection index unchanged. -/
theorem srcTick_clause (cc : Int) (conns : List SimConnectionState)
    (x : SimNetworkInterfaceSrc)
    (hb : x.sink_connection_index < conns.length)
    (hP : SrcP cc conns x) :
    SrcP cc (srcTick cc conns x).1 (srcTick cc conns x).2.1 ∧
    (srcTick cc conns x).2.1.sink_connection_index =
      x.sink_connection_index := by
  unfold srcTick
  dsimp only
  by_cases h1 : x.forward_propagated_cycle ≠ cc
  · rw [if_pos h1,
      if_pos (show (srcTryForwardPropagation cc conns x).2.2 = true from rfl)]
    dsimp only
    have hstamp : StampedF cc (srcTryForwardPropagation cc conns x).1
        x.sink_connection_index := srcFwd_stamps cc conns x hb
    split
    · split
      · exact ⟨fun _ => by rw [srcRev_pres_idx]; exact hstamp,
          srcRev_pres_idx cc _ _⟩
      · exact ⟨fun _ => by rw [srcRev_pres_idx]; exact hstamp,
          srcRev_pres_idx cc _ _⟩
    · exact ⟨fun _ => hstamp, rfl⟩
  · rw [if_neg h1]
    dsimp only
    have hstamp : StampedF cc conns x.sink_connection_index :=
      hP (not_ne_iff.mp h1)
    split
    · split
      · exact ⟨fun _ => by rw [srcRev_pres_idx]; exact hstamp,
          srcRev_pres_idx cc _ _⟩
      · exact ⟨fun _ => by rw [srcRev_pres_idx]; exact hstamp,
          srcRev_pres_idx cc _ _⟩
    · exact ⟨fun _ => hstamp, rfl⟩

/-- Helper: a sink tick yields a sink whose stamp clause holds on the
post-tick connection table, with the connection index unchanged. -/
theorem sinkTick_clause (cc : Int) (conns : List SimConnectionState)
    (k : SimNetworkInterfaceSink)
    (hb : k.src_connection_index < conns.length)
    (hP : SinkP cc conns k) :
    SinkP cc (sinkTick cc conns k).1 (sinkTick cc conns k).2.1 ∧
    (sinkTick cc conns k).2.1.src_connection_index =
      k.src_connection_index := by
  unfold sinkTick
  dsimp only
  by_cases h1 : k.forward_propagated_cycle ≠ cc
  · rw [if_pos h1]
    by_cases hf : (sinkTryForwardPropagation cc conns k).2.2 = true
    · rw [if_pos hf]
      dsimp only
      have hstamp := sinkFwd_stamps cc conns k hb hf
      split
      · split
        all_goals
          exact ⟨fun _ vc hvc => by
              rw [sinkFwd_pres_idx] at hvc ⊢
              exact hstamp vc hvc,
            sinkFwd_pres_idx cc conns k⟩
      · exact ⟨fun _ vc hvc => by
            rw [sinkFwd_pres_idx] at hvc ⊢
            exact hstamp vc hvc,
          sinkFwd_pres_idx cc conns k⟩
    · rw [if_neg hf]
      dsimp only
      split
      · split
        all_goals
          exact ⟨fun hflag => absurd
              (((sinkFwd_pres_flags cc conns k).1).symm.trans hflag) h1,
            sinkFwd_pres_idx cc conns k⟩
      · exact ⟨fun hflag => absurd
            (((sinkFwd_pres_flags cc conns k).1).symm.trans hflag) h1,
          sinkFwd_pres_idx cc conns k⟩
  · rw [if_neg h1]
    dsimp only
    split
    · split
      all_goals exact ⟨fun _ vc hvc => hP (not_ne_iff.mp h1) vc hvc, rfl⟩
    · exact ⟨fun _ vc hvc => hP (not_ne_iff.mp h1) vc hvc, rfl⟩

/-- Helper: a successful link reverse propagation, packaged with the
component's index equations (stated at explicit indices to ease reuse). -/
theorem linkRev_success_pack (cc : Int) (t : List SimConnectionState)
    (l : SimLink) (js jk : Nat)
    (hjs : l.src_connection_index = js)
    (hjk : l.sink_connection_index = jk)
    (hb : js < t.length)
    (hcompat : (getConn t jk).reverse_channels.length =
      (getConn t js).reverse_channels.length)
    (h : (linkTryReversePropagation cc t l).2.2 = true) :
    (linkTryReversePropagation cc t l).2.1.src_connection_index = js ∧
    (linkTryReversePropagation cc t l).2.1.sink_connection_index = jk ∧
    ∀ vc < (getConn t js).reverse_channels.length,
      StampedR cc (linkTryReversePropagation cc t l).1 js vc := by
  subst hjs
  subst hjk
  exact ⟨(linkRev_pres_idx cc t l).1, (linkRev_pres_idx cc t l).2,
    linkRev_stamps cc t l hb hcompat h⟩

/-- Helper: a link tick yields a link whose two stamp clauses hold on the
post-tick connection table, with both connection indices unchanged. -/
theorem linkTick_clause (cc : Int) (conns : List SimConnectionState)
    (x : SimLink)
    (hbs : x.src_connection_index < conns.length)
    (hbk : x.sink_connection_index < conns.length)
    (hcompat :
      (getConn conns x.sink_connection_index).reverse_channels.length =
        (getConn conns x.src_connection_index).reverse_channels.length)
    (hPF : LinkPF cc conns x) (hPR : LinkPR cc conns x) :
    LinkPF cc (linkTick cc conns x).1 (linkTick cc conns x).2.1 ∧
    LinkPR cc (linkTick cc conns x).1 (linkTick cc conns x).2.1 ∧
    (linkTick cc conns x).2.1.src_connection_index =
      x.src_connection_index ∧
    (linkTick cc conns x).2.1.sink_connection_index =
      x.sink_connection_index := by
  have hmf := linkFwd_connsMono cc conns x
  have hpfs := (linkFwd_pres_idx cc conns x).1
  have hpfk := (linkFwd_pres_idx cc conns x).2
  have hprev := linkFwd_pres_rev cc conns x
  unfold linkTick
  dsimp only
  by_cases h1 : x.forward_propagated_cycle ≠ cc
  · rw [if_pos h1]
    by_cases hf : (linkTryForwardPropagation cc conns x).2.2 = true
    · rw [if_pos hf]
      dsimp only
      have hstampF : StampedF cc (linkTryForwardPropagation cc conns x).1
          x.sink_connection_index := linkFwd_stamps cc conns x hbk hf
      by_cases h2 : (linkTryForwardPropagation cc
          conns x).2.1.reverse_propagated_cycle ≠ cc
      · rw [if_pos h2]
        try dsimp only
        by_cases hr : (linkTryReversePropagation cc
            (linkTryForwardPropagation cc conns x).1
            { (linkTryForwardPropagation cc conns x).2.1 with
              forward_propagated_cycle := cc }).2.2 = true
        · rw [if_pos hr]
          dsimp only
          obtain ⟨e1, e2, hstR⟩ := linkRev_success_pack cc
            (linkTryForwardPropagation cc conns x).1
            { (linkTryForwardPropagation cc conns x).2.1 with
              forward_propagated_cycle := cc }
            x.src_connection_index x.sink_connection_index hpfs hpfk
            (by rw [hmf.1]; exact hbs)
            (by rw [connsMono_revlen hmf, connsMono_revlen hmf]
                exact hcompat)
            hr
          have hmr := linkRev_connsMono cc
            (linkTryForwardPropagation cc conns x).1
            { (linkTryForwardPropagation cc conns x).2.1 with
              forward_propagated_cycle := cc }
          refine ⟨?_, ?_, e1, e2⟩
          · intro _
            rw [e2]
            exact stampedF_mono hmr hstampF
          · intro _ vc hvc
            rw [e1] at hvc ⊢
            rw [connsMono_revlen hmr] at hvc
            exact hstR vc hvc
        · rw [if_neg hr]
          dsimp only
          rw [Bool.not_eq_true] at hr
          have hmr := linkRev_connsMono cc
            (linkTryForwardPropagation cc conns x).1
            { (linkTryForwardPropagation cc conns x).2.1 with
              forward_propagated_cycle := cc }
          have e1 := ((linkRev_pres_idx cc
            (linkTryForwardPropagation cc conns x).1
            { (linkTryForwardPropagation cc conns x).2.1 with
              forward_propagated_cycle := cc }).1).trans hpfs
          have e2 := ((linkRev_pres_idx cc
            (linkTryForwardPropagation cc conns x).1
            { (linkTryForwardPropagation cc conns x).2.1 with
              forward_propagated_cycle := cc }).2).trans hpfk
          refine ⟨?_, ?_, e1, e2⟩
          · intro _
            rw [e2]
            exact stampedF_mono hmr hstampF
          · intro hflag
            exact absurd ((linkRevFail_flag cc
              (linkTryForwardPropagation cc conns x).1
              { (linkTryForwardPropagation cc conns x).2.1 with
                forward_propagated_cycle := cc } hr).symm.trans hflag) h2
      · rw [if_neg h2]
        refine ⟨?_, ?_, hpfs, hpfk⟩
        · intro _
          rw [hpfk]
          exact hstampF
        · intro _ vc hvc
          rw [hpfs] at hvc ⊢
          rw [connsMono_revlen hmf] at hvc
          exact stampedR_mono hmf
            (hPR (hprev.symm.trans (not_ne_iff.mp h2)) vc hvc)
    · rw [if_neg hf]
      dsimp only
      rw [Bool.not_eq_true] at hf
      have hflagF := linkFwdFail_flag cc conns x hf
      by_cases h2 : (linkTryForwardPropagation cc
          conns x).2.1.reverse_propagated_cycle ≠ cc
      · rw [if_pos h2]
        try dsimp only
        by_cases hr : (linkTryReversePropagation cc
            (linkTryForwardPropagation cc conns x).1
            (linkTryForwardPropagation cc conns x).2.1).2.2 = true
        · rw [if_pos hr]
          dsimp only
          obtain ⟨e1, e2, hstR⟩ := linkRev_success_pack cc
            (linkTryForwardPropagation cc conns x).1
            (linkTryForwardPropagation cc conns x).2.1
            x.src_connection_index x.sink_connection_index hpfs hpfk
            (by rw [hmf.1]; exact hbs)
            (by rw [connsMono_revlen hmf, connsMono_revlen hmf]
                exact hcompat)
            hr
          have hmr := linkRev_connsMono cc
            (linkTryForwardPropagation cc conns x).1
            (linkTryForwardPropagation cc conns x).2.1
          refine ⟨?_, ?_, e1, e2⟩
          · intro hflag
            exact absurd (hflagF.symm.trans
              ((linkRev_pres_fwd cc
                (linkTryForwardPropagation cc conns x).1
                (linkTryForwardPropagation cc conns x).2.1).symm.trans
                hflag)) h1
          · intro _ vc hvc
            rw [e1] at hvc ⊢
            rw [connsMono_revlen hmr] at hvc
            exact hstR vc hvc
        · rw [if_neg hr]
          dsimp only
          rw [Bool.not_eq_true] at hr
          have e1 := ((linkRev_pres_idx cc
            (linkTryForwardPropagation cc conns x).1
            (linkTryForwardPropagation cc conns x).2.1).1).trans hpfs
          have e2 := ((linkRev_pres_idx cc
            (linkTryForwardPropagation cc conns x).1
            (linkTryForwardPropagation cc conns x).2.1).2).trans hpfk
          refine ⟨?_, ?_, e1, e2⟩
          · intro hflag
            exact absurd (hflagF.symm.trans
              ((linkRev_pres_fwd cc
                (linkTryForwardPropagation cc conns x).1
                (linkTryForwardPropagation cc conns x).2.1).symm.trans
                hflag)) h1
          · intro hflag
            exact absurd ((linkRevFail_flag cc
              (linkTryForwardPropagation cc conns x).1
              (linkTryForwardPropagation cc conns x).2.1 hr).symm.trans
              hflag) h2
      · rw [if_neg h2]
        refine ⟨?_, ?_, hpfs, hpfk⟩
        · intro hflag
          exact absurd (hflagF.symm.trans hflag) h1
        · intro _ vc hvc
          rw [hpfs] at hvc ⊢
          rw [connsMono_revlen hmf] at hvc
          exact stampedR_mono hmf
            (hPR (hprev.symm.trans (not_ne_iff.mp h2)) vc hvc)
  · rw [if_neg h1]
    dsimp only
    have hstampF0 : StampedF cc conns x.sink_connection_index :=
      hPF (not_ne_iff.mp h1)
    by_cases h2 : x.reverse_propagated_cycle ≠ cc
    · rw [if_pos h2]
      try dsimp only
      by_cases hr : (linkTryReversePropagation cc conns x).2.2 = true
      · rw [if_pos hr]
        dsimp only
        obtain ⟨e1, e2, hstR⟩ := linkRev_success_pack cc conns x
          x.src_connection_index x.sink_connection_index rfl rfl
          hbs hcompat hr
        have hmr := linkRev_connsMono cc conns x
        refine ⟨?_, ?_, e1, e2⟩
        · intro _
          rw [e2]
          exact stampedF_mono hmr hstampF0
        · intro _ vc hvc
          rw [e1] at hvc ⊢
          rw [connsMono_revlen hmr] at hvc
          exact hstR vc hvc
      · rw [if_neg hr]
        dsimp only
        rw [Bool.not_eq_true] at hr
        refine ⟨?_, ?_, (linkRev_pres_idx cc conns x).1,
          (linkRev_pres_idx cc conns x).2⟩
        · intro _
          rw [(linkRev_pres_idx cc conns x).2]
          exact stampedF_mono (linkRev_connsMono cc conns x) hstampF0
        · intro hflag
          exact absurd
            ((linkRevFail_flag cc conns x hr).symm.trans hflag) h2
    · rw [if_neg h2]
      exact ⟨hPF, hPR, rfl, rfl⟩

/-- Helper: a router tick (when it does not abort) yields a router whose two
stamp clauses hold on the post-tick connection table, with both connection
index lists unchanged. -/
theorem routerTick_clause
    (route : PortIndexAndVCIndex → Nat → Option PortIndexAndVCIndex)
    (cc : Int) (conns : List SimConnectionState)
    (r : SimInputBufferedVCRouter)
    (q : List SimConnectionState × SimInputBufferedVCRouter × Bool)
    (h : routerTick route cc conns r = some q)
    (hbi : ∀ j ∈ r.input_connection_index, j < conns.length)
    (hbo : ∀ j ∈ r.output_connection_index, j < conns.length)
    (hPF : RouterPF cc conns r) (hPR : RouterPR cc conns r) :
    RouterPF cc q.1 q.2.1 ∧ RouterPR cc q.1 q.2.1 ∧
    q.2.1.input_connection_index = r.input_connection_index ∧
    q.2.1.output_connection_index = r.output_connection_index := by
  unfold routerTick at h
  dsimp only at h
  by_cases h1 : r.forward_propagated_cycle ≠ cc
  · rw [if_pos h1] at h
    cases hfp : routerTryForwardPropagation route cc conns r with
    | none => rw [hfp] at h; exact Option.noConfusion h
    | some p =>
        rw [hfp] at h
        dsimp only at h
        have hidx := routerFwd_pres_idx route cc conns r p hfp
        have hmono := routerFwd_connsMono route cc conns r p hfp
        have hrevp := routerFwd_pres_rev route cc conns r p hfp
        have hbA : ∀ j ∈ p.2.1.input_connection_index, j < p.1.length := by
          intro j2 hj2
          rw [hidx.1] at hj2
          rw [hmono.1]
          exact hbi j2 hj2
        by_cases hb : p.2.2 = true
        · rw [if_pos hb] at h
          dsimp only at h
          have hPFp : ∀ j ∈ r.output_connection_index, StampedF cc p.1 j :=
            routerFwd_stamps route cc conns r p hfp hb hbo
          by_cases h2 : (p.2.1.reverse_propagated_cycle ≠ cc)
          · rw [if_pos h2] at h
            try dsimp only at h
            split at h
            · rename_i hcond
              injection h with h
              subst h
              refine ⟨?_, ?_, ((routerRev_pres_idx cc p.1
                  { p.2.1 with forward_propagated_cycle := cc }).1).trans
                  hidx.1,
                ((routerRev_pres_idx cc p.1
                  { p.2.1 with forward_propagated_cycle := cc }).2).trans
                  hidx.2⟩
              · intro _ j hj
                rw [((routerRev_pres_idx cc p.1
                  { p.2.1 with forward_propagated_cycle := cc }).2).trans
                  hidx.2] at hj
                exact stampedF_mono (routerRev_connsMono cc p.1
                  { p.2.1 with forward_propagated_cycle := cc })
                  (hPFp j hj)
              · intro _ j hj vc hvc
                rw [(routerRev_pres_idx cc p.1
                  { p.2.1 with forward_propagated_cycle := cc }).1] at hj
                exact routerRev_stamps cc p.1
                  { p.2.1 with forward_propagated_cycle := cc } hcond hbA
                  j hj vc hvc
            · injection h with h
              subst h
              refine ⟨?_, ?_, ((routerRev_pres_idx cc p.1
                  { p.2.1 with forward_propagated_cycle := cc }).1).trans
                  hidx.1,
                ((routerRev_pres_idx cc p.1
                  { p.2.1 with forward_propagated_cycle := cc }).2).trans
                  hidx.2⟩
              · intro _ j hj
                rw [((routerRev_pres_idx cc p.1
                  { p.2.1 with forward_propagated_cycle := cc }).2).trans
                  hidx.2] at hj
                exact stampedF_mono (routerRev_connsMono cc p.1
                  { p.2.1 with forward_propagated_cycle := cc })
                  (hPFp j hj)
              · intro hflag
                exact absurd ((routerRev_pres_rev cc p.1
                  { p.2.1 with forward_propagated_cycle := cc }).symm.trans
                  hflag) h2
          · rw [if_neg h2] at h
            injection h with h
            subst h
            refine ⟨?_, ?_, hidx.1, hidx.2⟩
            · intro _ j hj
              rw [hidx.2] at hj
              exact hPFp j hj
            · intro _ j hj vc hvc
              rw [hidx.1] at hj
              rw [connsMono_revlen hmono] at hvc
              exact stampedR_mono hmono
                (hPR (hrevp.symm.trans (not_ne_iff.mp h2)) j hj vc hvc)
        · rw [if_neg hb] at h
          dsimp only at h
          rw [Bool.not_eq_true] at hb
          have hflagF := routerFwdFail_flag route cc conns r p hfp hb
          by_cases h2 : (p.2.1.reverse_propagated_cycle ≠ cc)
          · rw [if_pos h2] at h
            try dsimp only at h
            split at h
            · rename_i hcond
              injection h with h
              subst h
              refine ⟨?_, ?_,
                ((routerRev_pres_idx cc p.1 p.2.1).1).trans hidx.1,
                ((routerRev_pres_idx cc p.1 p.2.1).2).trans hidx.2⟩
              · intro hflag
                exact absurd (hflagF.symm.trans
                  ((routerRev_pres_fwd cc p.1 p.2.1).symm.trans hflag)) h1
              · intro _ j hj vc hvc
                rw [(routerRev_pres_idx cc p.1 p.2.1).1] at hj
                exact routerRev_stamps cc p.1 p.2.1 hcond hbA j hj vc hvc
            · injection h with h
              subst h
              refine ⟨?_, ?_,
                ((routerRev_pres_idx cc p.1 p.2.1).1).trans hidx.1,
                ((routerRev_pres_idx cc p.1 p.2.1).2).trans hidx.2⟩
              · intro hflag
                exact absurd (hflagF.symm.trans
                  ((routerRev_pres_fwd cc p.1 p.2.1).symm.trans hflag)) h1
              · intro hflag
                exact absurd
                  ((routerRev_pres_rev cc p.1 p.2.1).symm.trans hflag) h2
          · rw [if_neg h2] at h
            injection h with h
            subst h
            refine ⟨?_, ?_, hidx.1, hidx.2⟩
            · intro hflag
              exact absurd (hflagF.symm.trans hflag) h1
            · intro _ j hj vc hvc
              rw [hidx.1] at hj
              rw [connsMono_revlen hmono] at hvc
              exact stampedR_mono hmono
                (hPR (hrevp.symm.trans (not_ne_iff.mp h2)) j hj vc hvc)
  · rw [if_neg h1] at h
    dsimp only at h
    have hstamps0 : ∀ j ∈ r.output_connection_index, StampedF cc conns j :=
      hPF (not_ne_iff.mp h1)
    by_cases h2 : (r.reverse_propagated_cycle ≠ cc)
    · rw [if_pos h2] at h
      try dsimp only at h
      split at h
      · rename_i hcond
        injection h with h
        subst h
        refine ⟨?_, ?_, (routerRev_pres_idx cc conns r).1,
          (routerRev_pres_idx cc conns r).2⟩
        · intro _ j hj
          rw [(routerRev_pres_idx cc conns r).2] at hj
          exact stampedF_mono (routerRev_connsMono cc conns r)
            (hstamps0 j hj)
        · intro _ j hj vc hvc
          rw [(routerRev_pres_idx cc conns r).1] at hj
          exact routerRev_stamps cc conns r hcond hbi j hj vc hvc
      · injection h with h
        subst h
        refine ⟨?_, ?_, (routerRev_pres_idx cc conns r).1,
          (routerRev_pres_idx cc conns r).2⟩
        · intro _ j hj
          rw [(routerRev_pres_idx cc conns r).2] at hj
          exact stampedF_mono (routerRev_connsMono cc conns r)
            (hstamps0 j hj)
        · intro hflag
          exact absurd
            ((routerRev_pres_rev cc conns r).symm.trans hflag) h2
    · rw [if_neg h2] at h
      injection h with h
      subst h
      exact ⟨hPF, hPR, rfl, rfl⟩

/-! ## Pass-level lemmas: each component pass keeps the stamp invariant -/

/-- Helper: one unfolding of the source pass. -/
theorem tickSrcList_cons_eq (cc : Int) (x0 : SimNetworkInterfaceSrc)
    (rest : List SimNetworkInterfaceSrc)
    (conns : List SimConnectionState) :
    tickSrcList cc (x0 :: rest) conns =
      ((tickSrcList cc rest (srcTick cc conns x0).1).1,
       (srcTick cc conns x0).2.1 ::
         (tickSrcList cc rest (srcTick cc conns x0).1).2.1,
       (srcTick cc conns x0).2.2 &&
         (tickSrcList cc rest (srcTick cc conns x0).1).2.2) := rfl

/-- Helper: the source pass is monotone, keeps every source's clause, and
keeps the list of driven connection indices. -/
theorem tickSrcList_inv (cc : Int) :
    ∀ (xs : List SimNetworkInterfaceSrc) (conns : List SimConnectionState),
      (∀ x ∈ xs, x.sink_connection_index < conns.length) →
      (∀ x ∈ xs, SrcP cc conns x) →
      ConnsMono cc conns (tickSrcList cc xs conns).1 ∧
      (∀ x ∈ (tickSrcList cc xs conns).2.1,
        SrcP cc (tickSrcList cc xs conns).1 x) ∧
      (tickSrcList cc xs conns).2.1.map
          (fun x => x.sink_connection_index) =
        xs.map (fun x => x.sink_connection_index) := by
  intro xs
  induction xs with
  | nil =>
      intro conns _ _
      exact ⟨connsMono_refl cc conns,
        fun x hx => absurd hx (List.not_mem_nil x), rfl⟩
  | cons x0 rest ih =>
      intro conns hb hP
      rw [tickSrcList_cons_eq]
      dsimp only
      have hmono0 := srcTick_connsMono cc conns x0
      have hcl0 := srcTick_clause cc conns x0
        (hb x0 (List.mem_cons_self x0 rest))
        (hP x0 (List.mem_cons_self x0 rest))
      obtain ⟨hmonoR, hclR, hmapR⟩ := ih (srcTick cc conns x0).1
        (fun x hx => by
          rw [hmono0.1]
          exact hb x (List.mem_cons_of_mem x0 hx))
        (fun x hx => srcP_mono hmono0 (hP x (List.mem_cons_of_mem x0 hx)))
      refine ⟨connsMono_trans hmono0 hmonoR, ?_, ?_⟩
      · intro x hx
        cases List.mem_cons.mp hx with
        | inl he =>
            rw [he]
            exact srcP_mono hmonoR hcl0.1
        | inr hm => exact hclR x hm
      · simp only [List.map_cons]
        rw [hmapR, hcl0.2]

/-- Helper: one unfolding of the link pass. -/
theorem tickLinkList_cons_eq (cc : Int) (x0 : SimLink)
    (rest : List SimLink) (conns : List SimConnectionState) :
    tickLinkList cc (x0 :: rest) conns =
      ((tickLinkList cc rest (linkTick cc conns x0).1).1,
       (linkTick cc conns x0).2.1 ::
         (tickLinkList cc rest (linkTick cc conns x0).1).2.1,
       (linkTick cc conns x0).2.2 &&
         (tickLinkList cc rest (linkTick cc conns x0).1).2.2) := rfl

/-- Helper: the link pass is monotone, keeps every link's clauses, and keeps
the list of driven connection-index pairs. -/
theorem tickLinkList_inv (cc : Int) :
    ∀ (xs : List SimLink) (conns : List SimConnectionState),
      (∀ x ∈ xs,
        x.src_connection_index < conns.length ∧
        x.sink_connection_index < conns.length ∧
        (getConn conns x.sink_connection_index).reverse_channels.length =
          (getConn conns x.src_connection_index).reverse_channels.length) →
      (∀ x ∈ xs, LinkPF cc conns x) →
      (∀ x ∈ xs, LinkPR cc conns x) →
      ConnsMono cc conns (tickLinkList cc xs conns).1 ∧
      (∀ x ∈ (tickLinkList cc xs conns).2.1,
        LinkPF cc (tickLinkList cc xs conns).1 x) ∧
      (∀ x ∈ (tickLinkList cc xs conns).2.1,
        LinkPR cc (tickLinkList cc xs conns).1 x) ∧
      (tickLinkList cc xs conns).2.1.map
          (fun x => (x.src_connection_index, x.sink_connection_index)) =
        xs.map (fun x => (x.src_connection_index, x.sink_connection_index)) := by
  intro xs
  induction xs with
  | nil =>
      intro conns _ _ _
      exact ⟨connsMono_refl cc conns,
        fun x hx => absurd hx (List.not_mem_nil x),
        fun x hx => absurd hx (List.not_mem_nil x), rfl⟩
  | cons x0 rest ih =>
      intro conns hb hPF hPR
      rw [tickLinkList_cons_eq]
      dsimp only
      have hmono0 := linkTick_connsMono cc conns x0
      have hb0 := hb x0 (List.mem_cons_self x0 rest)
      have hcl0 := linkTick_clause cc conns x0 hb0.1 hb0.2.1 hb0.2.2
        (hPF x0 (List.mem_cons_self x0 rest))
        (hPR x0 (List.mem_cons_self x0 rest))
      obtain ⟨hmonoR, hclFR, hclRR, hmapR⟩ := ih (linkTick cc conns x0).1
        (fun x hx => by
          refine ⟨?_, ?_, ?_⟩
          · rw [hmono0.1]
            exact (hb x (List.mem_cons_of_mem x0 hx)).1
          · rw [hmono0.1]
            exact (hb x (List.mem_cons_of_mem x0 hx)).2.1
          · rw [connsMono_revlen hmono0, connsMono_revlen hmono0]
            exact (hb x (List.mem_cons_of_mem x0 hx)).2.2)
        (fun x hx => linkPF_mono hmono0 (hPF x (List.mem_cons_of_mem x0 hx)))
        (fun x hx => linkPR_mono hmono0 (hPR x (List.mem_cons_of_mem x0 hx)))
      refine ⟨connsMono_trans hmono0 hmonoR, ?_, ?_, ?_⟩
      · intro x hx
        cases List.mem_cons.mp hx with
        | inl he =>
            rw [he]
            exact linkPF_mono hmonoR hcl0.1
        | inr hm => exact hclFR x hm
      · intro x hx
        cases List.mem_cons.mp hx with
        | inl he =>
            rw [he]
            exact linkPR_mono hmonoR hcl0.2.1
        | inr hm => exact hclRR x hm
      · simp only [List.map_cons]
        rw [hmapR, hcl0.2.2.1, hcl0.2.2.2]

/-- Helper: the router pass is monotone, keeps every router's clauses, and
keeps the list of driven connection-index list pairs. -/
theorem tickRouterList_inv
    (routing : Nat → PortIndexAndVCIndex → Nat → Option PortIndexAndVCIndex)
    (cc : Int) :
    ∀ (xs : List SimInputBufferedVCRouter)
      (conns : List SimConnectionState)
      (c : List SimConnectionState × List SimInputBufferedVCRouter × Bool),
      tickRouterList routing cc xs conns = some c →
      (∀ x ∈ xs,
        (∀ j ∈ x.input_connection_index, j < conns.length) ∧
        (∀ j ∈ x.output_connection_index, j < conns.length)) →
      (∀ x ∈ xs, RouterPF cc conns x) →
      (∀ x ∈ xs, RouterPR cc conns x) →
      ConnsMono cc conns c.1 ∧
      (∀ x ∈ c.2.1, RouterPF cc c.1 x) ∧
      (∀ x ∈ c.2.1, RouterPR cc c.1 x) ∧
      c.2.1.map
          (fun x => (x.input_connection_index, x.output_connection_index)) =
        xs.map
          (fun x => (x.input_connection_index, x.output_connection_index)) := by
  intro xs
  induction xs with
  | nil =>
      intro conns c h _ _ _
      unfold tickRouterList at h
      injection h with h
      subst h
      exact ⟨connsMono_refl cc conns,
        fun x hx => absurd hx (List.not_mem_nil x),
        fun x hx => absurd hx (List.not_mem_nil x), rfl⟩
  | cons x0 rest ih =>
      intro conns c h hb hPF hPR
      unfold tickRouterList at h
      cases ha : routerTick (routing x0.rid) cc conns x0 with
      | none => rw [ha] at h; exact Option.noConfusion h
      | some a =>
          rw [ha] at h
          dsimp only at h
          cases hbb : tickRouterList routing cc rest a.1 with
          | none => rw [hbb] at h; exact Option.noConfusion h
          | some bb =>
              rw [hbb] at h
              dsimp only at h
              injection h with h
              subst h
              have hmono0 := routerTick_connsMono (routing x0.rid) cc conns
                x0 a ha
              have hb0 := hb x0 (List.mem_cons_self x0 rest)
              have hcl0 := routerTick_clause (routing x0.rid) cc conns x0 a
                ha hb0.1 hb0.2
                (hPF x0 (List.mem_cons_self x0 rest))
                (hPR x0 (List.mem_cons_self x0 rest))
              obtain ⟨hmonoR, hclFR, hclRR, hmapR⟩ := ih a.1 bb hbb
                (fun x hx => by
                  refine ⟨fun j hj => ?_, fun j hj => ?_⟩
                  · rw [hmono0.1]
                    exact (hb x (List.mem_cons_of_mem x0 hx)).1 j hj
                  · rw [hmono0.1]
                    exact (hb x (List.mem_cons_of_mem x0 hx)).2 j hj)
                (fun x hx =>
                  routerPF_mono hmono0 (hPF x (List.mem_cons_of_mem x0 hx)))
                (fun x hx =>
                  routerPR_mono hmono0 (hPR x (List.mem_cons_of_mem x0 hx)))
              refine ⟨connsMono_trans hmono0 hmonoR, ?_, ?_, ?_⟩
              · intro x hx
                cases List.mem_cons.mp hx with
                | inl he =>
                    rw [he]
                    exact routerPF_mono hmonoR hcl0.1
                | inr hm => exact hclFR x hm
              · intro x hx
                cases List.mem_cons.mp hx with
                | inl he =>
                    rw [he]
                    exact routerPR_mono hmonoR hcl0.2.1
                | inr hm => exact hclRR x hm
              · simp only [List.map_cons]
                rw [hmapR, hcl0.2.2.1, hcl0.2.2.2]

/-- Helper: one unfolding of the sink pass. -/
theorem tickSinkList_cons_eq (cc : Int) (x0 : SimNetworkInterfaceSink)
    (rest : List SimNetworkInterfaceSink)
    (conns : List SimConnectionState) :
    tickSinkList cc (x0 :: rest) conns =
      ((tickSinkList cc rest (sinkTick cc conns x0).1).1,
       (sinkTick cc conns x0).2.1 ::
         (tickSinkList cc rest (sinkTick cc conns x0).1).2.1,
       (sinkTick cc conns x0).2.2 &&
         (tickSinkList cc rest (sinkTick cc conns x0).1).2.2) := rfl

/-- Helper: the sink pass is monotone, keeps every sink's clause, and keeps
the list of driven connection indices. -/
theorem tickSinkList_inv (cc : Int) :
    ∀ (xs : List SimNetworkInterfaceSink) (conns : List SimConnectionState),
      (∀ x ∈ xs, x.src_connection_index < conns.length) →
      (∀ x ∈ xs, SinkP cc conns x) →
      ConnsMono cc conns (tickSinkList cc xs conns).1 ∧
      (∀ x ∈ (tickSinkList cc xs conns).2.1,
        SinkP cc (tickSinkList cc xs conns).1 x) ∧
      (tickSinkList cc xs conns).2.1.map
          (fun x => x.src_connection_index) =
        xs.map (fun x => x.src_connection_index) := by
  intro xs
  induction xs with
  | nil =>
      intro conns _ _
      exact ⟨connsMono_refl cc conns,
        fun x hx => absurd hx (List.not_mem_nil x), rfl⟩
  | cons x0 rest ih =>
      intro conns hb hP
      rw [tickSinkList_cons_eq]
      dsimp only
      have hmono0 := sinkTick_connsMono cc conns x0
      have hcl0 := sinkTick_clause cc conns x0
        (hb x0 (List.mem_cons_self x0 rest))
        (hP x0 (List.mem_cons_self x0 rest))
      obtain ⟨hmonoR, hclR, hmapR⟩ := ih (sinkTick cc conns x0).1
        (fun x hx => by
          rw [hmono0.1]
          exact hb x (List.mem_cons_of_mem x0 hx))
        (fun x hx => sinkP_mono hmono0 (hP x (List.mem_cons_of_mem x0 hx)))
      refine ⟨connsMono_trans hmono0 hmonoR, ?_, ?_⟩
      · intro x hx
        cases List.mem_cons.mp hx with
        | inl he =>
            rw [he]
            exact sinkP_mono hmonoR hcl0.1
        | inr hm => exact hclR x hm
      · simp only [List.map_cons]
        rw [hmapR, hcl0.2]

/-- Helper: a tick that does not abort keeps the stamp invariant, keeps the
network shape, and is monotone on the connection table. -/
theorem tick_stampinv (s s' : NocSimulator) (b : Bool)
    (h : tick s = some (s', b)) (hB : IndexBounds s) (hI : StampInv s) :
    StampInv s' ∧ sameShape s s' ∧
    ConnsMono s.cycle s.connections s'.connections := by
  unfold tick at h
  dsimp only at h
  cases hR : tickRouterList s.routing s.cycle s.routers
      (tickLinkList s.cycle s.links
        (tickSrcList s.cycle s.network_interface_sources s.connections).1).1
    with
  | none => rw [hR] at h; exact Option.noConfusion h
  | some c =>
      rw [hR] at h
      dsimp only at h
      injection h with h
      injection h with h1 h2
      subst h1
      obtain ⟨hIB1, hIB2, hIB3, hIB4⟩ := hB
      obtain ⟨hI1, hI2, hI3, hI4, hI5, hI6⟩ := hI
      obtain ⟨mA, clA, mapA⟩ := tickSrcList_inv s.cycle
        s.network_interface_sources s.connections hIB1 hI1
      obtain ⟨mB, clBF, clBR, mapB⟩ := tickLinkList_inv s.cycle s.links
        (tickSrcList s.cycle s.network_interface_sources s.connections).1
        (fun x hx => ⟨by rw [mA.1]; exact (hIB2 x hx).1,
          by rw [mA.1]; exact (hIB2 x hx).2.1,
          by rw [connsMono_revlen mA, connsMono_revlen mA]
             exact (hIB2 x hx).2.2⟩)
        (fun x hx => linkPF_mono mA (hI2 x hx))
        (fun x hx => linkPR_mono mA (hI3 x hx))
      have mAB := connsMono_trans mA mB
      obtain ⟨mC, clCF, clCR, mapC⟩ := tickRouterList_inv s.routing s.cycle
        s.routers
        (tickLinkList s.cycle s.links
          (tickSrcList s.cycle s.network_interface_sources
            s.connections).1).1
        c hR
        (fun x hx => ⟨fun j hj => by rw [mAB.1]; exact (hIB3 x hx).1 j hj,
          fun j hj => by rw [mAB.1]; exact (hIB3 x hx).2 j hj⟩)
        (fun x hx => routerPF_mono mAB (hI4 x hx))
        (fun x hx => routerPR_mono mAB (hI5 x hx))
      have mABC := connsMono_trans mAB mC
      obtain ⟨mD, clD, mapD⟩ := tickSinkList_inv s.cycle
        s.network_interface_sinks c.1
        (fun x hx => by rw [mABC.1]; exact hIB4 x hx)
        (fun x hx => sinkP_mono mABC (hI6 x hx))
      have mAll := connsMono_trans mABC mD
      have mBCD := connsMono_trans mB (connsMono_trans mC mD)
      have mCD := connsMono_trans mC mD
      refine ⟨⟨?_, ?_, ?_, ?_, ?_, ?_⟩, ⟨rfl, mAll.1, ?_, ?_, ?_, ?_, ?_⟩,
        mAll⟩
      · intro x hx
        exact srcP_mono mBCD (clA x hx)
      · intro x hx
        exact linkPF_mono mCD (clBF x hx)
      · intro x hx
        exact linkPR_mono mCD (clBR x hx)
      · intro x hx
        exact routerPF_mono mD (clCF x hx)
      · intro x hx
        exact routerPR_mono mD (clCR x hx)
      · intro x hx
        exact clD x hx
      · intro j
        exact connsMono_revlen mAll j
      · exact mapA
      · exact mapB
      · exact mapC
      · exact mapD

/-- Helper: shape equality is transitive. -/
theorem sameShape_trans {s1 s2 s3 : NocSimulator}
    (h12 : sameShape s1 s2) (h23 : sameShape s2 s3) : sameShape s1 s3 := by
  obtain ⟨a1, a2, a3, a4, a5, a6, a7⟩ := h12
  obtain ⟨b1, b2, b3, b4, b5, b6, b7⟩ := h23
  exact ⟨b1.trans a1, b2.trans a2, fun j => (b3 j).trans (a3 j),
    b4.trans a4, b5.trans a5, b6.trans a6, b7.trans a7⟩

/-- Helper: index sanity transfers along shape equality. -/
theorem indexBounds_of_sameShape {s s' : NocSimulator}
    (hs : sameShape s s') (hB : IndexBounds s) : IndexBounds s' := by
  obtain ⟨hc, hlen, hrev, hmapS, hmapL, hmapR, hmapK⟩ := hs
  obtain ⟨b1, b2, b3, b4⟩ := hB
  refine ⟨?_, ?_, ?_, ?_⟩
  · intro x hx
    have hm : x.sink_connection_index ∈
        s'.network_interface_sources.map
          (fun y => y.sink_connection_index) :=
      List.mem_map_of_mem _ hx
    rw [hmapS] at hm
    obtain ⟨y, hy, he⟩ := List.mem_map.mp hm
    rw [hlen, ← he]
    exact b1 y hy
  · intro x hx
    have hm : (x.src_connection_index, x.sink_connection_index) ∈
        s'.links.map
          (fun y => (y.src_connection_index, y.sink_connection_index)) :=
      List.mem_map_of_mem _ hx
    rw [hmapL] at hm
    obtain ⟨y, hy, he⟩ := List.mem_map.mp hm
    injection he with hes hek
    refine ⟨?_, ?_, ?_⟩
    · rw [hlen, ← hes]
      exact (b2 y hy).1
    · rw [hlen, ← hek]
      exact (b2 y hy).2.1
    · rw [hrev, hrev, ← hes, ← hek]
      exact (b2 y hy).2.2
  · intro x hx
    have hm : (x.input_connection_index, x.output_connection_index) ∈
        s'.routers.map
          (fun y => (y.input_connection_index,
            y.output_connection_index)) :=
      List.mem_map_of_mem _ hx
    rw [hmapR] at hm
    obtain ⟨y, hy, he⟩ := List.mem_map.mp hm
    injection he with hei heo
    refine ⟨fun j hj => ?_, fun j hj => ?_⟩
    · rw [hlen]
      rw [← hei] at hj
      exact (b3 y hy).1 j hj
    · rw [hlen]
      rw [← heo] at hj
      exact (b3 y hy).2 j hj
  · intro x hx
    have hm : x.src_connection_index ∈
        s'.network_interface_sinks.map
          (fun y => y.src_connection_index) :=
      List.mem_map_of_mem _ hx
    rw [hmapK] at hm
    obtain ⟨y, hy, he⟩ := List.mem_map.mp hm
    rw [hlen, ← he]
    exact b4 y hy

/-- Helper: connection coverage transfers along shape equality. -/
theorem covered_of_sameShape {s s' : NocSimulator}
    (hs : sameShape s s') (hC : Covered s) : Covered s' := by
  obtain ⟨hc, hlen, hrev, hmapS, hmapL, hmapR, hmapK⟩ := hs
  have hLk : s'.links.map (fun x => x.sink_connection_index) =
      s.links.map (fun x => x.sink_connection_index) := by
    have h1 := congrArg (List.map Prod.snd) hmapL
    rw [List.map_map, List.map_map] at h1
    exact h1
  have hLs : s'.links.map (fun x => x.src_connection_index) =
      s.links.map (fun x => x.src_connection_index) := by
    have h1 := congrArg (List.map Prod.fst) hmapL
    rw [List.map_map, List.map_map] at h1
    exact h1
  have hRo : s'.routers.map (fun x => x.output_connection_index) =
      s.routers.map (fun x => x.output_connection_index) := by
    have h1 := congrArg (List.map Prod.snd) hmapR
    rw [List.map_map, List.map_map] at h1
    exact h1
  have hRi : s'.routers.map (fun x => x.input_connection_index) =
      s.routers.map (fun x => x.input_connection_index) := by
    have h1 := congrArg (List.map Prod.fst) hmapR
    rw [List.map_map, List.map_map] at h1
    exact h1
  intro j hj
  rw [hlen] at hj
  obtain ⟨hfwd, hrevd⟩ := hC j hj
  constructor
  · rcases hfwd with h1 | h1 | ⟨l, hl, hjl⟩
    · exact Or.inl (by rw [hmapS]; exact h1)
    · exact Or.inr (Or.inl (by rw [hLk]; exact h1))
    · exact Or.inr (Or.inr ⟨l, by rw [hRo]; exact hl, hjl⟩)
  · rcases hrevd with h1 | h1 | ⟨l, hl, hjl⟩
    · exact Or.inl (by rw [hmapK]; exact h1)
    · exact Or.inr (Or.inl (by rw [hLs]; exact h1))
    · exact Or.inr (Or.inr ⟨l, by rw [hRi]; exact hl, hjl⟩)

/-- Helper: the convergence loop keeps the stamp invariant and the shape,
and its converged state has every component's both markers at the current
cycle. -/
theorem runTickLoop_inv :
    ∀ (fuel : Nat) (s : NocSimulator) (n : Int) (s2 : NocSimulator)
      (k : Int),
      runTickLoop fuel s n = .converged s2 k →
      IndexBounds s → StampInv s →
      StampInv s2 ∧ sameShape s s2 ∧ allConverged s2 := by
  intro fuel
  induction fuel with
  | zero => intro s n s2 k h _ _; cases h
  | succ fuel ih =>
      intro s n s2 k h hB hI
      unfold runTickLoop at h
      cases ht : tick s with
      | none => rw [ht] at h; cases h
      | some p =>
          rw [ht] at h
          obtain ⟨s1, conv⟩ := p
          dsimp only at h
          by_cases hc : conv = true
          · subst hc
            rw [if_pos rfl] at h
            injection h with h1 h2
            subst h1
            have hstep := tick_stampinv s s1 true ht hB hI
            exact ⟨hstep.1, hstep.2.1, tick_true_allConverged s s1 ht⟩
          · rw [if_neg (by simpa using hc)] at h
            have hstep := tick_stampinv s s1 conv ht hB hI
            obtain ⟨hI1, hsh1, _⟩ := hstep
            obtain ⟨hI2, hsh2, hconv⟩ := ih s1 (n + 1) s2 k h
              (indexBounds_of_sameShape hsh1 hB) hI1
            exact ⟨hI2, sameShape_trans hsh1 hsh2, hconv⟩

/-! ## Claim theorem: the post-cycle stamp invariant (C3) -/

/-- C3: for every connection `c` and every cycle `k`, after `RunCycle`
returns Ok for cycle `k` on a well-formed network (all component connection
indices in range, every connection driven by some component in each
direction, and all phase markers at or below the pre-call cycle), `c`'s
forward channel cycle stamp equals `k` and, for every VC `v` of `c`, `c`'s
reverse channel `v`'s cycle stamp equals `k`, where `k` is the incremented
cycle counter. -/
theorem run_cycle_stamps_all_connections (fuel : Nat) (max_ticks : Int)
    (s s' : NocSimulator) (hB : IndexBounds s) (hC : Covered s)
    (hF : FlagsBelow s) (h : runCycle fuel max_ticks s = .ok s') :
    s'.cycle = s.cycle + 1 ∧
    ∀ j < s'.connections.length,
      StampedF s'.cycle s'.connections j ∧
      ∀ vc < (getConn s'.connections j).reverse_channels.length,
        StampedR s'.cycle s'.connections j vc := by
  unfold runCycle at h
  dsimp only at h
  cases hloop : runTickLoop fuel { s with cycle := s.cycle + 1 } 0 with
  | crashed => rw [hloop] at h; cases h
  | fuelOut t m => rw [hloop] at h; cases h
  | converged s2 k =>
      rw [hloop] at h
      dsimp only at h
      split at h
      · cases h
      · injection h with h1
        subst h1
        have hB1 : IndexBounds { s with cycle := s.cycle + 1 } := hB
        have hC1 : Covered { s with cycle := s.cycle + 1 } := hC
        have hI1 : StampInv { s with cycle := s.cycle + 1 } := by
          obtain ⟨f1, f2, f3, f4⟩ := hF
          refine ⟨?_, ?_, ?_, ?_, ?_, ?_⟩
          · intro x hx hf
            have h1 := (f1 x hx).1
            have h2 : x.forward_propagated_cycle = s.cycle + 1 := hf
            exact absurd h2 (by omega)
          · intro x hx hf
            have h1 := (f2 x hx).1
            have h2 : x.forward_propagated_cycle = s.cycle + 1 := hf
            exact absurd h2 (by omega)
          · intro x hx hf
            have h1 := (f2 x hx).2
            have h2 : x.reverse_propagated_cycle = s.cycle + 1 := hf
            exact absurd h2 (by omega)
          · intro x hx hf
            have h1 := (f3 x hx).1
            have h2 : x.forward_propagated_cycle = s.cycle + 1 := hf
            exact absurd h2 (by omega)
          · intro x hx hf
            have h1 := (f3 x hx).2
            have h2 : x.reverse_propagated_cycle = s.cycle + 1 := hf
            exact absurd h2 (by omega)
          · intro x hx hf
            have h1 := (f4 x hx).1
            have h2 : x.forward_propagated_cycle = s.cycle + 1 := hf
            exact absurd h2 (by omega)
        obtain ⟨hI2, hsh, hcv⟩ := runTickLoop_inv fuel _ 0 s2 k hloop
          hB1 hI1
        have hcyc : s2.cycle = s.cycle + 1 := hsh.1
        have hC2 : Covered s2 := covered_of_sameShape hsh hC1
        refine ⟨hcyc, ?_⟩
        intro j hj
        obtain ⟨hfwd, hrevd⟩ := hC2 j hj
        obtain ⟨i1, i2, i3, i4, i5, i6⟩ := hI2
        obtain ⟨c1, c2, c3, c4⟩ := hcv
        constructor
        · rcases hfwd with h1 | h1 | ⟨l, hl, hjl⟩
          · obtain ⟨x, hx, he⟩ := List.mem_map.mp h1
            rw [← he]
            exact i1 x hx (c1 x hx).1
          · obtain ⟨x, hx, he⟩ := List.mem_map.mp h1
            rw [← he]
            exact i2 x hx (c2 x hx).1
          · obtain ⟨x, hx, he⟩ := List.mem_map.mp hl
            refine i4 x hx (c3 x hx).1 j ?_
            rw [he]
            exact hjl
        · intro vc hvc
          rcases hrevd with h1 | h1 | ⟨l, hl, hjl⟩
          · obtain ⟨x, hx, he⟩ := List.mem_map.mp h1
            rw [← he] at hvc ⊢
            exact i6 x hx (c4 x hx).1 vc hvc
          · obtain ⟨x, hx, he⟩ := List.mem_map.mp h1
            rw [← he] at hvc ⊢
            exact i3 x hx (c2 x hx).2 vc hvc
          · obtain ⟨x, hx, he⟩ := List.mem_map.mp hl
            refine i5 x hx (c3 x hx).2 j ?_ vc hvc
            rw [he]
            exact hjl

/-- Witness for C3: on the concrete one-source, one-sink network, `RunCycle`
succeeds and every connection's forward and reverse channels carry the new
cycle's stamp. -/
theorem run_cycle_stamps_all_connections_witness :
    IndexBounds c3sim ∧ Covered c3sim ∧ FlagsBelow c3sim ∧
    runCycle 8 5 c3sim = .ok c3simResult ∧
    (c3simResult.cycle = c3sim.cycle + 1 ∧
      ∀ j < c3simResult.connections.length,
        StampedF c3simResult.cycle c3simResult.connections j ∧
        ∀ vc < (getConn c3simResult.connections j).reverse_channels.length,
          StampedR c3simResult.cycle c3simResult.connections j vc) := by
  refine ⟨?_, ?_, ?_, rfl, ?_⟩
  · unfold IndexBounds
    decide
  · unfold Covered
    decide
  · unfold FlagsBelow
    decide
  · exact run_cycle_stamps_all_connections 8 5 c3sim c3simResult
      (by unfold IndexBounds; decide) (by unfold Covered; decide)
      (by unfold FlagsBelow; decide) rfl

end NocSim
